import Mathlib

/-!
# ISO 8601 codec: formatter, format detector, field parser and combiner

A shallow embedding of `iso8601.h` / `iso8601.cpp`.

* Texts are `List Char`; a `const char*` into a text is a position (`Nat`), the end pointer `e`
  is the position `len_`.  Reading a position outside the list yields the NUL character.
* `std::chrono` durations and time points are their tick counts (`Int`): `local_days` counts days,
  `nanoseconds` nanoseconds, `seconds` seconds.
* C integer division is `Int.tdiv` (truncation towards zero); `floor<...>` is `/` on `Int`.
* Out-parameters are passed and returned explicitly.
* The calendar (`date.h`, `iso_week.h`) and the clock are collaborators of the codec; the calendar
  is modelled in the section "Calendar service", the clock is the parameter `today`.
-/

namespace Iso8601

/-! ## Format description (`iso8601.h`) -/

/-- The enum `ISO8601Format::DateTime`, in declaration order. -/
inductive DateTime where
  | ymd_hms | ywd_hms | yd_hms
  | ymd_hm | ywd_hm | yd_hm
  | ymd_h | ywd_h | yd_h
  | hms | hm | h
  | ymd | ywd | yd | yw | ym | y
  | Invalid
  deriving DecidableEq

/-- The underlying `uint8_t` value of a `DateTime` enumerator. -/
def DateTime.toNat : DateTime → Nat
  | .ymd_hms => 0 | .ywd_hms => 1 | .yd_hms => 2
  | .ymd_hm => 3 | .ywd_hm => 4 | .yd_hm => 5
  | .ymd_h => 6 | .ywd_h => 7 | .yd_h => 8
  | .hms => 9 | .hm => 10 | .h => 11
  | .ymd => 12 | .ywd => 13 | .yd => 14 | .yw => 15 | .ym => 16 | .y => 17
  | .Invalid => 18

/-- The enum `ISO8601Format::Offset`. -/
inductive Offset where
  | hm | h | zulu | none
  deriving DecidableEq

/-- The bit-field struct `ISO8601Format::Extra` (default constructor: all flags clear). -/
structure Extra where
  _useComma : Bool := false
  _omitT : Bool := false
  _basicDatetime : Bool := false
  _basicOffset : Bool := false
  deriving DecidableEq

/-- The struct `ISO8601Format` (default constructor: `ymd_hms`, `Offset::hm`, no flags). -/
structure ISO8601Format where
  _datetime : DateTime := DateTime.ymd_hms
  _offset : Offset := Offset.hm
  _extra : Extra := {}
  deriving DecidableEq

/-- The enum `ParseType`. -/
inductive ParseType where
  | DateOnly | TimeOnly | DateTime
  deriving DecidableEq

/-- The enum `detail::Precision`. -/
inductive Precision where
  | Second | MilliSecond | MicroSecond | NanoSecond
  deriving DecidableEq

/-! ## Calendar service (`date.h`, `iso_week.h`) -/

/-- Modelled from the spec: `isLeapYear(year)` of the Calendar service (`date::year::is_leap`),
the proleptic Gregorian leap-year rule. -/
def isLeapYear (y : Int) : Bool :=
  y % 4 == 0 && (y % 100 != 0 || y % 400 == 0)

/-- Modelled from the spec: the number of days of month `m` in year `y`
(the day of `year/month/last` in `date.h`). -/
def lastDayOf (y : Int) (m : Nat) : Nat :=
  if m == 2 then (if isLeapYear y then 29 else 28)
  else if m == 4 || m == 6 || m == 9 || m == 11 then 30 else 31

/-- Modelled from the spec: the `valid?` part of `dayCountOf(year, month, day)`
(`date::year_month_day::ok`): the month is 1..12 and the day exists in that month. -/
def validDate (y : Int) (m d : Nat) : Bool :=
  decide (1 ≤ m) && decide (m ≤ 12) && decide (1 ≤ d) && decide (d ≤ lastDayOf y m)

/-- Modelled from the spec: `dayCountOf(year, month, day)` of the Calendar service (the conversion
of `date::year_month_day` to `local_days`): days since 1970-01-01 in the proleptic Gregorian
calendar. -/
def dayCountOf (y : Int) (m d : Nat) : Int :=
  let y1 : Int := if m ≤ 2 then y - 1 else y
  let era : Int := y1 / 400
  let yoe : Int := y1 - era * 400
  let mp : Int := if m > 2 then (m : Int) - 3 else (m : Int) + 9
  let doy : Int := (153 * mp + 2) / 5 + (d : Int) - 1
  let doe : Int := yoe * 365 + yoe / 4 - yoe / 100 + doy
  era * 146097 + doe - 719468

/-- Modelled from the spec: the calendar fields (year, month, day) of a day count
(the conversion of `local_days` to `date::year_month_day`). -/
def civilOf (dp : Int) : Int × Nat × Nat :=
  let z : Int := dp + 719468
  let era : Int := z / 146097
  let doe : Int := z - era * 146097
  let yoe : Int := (doe - doe / 1460 + doe / 36524 - doe / 146096) / 365
  let y : Int := yoe + era * 400
  let doy : Int := doe - (365 * yoe + yoe / 4 - yoe / 100)
  let mp : Int := (5 * doy + 2) / 153
  let d : Int := doy - (153 * mp + 2) / 5 + 1
  let m : Int := if mp < 10 then mp + 3 else mp - 9
  (if m ≤ 2 then y + 1 else y, m.toNat, d.toNat)

/-- Modelled from the spec: the ISO weekday (1 = Monday .. 7 = Sunday) of a day count
(`iso_week::weekday` of `local_days`); day 0 is a Thursday. -/
def isoWeekdayOf (dp : Int) : Nat :=
  ((dp + 3) % 7).toNat + 1

/-- Modelled from the spec: the day count of the Monday that starts ISO week 1 of ISO week-year `y`
(in `iso_week.h`: the last Thursday of December of `y - 1`, plus `mon - thu`), that is the Monday
on or before 4 January. -/
def week1Start (y : Int) : Int :=
  let jan4 := dayCountOf y 1 4
  jan4 - (jan4 + 3) % 7

/-- Modelled from the spec: the number of ISO weeks (52 or 53) of ISO week-year `y`
(`iso_week::year_lastweek::weeknum`). -/
def weeksInYear (y : Int) : Nat :=
  ((week1Start (y + 1) - week1Start y) / 7).toNat

/-- Modelled from the spec: the `valid?` part of `weekDateOf(year, week, weekday)`
(`iso_week::year_weeknum_weekday::ok`): the weekday is 1..7 and the week exists in that
ISO week-year. -/
def validWeekDate (y : Int) (wn wd : Nat) : Bool :=
  decide (1 ≤ wd) && decide (wd ≤ 7) && decide (1 ≤ wn) && decide (wn ≤ weeksInYear y)

/-- Modelled from the spec: `weekDateOf(year, week, weekday)` of the Calendar service
(the conversion of `iso_week::year_weeknum_weekday` to `local_days`). -/
def weekDateOf (y : Int) (wn wd : Nat) : Int :=
  week1Start y + 7 * ((wn : Int) - 1) + ((wd : Int) - 1)

/-- Modelled from the spec: the ISO week date (week-year, week number, weekday) of a day count
(the conversion of `local_days` to `iso_week::year_weeknum_weekday`). -/
def weekOf (dp : Int) : Int × Nat × Nat :=
  let y0 : Int := (civilOf (dp + 3)).1
  let y : Int := if dp < week1Start y0 then y0 - 1 else y0
  (y, ((dp - week1Start y) / 7).toNat + 1, isoWeekdayOf dp)

/-- Modelled from the spec: the narrowing to `unsigned char` done by the constructors of
`date::month`, `date::day`, `iso_week::weeknum` and `iso_week::weekday`. -/
def u8 (v : Int) : Nat := (v % 256).toNat

/-- Modelled from the spec: the narrowing to `short` done by the constructors of `date::year`
and `iso_week::year`. -/
def i16 (v : Int) : Int := (v + 32768) % 65536 - 32768

/-! ## Characters and `printf` conversions -/

/-- The NUL character. -/
def NUL : Char := Char.ofNat 0

/-- `isdigit` of `<ctype.h>`. -/
def isdigit (c : Char) : Bool := decide (48 ≤ c.toNat) && decide (c.toNat ≤ 57)

/-- The character `'0' + d % 10`. -/
def digitChar (d : Nat) : Char := Char.ofNat (48 + d % 10)

/-- Decimal digits of `n`, most significant first, at least one digit; `fuel` bounds the
number of digits. -/
def decimalAux : Nat → Nat → List Char → List Char
  | 0, _, acc => acc
  | fuel + 1, n, acc =>
    if n < 10 then digitChar n :: acc else decimalAux fuel (n / 10) (digitChar n :: acc)

/-- Decimal digits of `n`. -/
def decimal (n : Nat) : List Char := decimalAux (n + 1) n []

/-- The conversion `%0<width>d` (and `%d` for width 0): sign, zero padding, digits. -/
def fmt_d (width : Nat) (v : Int) : List Char :=
  let ds := decimal v.natAbs
  let sign : List Char := if v < 0 then ['-'] else []
  sign ++ List.replicate (width - (sign.length + ds.length)) '0' ++ ds

/-- One element of a `printf` format string. -/
inductive Conv where
  | lit (c : Char)
  | d (width : Nat)
  | c
  deriving DecidableEq

/-- The text produced by a `printf` format for a list of arguments; surplus arguments are
ignored, as in C. -/
def vformat : List Conv → List Int → List Char
  | [], _ => []
  | Conv.lit ch :: fs, args => ch :: vformat fs args
  | Conv.d w :: fs, a :: args => fmt_d w a ++ vformat fs args
  | Conv.c :: fs, a :: args => Char.ofNat a.toNat :: vformat fs args
  | _ :: fs, [] => vformat fs []

/-! ## The `formats` table and output buffer (`iso8601.cpp`) -/

/-- The struct `FormatHelper`; a null format string is `none`. -/
structure FormatHelper where
  _date : DateTime
  _time : DateTime
  _format_str_sep : Option (List Conv)
  _format_str : Option (List Conv)

/-- The table `formats[]`, indexed by the value of the `DateTime` enumerator. -/
def formats : List FormatHelper :=
  [ ⟨.ymd, .hms, none, none⟩, ⟨.ywd, .hms, none, none⟩, ⟨.yd, .hms, none, none⟩,
    ⟨.ymd, .hm, none, none⟩, ⟨.ywd, .hm, none, none⟩, ⟨.yd, .hm, none, none⟩,
    ⟨.ymd, .h, none, none⟩, ⟨.ywd, .h, none, none⟩, ⟨.yd, .h, none, none⟩,
    -- time only
    ⟨.Invalid, .hms, some [.d 2, .lit ':', .d 2, .lit ':', .d 2], some [.d 2, .d 2, .d 2]⟩,
    ⟨.Invalid, .hm, some [.d 2, .lit ':', .d 2], some [.d 2, .d 2]⟩,
    ⟨.Invalid, .h, some [.d 2], some [.d 2]⟩,
    -- date only
    ⟨.ymd, .Invalid, some [.d 4, .lit '-', .d 2, .lit '-', .d 2], some [.d 4, .d 2, .d 2]⟩,
    ⟨.ywd, .Invalid, some [.d 4, .lit '-', .c, .d 2, .lit '-', .d 0], some [.d 4, .c, .d 2, .d 0]⟩,
    ⟨.yd, .Invalid, some [.d 4, .lit '-', .d 3], some [.d 4, .d 3]⟩,
    ⟨.yw, .Invalid, some [.d 4, .lit '-', .c, .d 2], some [.d 4, .c, .d 2]⟩,
    ⟨.ym, .Invalid, some [.d 4, .lit '-', .d 2], some [.d 4, .d 2]⟩,
    ⟨.y, .Invalid, some [.d 4], some [.d 4]⟩ ]

/-- The entry `formats[(unsigned)dt]`. -/
def formatHelper (dt : DateTime) : FormatHelper :=
  formats.getD dt.toNat ⟨.Invalid, .Invalid, none, none⟩

/-- The function `buflen`. -/
def buflen (p e : Nat) : Nat := if p < e then e - p else 0

/-- The output pointer `p` together with the memory of `buf_`. -/
structure Out where
  mem : List Char
  p : Nat

/-- Stores the characters of `s` at positions `p, p+1, ...` of `mem`. -/
def writeAt : List Char → Nat → List Char → List Char
  | mem, _, [] => mem
  | mem, p, c :: cs => writeAt (mem.set p c) (p + 1) cs

/-- The statement `p += snprintf(p, buflen(p, e), ...)` where the formatted text is `s`:
at most `buflen - 1` characters and a NUL are stored, `p` advances by the full length. -/
def Out.snprintf (o : Out) (e : Nat) (s : List Char) : Out :=
  let n := buflen o.p e
  { mem := if n = 0 then o.mem else writeAt o.mem o.p (s.take (n - 1) ++ [NUL]),
    p := o.p + s.length }

/-- The statements `if (p < e) *p = c; ++p;`. -/
def Out.putc (o : Out) (e : Nat) (c : Char) : Out :=
  { mem := if o.p < e then o.mem.set o.p c else o.mem, p := o.p + 1 }

/-! ## Formatter (`detail::format_iso8601`) -/

/-- The text of the date field: the `snprintf` arguments of the `switch (fh._date)` of
`detail::format_iso8601` for the date variant `date` and the day count `ld`. -/
def dateText (format_ : ISO8601Format) (date : DateTime) (ld : Int) : List Char :=
  let fmtstr : List Conv :=
    if format_._extra._basicDatetime then ((formatHelper date)._format_str).getD []
    else ((formatHelper date)._format_str_sep).getD []
  match date with
  | DateTime.ywd | DateTime.yw =>
    -- get ISO weeknum and weekday
    let yww := weekOf ld
    vformat fmtstr [yww.1, 87, (yww.2.1 : Int), (yww.2.2 : Int)]
  | DateTime.yd =>
    let ymd := civilOf ld
    let yd : Int := (ld - dayCountOf ymd.1 1 1) + 1
    vformat fmtstr [ymd.1, yd]
  | _ =>
    -- ymd / ym / y
    let ymd := civilOf ld
    vformat fmtstr [ymd.1, (ymd.2.1 : Int), (ymd.2.2 : Int)]

/-- The text of the time fields: `snprintf(p, buflen(p, e), fmtstr, h, m, s)` for the time
variant `time` and the time of day `tod` (nanoseconds). -/
def timeText (format_ : ISO8601Format) (time : DateTime) (tod : Int) : List Char :=
  let fmtstr : List Conv :=
    if format_._extra._basicDatetime then ((formatHelper time)._format_str).getD []
    else ((formatHelper time)._format_str_sep).getD []
  let h : Int := tod / 3600000000000
  let m : Int := (tod % 3600000000000) / 60000000000
  let s : Int := (tod % 60000000000) / 1000000000
  vformat fmtstr [h, m, s]

/-- The fraction computed by `detail::format_iso8601`: the values of `frac` and `fdig` after the
two `switch` statements on `fh._time` and on `precision_`. -/
def fraction (time : DateTime) (precision_ : Precision) (lt tod : Int) : Int × Nat :=
  let m : Int := (tod % 3600000000000) / 60000000000
  let s : Int := (tod % 60000000000) / 1000000000
  let frac_time : Int := lt - (lt / 1000000000) * 1000000000
  let fracfdig : Int × Nat :=
    match time with
    | DateTime.hm => (Int.tdiv ((frac_time + s * 1000000000) * 1000) 60, 3)
    | DateTime.h =>
      (Int.tdiv ((frac_time + (m * 60000000000 + s * 1000000000)) * 1000 * 1000) 3600, 6)
    | _ => (frac_time, 0)
  match precision_ with
  | Precision.Second => (Int.tdiv fracfdig.1 1000000000, fracfdig.2 + 0)
  | Precision.MilliSecond => (Int.tdiv fracfdig.1 1000000, fracfdig.2 + 3)
  | Precision.MicroSecond => (Int.tdiv fracfdig.1 1000, fracfdig.2 + 6)
  | Precision.NanoSecond => (fracfdig.1, fracfdig.2 + 9)

/-- The conversion of a 64-bit integer to `int` (32 bits, two's complement wrap-around), as in
`int min_offset = offset / 60`. -/
def i32 (v : Int) : Int := (v + 2147483648) % 4294967296 - 2147483648

/-- The text of a numeric offset: the block of `case ISO8601Format::Offset::hm` with the
format string `tzfmt`.  The offset is a 64-bit count of seconds; `min_offset` and `hour_offset`
are `int`. -/
def numericOffsetText (tzfmt : List Conv) (gmt_offset_ : Int) : List Char :=
  let offset := gmt_offset_
  let min_offset : Int := i32 (Int.tdiv offset 60)
  let hour_offset : Int := Int.tdiv min_offset 60
  if min_offset < 0 then
    -- sign = '-'; min_offset = hour_offset * 60 - min_offset; hour_offset = -hour_offset
    vformat tzfmt [45, -hour_offset, hour_offset * 60 - min_offset]
  else
    -- sign = '+'; min_offset -= hour_offset * 60
    vformat tzfmt [43, hour_offset, min_offset - hour_offset * 60]

/-- The text of the offset suffix: the `switch (offset_format)` of `detail::format_iso8601`;
`none` when no `snprintf` is executed (`Offset::none`). -/
def offsetText (format_ : ISO8601Format) (gmt_offset_ : Int) : Option (List Char) :=
  let tzfmt : List Conv :=
    if format_._extra._basicOffset then [Conv.c, Conv.d 2, Conv.d 2]
    else [Conv.c, Conv.d 2, Conv.lit ':', Conv.d 2]
  let offset_format : Offset :=
    if gmt_offset_ = 0 ∧ format_._offset ≠ Offset.none then Offset.zulu else format_._offset
  match offset_format with
  | Offset.zulu => some ['Z']
  | Offset.h => some (numericOffsetText [Conv.c, Conv.d 2] gmt_offset_)
  | Offset.hm => some (numericOffsetText tzfmt gmt_offset_)
  | Offset.none => none

/-- The function `detail::format_iso8601`.  `buf_` is `none` for a null pointer, otherwise the
memory the pointer refers to; the result is the returned length and the final memory.
`lt_` is the local time in nanoseconds, `gmt_offset_` the offset in seconds. -/
def detail.format_iso8601 (buf_ : Option (List Char)) (maxlen_ : Nat) (format_ : ISO8601Format)
    (precision_ : Precision) (lt_ : Int) (gmt_offset_ : Int) : Nat × List Char :=
  let maxlen : Nat := if buf_.isNone then 0 else maxlen_
  let e : Nat := maxlen
  let o : Out := { mem := if 0 < e then (buf_.getD []).set 0 NUL else buf_.getD [], p := 0 }
  let dtfmt := format_._datetime
  if dtfmt.toNat ≥ DateTime.Invalid.toNat then (0, o.mem) else
  -- get the local time. If format is zulu, get the sys_time but represent it in local_time.
  let lt : Int := if format_._offset = Offset.zulu then lt_ - gmt_offset_ * 1000000000 else lt_
  let ld : Int := lt / 86400000000000
  let tod : Int := lt - ld * 86400000000000
  let fh := formatHelper dtfmt
  let o : Out :=
    if fh._date ≠ DateTime.Invalid then o.snprintf e (dateText format_ fh._date ld) else o
  if fh._time ≠ DateTime.Invalid then
    -- Now time part
    let o : Out := if !format_._extra._omitT then o.putc e 'T' else o
    let o : Out := o.snprintf e (timeText format_ fh._time tod)
    -- now fraction
    let frac : Int := (fraction fh._time precision_ lt tod).1
    let fdig : Nat := (fraction fh._time precision_ lt tod).2
    let o : Out :=
      if frac ≠ 0 then
        -- output the fraction part
        (o.putc e (if format_._extra._useComma then ',' else '.')).snprintf e (fmt_d fdig frac)
      else o
    let o : Out :=
      match offsetText format_ gmt_offset_ with
      | some t => o.snprintf e t
      | none => o
    (o.p, o.mem)
  else (o.p, o.mem)

/-- The public template `format_iso8601`: formats into `char buf[64]` (initial content `buf`)
and returns `std::string(buf)`, the characters before the first NUL.  `precision_` is
`get_precision<Duration>()`; `lt_` and `gmt_offset_` are the local time and the offset of the
zoned time. -/
def format_iso8601 (buf : List Char) (precision_ : Precision) (lt_ : Int) (gmt_offset_ : Int)
    (format_ : ISO8601Format) : List Char :=
  (detail.format_iso8601 (some buf) 64 format_ precision_ lt_ gmt_offset_).2.takeWhile
    (fun c => c != NUL)

/-! ## Format detector (`detectDateOrTimeFormat`) -/

/-- The character `*p` of the text `s` (NUL outside the list). -/
def charAt (s : List Char) (p : Nat) : Char := s.getD p NUL

/-- The number of leading digit characters of a list. -/
def digitsRun : List Char → Nat
  | [] => 0
  | c :: cs => if isdigit c then digitsRun cs + 1 else 0

/-- The function `digits(p, e)`: the length of the digit run that starts at `p` and stops
before `e`. -/
def digits (s : List Char) (p e : Nat) : Nat := digitsRun ((s.take e).drop p)

/-- The macro `RET_FMT(f)`: store `f` in the format under construction and return it. -/
def RET_FMT (fmt : ISO8601Format) (f : DateTime) : Option ISO8601Format :=
  some { fmt with _datetime := f }

/-- The function `detectDateOrTimeFormat(p, e, pt_, outFmt_)`: `some fmt` when it returns true
and has assigned `fmt` to `outFmt_`, `none` when it returns false (and leaves `outFmt_` as
it was). -/
def detectDateOrTimeFormat (s : List Char) (p e : Nat) (pt_ : ParseType) :
    Option ISO8601Format :=
  -- the offset part is not detected here
  let fmt : ISO8601Format := { _offset := Offset.none }
  let time_only : Bool := pt_ == ParseType.TimeOnly
  let isT : Bool := decide (p < e) && (charAt s p == 'T' || charAt s p == 't')
  if isT && pt_ == ParseType.DateOnly then none else
  let time_only : Bool := if isT then true else time_only
  -- set omitT to true for the time only format; it is set back to false for the date format
  let fmt : ISO8601Format :=
    if decide (p < e) && !isT then { fmt with _extra := { fmt._extra with _omitT := true } }
    else fmt
  let p : Nat := if isT then p + 1 else p
  let d := digits s p e
  let p := p + d
  if d = 2 then
    -- hh
    if pt_ == ParseType.DateOnly then none
    else if decide (p < e) && charAt s p == ':' then
      -- hh:
      let p := p + 1
      let d := digits s p e
      let p := p + d
      if d = 2 then
        -- hh:mm
        if decide (p < e) && charAt s p == ':' then
          -- hh:mm:ss
          if digits s (p + 1) e = 2 then RET_FMT fmt DateTime.hms else none
        else RET_FMT fmt DateTime.hm
      else none
    else RET_FMT fmt DateTime.h
  else if d = 4 then
    -- hhmm
    if time_only then
      RET_FMT { fmt with _extra := { fmt._extra with _basicDatetime := true } } DateTime.hm
    else
    -- Because below returning date part format, there is no T.
    let fmt : ISO8601Format := { fmt with _extra := { fmt._extra with _omitT := false } }
    -- YYYY
    if decide (p < e) && charAt s p == '-' then
      -- YYYY-
      let p := p + 1
      let d := digits s p e
      let p := p + d
      if d = 0 then
        if decide (p < e) && (charAt s p == 'W' || charAt s p == 'w') then
          -- YYYY-W
          let p := p + 1
          let d := digits s p e
          let p := p + d
          if d = 2 then
            if decide (p < e) && charAt s p == '-' then
              -- YYYY-Www-
              if digits s (p + 1) e = 0 then none
              else RET_FMT fmt DateTime.ywd
            else RET_FMT fmt DateTime.yw
          else none
        else none
      else if d = 2 then
        -- YYYY-MM
        if decide (p < e) && charAt s p == '-' then
          -- YYYY-MM-
          if digits s (p + 1) e = 0 ∨ digits s (p + 1) e = 1 then none
          else RET_FMT fmt DateTime.ymd
        else RET_FMT fmt DateTime.ym
      else
        -- YYYY-ddd
        RET_FMT fmt DateTime.yd
    else if decide (p < e) && (charAt s p == 'W' || charAt s p == 'w') then
      let fmt : ISO8601Format := { fmt with _extra := { fmt._extra with _basicDatetime := true } }
      -- YYYYW
      if digits s (p + 1) e = 2 then RET_FMT fmt DateTime.yw
      else RET_FMT fmt DateTime.ywd
    else RET_FMT fmt DateTime.y
  else if d = 6 then
    -- YYYYMM is NOT allowed therefore this can only be time
    RET_FMT { fmt with _extra := { fmt._extra with _basicDatetime := true } } DateTime.hms
  else if d = 7 then
    if time_only then none
    else
      -- YYYYDDD
      RET_FMT { fmt with _extra := { fmt._extra with _omitT := false, _basicDatetime := true } }
        DateTime.yd
  else if d = 8 then
    if time_only then none
    else
      -- YYYYMMDD
      RET_FMT { fmt with _extra := { fmt._extra with _basicDatetime := true, _omitT := false } }
        DateTime.ymd
  else
    if time_only then none
    else
      let fmt : ISO8601Format := { fmt with _extra := { fmt._extra with _basicDatetime := true } }
      if d > 8 then
        -- Because the number of digits of time part is even
        if d % 2 = 1 then RET_FMT fmt DateTime.yd
        else RET_FMT fmt DateTime.ymd
      else none

/-! ## Field parser (`num`, `frac`, `parseDate`, `parseTime`) -/

/-- The loop of `num`: `tv = tv * 10 + (*p - '0')` for `len` characters from `p`. -/
def numLoop (s : List Char) : Nat → Nat → Int → Int
  | 0, _, tv => tv
  | len + 1, p, tv => numLoop s len (p + 1) (tv * 10 + (((charAt s p).toNat : Int) - 48))

/-- The function `num(&v, p, len)`: the value stored in `v` and the returned `len`. -/
def num (s : List Char) (p len : Nat) : Int × Nat := (numLoop s len p 0, len)

/-- The table `frac_to_nano[]`. -/
def frac_to_nano : List Int :=
  [100000000000000, 10000000000000, 1000000000000,
   100000000000, 10000000000, 1000000000, 100000000,
   10000000, 1000000, 100000, 10000,
   1000, 100, 10, 1]

/-- The function `frac(&v, p, e)`: the value stored in `v` and the returned digit count. -/
def frac (s : List Char) (p e : Nat) : Int × Nat :=
  let d := digits s p e
  if d > 0 then
    let n := if d > 15 then 15 else d
    ((num s p n).1 * frac_to_nano.getD (n - 1) 0, d)
  else (0, d)

/-- The function `parseDate(p, fmt_, ld_)`: the returned pointer and the value of `ld_`
afterwards.  The returned pointer is `p` itself (`origP`) on failure. -/
def parseDate (s : List Char) (p : Nat) (fmt_ : ISO8601Format) (ld_ : Int) : Nat × Int :=
  let origP := p
  let sep : Nat := if fmt_._extra._basicDatetime then 0 else 1
  match fmt_._datetime with
  | DateTime.ym =>
    let y := (num s p 4).1
    let p := p + ((num s p 4).2 + sep)
    let m := (num s p 2).1
    let p := p + (num s p 2).2
    if !validDate (i16 y) (u8 m) 1 then (origP, ld_)
    else (p, dayCountOf (i16 y) (u8 m) 1)
  | DateTime.ymd =>
    let y := (num s p 4).1
    let p := p + ((num s p 4).2 + sep)
    let m := (num s p 2).1
    let p := p + ((num s p 2).2 + sep)
    let d := (num s p 2).1
    let p := p + (num s p 2).2
    if !validDate (i16 y) (u8 m) (u8 d) then (origP, ld_)
    else (p, dayCountOf (i16 y) (u8 m) (u8 d))
  | DateTime.yw =>
    let y := (num s p 4).1
    let p := p + ((num s p 4).2 + (sep + 1))
    let w := (num s p 2).1
    let p := p + (num s p 2).2
    if w < 1 ∨ w > 53 then (origP, ld_)
    else (p, weekDateOf (i16 y) (u8 w) 1)
  | DateTime.ywd =>
    let y := (num s p 4).1
    let p := p + ((num s p 4).2 + (sep + 1))
    let wk := (num s p 2).1
    let p := p + ((num s p 2).2 + sep)
    let wd := (num s p 1).1
    let p := p + (num s p 1).2
    if !validWeekDate (i16 y) (u8 wk) (u8 wd) then (origP, ld_)
    else (p, weekDateOf (i16 y) (u8 wk) (u8 wd))
  | DateTime.yd =>
    let y := (num s p 4).1
    let p := p + ((num s p 4).2 + sep)
    let yd := (num s p 3).1
    let p := p + (num s p 3).2
    if yd ≤ 0 ∨ yd > 365 + (if isLeapYear (i16 y) then 1 else 0) then (origP, ld_)
    else (p, dayCountOf (i16 y) 1 1 + (yd - 1))
  | DateTime.y =>
    let y := (num s p 4).1
    let p := p + (num s p 4).2
    (p, dayCountOf (i16 y) 1 1)
  | _ => (origP, ld_)

/-- The `switch (fmt_._datetime)` of `parseTime`, reading the fields from `p`: the pointer behind
the fields, the value stored in `since_midnight_` and `fsec`; `none` for the default case
(`return origP`). -/
def parseTimeFields (s : List Char) (p : Nat) (fmt_ : ISO8601Format) :
    Option (Nat × Int × Int) :=
  let sep : Nat := if fmt_._extra._basicDatetime then 0 else 1
  match fmt_._datetime with
  | DateTime.h =>
    let h := (num s p 2).1
    let p := p + (num s p 2).2
    some (p, h * 3600000000000, 60 * 60)
  | DateTime.hm =>
    let h := (num s p 2).1
    let p := p + ((num s p 2).2 + sep)
    let m := (num s p 2).1
    let p := p + (num s p 2).2
    some (p, h * 3600000000000 + m * 60000000000, 60)
  | DateTime.hms =>
    let h := (num s p 2).1
    let p := p + ((num s p 2).2 + sep)
    let m := (num s p 2).1
    let p := p + ((num s p 2).2 + sep)
    let sec := (num s p 2).1
    let p := p + (num s p 2).2
    some (p, h * 3600000000000 + m * 60000000000 + sec * 1000000000, 1)
  | _ => none

/-- The outcome of the fraction block of `parseTime`: whether it ends in `return origP`, the
pointer and the format afterwards, and the nanoseconds added to `since_midnight_`. -/
structure FracResult where
  failed : Bool
  p : Nat
  fmt : ISO8601Format
  ns : Int
  deriving DecidableEq

/-- The fraction block of `parseTime` (the first `if (p < e)`), with `p` behind the fields. -/
def parseTimeFraction (s : List Char) (p e : Nat) (fmt_ : ISO8601Format) (fsec : Int) :
    FracResult :=
  let frComma : Bool := decide (p < e) && charAt s p == ','
  if decide (p < e) && (charAt s p == '.' || frComma) then
    let fmt1 : ISO8601Format := { fmt_ with _extra := { fmt_._extra with _useComma := frComma } }
    let p := p + 1
    let v := (frac s p e).1
    let fdig := (frac s p e).2
    if fdig = 0 then { failed := true, p := p, fmt := fmt1, ns := 0 }
    else
      let p := p + fdig
      { failed := false, p := p, fmt := fmt1, ns := Int.tdiv (v * fsec) 1000000 }
  else { failed := false, p := p, fmt := fmt_, ns := 0 }

/-- The outcome of the offset block of `parseTime`: whether it ends in `return origP`, the
pointer and the format afterwards, and the value of `gmt_offset_` afterwards. -/
structure OffsetResult where
  failed : Bool
  p : Nat
  fmt : ISO8601Format
  gmt_offset : Int
  deriving DecidableEq

/-- The offset block of `parseTime` (the second `if (p < e)`), with `p` behind the fraction. -/
def parseTimeOffset (s : List Char) (p e : Nat) (fmt_ : ISO8601Format) (gmt_offset_ : Int) :
    OffsetResult :=
  if p < e then
    let c := charAt s p
    if c == 'z' || c == 'Z' then
      { failed := false, p := p + 1, fmt := { fmt_ with _offset := Offset.zulu },
        gmt_offset := 0 }
    else if c == '-' || c == '+' then
      let negOffs : Bool := c == '-'
      -- gmt offset
      let p := p + 1
      let dg := digits s p e
      if dg = 2 then
        let hr := (num s p 2).1
        let p := p + (num s p 2).2
        if decide (p < e) && charAt s p == ':' then
          let fmt2 : ISO8601Format :=
            { fmt_ with _extra := { fmt_._extra with _basicOffset := false } }
          let p := p + 1
          if digits s p e = 2 then
            let mn := (num s p 2).1
            let p := p + (num s p 2).2
            let off : Int := hr * 3600 + mn * 60
            { failed := false, p := p, fmt := { fmt2 with _offset := Offset.hm },
              gmt_offset := if negOffs then -off else off }
          else
            { failed := true, p := p, fmt := fmt2, gmt_offset := gmt_offset_ }
        else
          let off : Int := hr * 3600 + 0 * 60
          { failed := false, p := p, fmt := { fmt_ with _offset := Offset.h },
            gmt_offset := if negOffs then -off else off }
      else if dg = 4 then
        let fmt2 : ISO8601Format :=
          { fmt_ with _extra := { fmt_._extra with _basicOffset := true } }
        let hr := (num s p 2).1
        let p := p + (num s p 2).2
        let mn := (num s p 2).1
        let p := p + (num s p 2).2
        let off : Int := hr * 3600 + mn * 60
        { failed := false, p := p, fmt := { fmt2 with _offset := Offset.hm },
          gmt_offset := if negOffs then -off else off }
      else
        { failed := true, p := p, fmt := fmt_, gmt_offset := gmt_offset_ }
    else
      { failed := false, p := p, fmt := { fmt_ with _offset := Offset.none }, gmt_offset := 0 }
  else
    { failed := false, p := p, fmt := { fmt_ with _offset := Offset.none }, gmt_offset := 0 }

/-- The in/out state of `parseTime`: the returned pointer and the referenced arguments. -/
structure TimeResult where
  p : Nat
  fmt : ISO8601Format
  since_midnight : Int
  gmt_offset : Int
  deriving DecidableEq

/-- The function `parseTime(p, e, fmt_, since_midnight_, gmt_offset_)`: the fields, then the
fraction, then the offset.  The returned pointer is `p` itself (`origP`) on failure; the
referenced arguments keep what was stored before the failure was found. -/
def parseTime (s : List Char) (p e : Nat) (fmt_ : ISO8601Format) (gmt_offset_ : Int) :
    TimeResult :=
  let origP := p
  let p : Nat := if !fmt_._extra._omitT then p + 1 else p
  match parseTimeFields s p fmt_ with
  | none => { p := origP, fmt := fmt_, since_midnight := 0, gmt_offset := gmt_offset_ }
  | some (p, since_midnight, fsec) =>
    let fr := parseTimeFraction s p e fmt_ fsec
    if fr.failed then
      { p := origP, fmt := fr.fmt, since_midnight := since_midnight, gmt_offset := gmt_offset_ }
    else
      let r := parseTimeOffset s fr.p e fr.fmt gmt_offset_
      { p := if r.failed then origP else r.p, fmt := r.fmt,
        since_midnight := since_midnight + fr.ns, gmt_offset := r.gmt_offset }

/-! ## Combiner and entry point (`detail::parse_iso8601`) -/

/-- The table `combine_formats[3][3]`; first index the date (ymd, ywd, yd), second index the
time (hms, hm, h). -/
def combine_formats : List (List DateTime) :=
  [ [DateTime.ymd_hms, DateTime.ymd_hm, DateTime.ymd_h],
    [DateTime.ywd_hms, DateTime.ywd_hm, DateTime.ywd_h],
    [DateTime.yd_hms, DateTime.yd_hm, DateTime.yd_h] ]

/-- The result of `detail::parse_iso8601`: the returned pair and the referenced arguments. -/
structure ParseResult where
  consumed : Nat
  format : ISO8601Format
  ld : Int
  since_midnight : Int
  gmt_offset : Int
  deriving DecidableEq

/-- The function `detail::parse_iso8601(str_, len_, ld_, since_midnight_, gmt_offset_, pt_)`.
The text `str_` is `s` from position 0; `ld_` is the value the caller's variable holds before
the call; `today` is the day count of `today(zone_cache::local())`. -/
def detail.parse_iso8601 (s : List Char) (len_ : Nat) (ld_ : Int) (today : Int)
    (pt_ : ParseType) : ParseResult :=
  let format : ISO8601Format := {}
  let e := len_
  match pt_ with
  | ParseType.DateOnly =>
    match detectDateOrTimeFormat s 0 e pt_ with
    | none => { consumed := 0, format := format, ld := ld_, since_midnight := 0, gmt_offset := 0 }
    | some format =>
      let r := parseDate s 0 format ld_
      { consumed := r.1 - 0, format := format, ld := r.2, since_midnight := 0, gmt_offset := 0 }
  | ParseType.TimeOnly =>
    match detectDateOrTimeFormat s 0 e pt_ with
    | none => { consumed := 0, format := format, ld := ld_, since_midnight := 0, gmt_offset := 0 }
    | some format =>
      let t := parseTime s 0 e format 0
      { consumed := t.p - 0, format := t.fmt, ld := today,
        since_midnight := t.since_midnight, gmt_offset := t.gmt_offset }
  | ParseType.DateTime =>
    match detectDateOrTimeFormat s 0 e ParseType.DateTime with
    | none => { consumed := 0, format := format, ld := ld_, since_midnight := 0, gmt_offset := 0 }
    | some format =>
      if DateTime.hms.toNat ≤ format._datetime.toNat ∧ format._datetime.toNat ≤ DateTime.h.toNat
      then
        -- No date part, then just parse time and return
        let t := parseTime s 0 e format 0
        { consumed := t.p - 0, format := t.fmt, ld := today,
          since_midnight := t.since_midnight, gmt_offset := t.gmt_offset }
      else
      let r := parseDate s 0 format ld_
      let p := r.1
      -- if cannot parse a date then failed
      if p = 0 then
        { consumed := 0, format := format, ld := r.2, since_midnight := 0, gmt_offset := 0 }
      else
      let dateFormat := format._datetime
      let basicDatetime := format._extra._basicDatetime
      let timeDetected : Option ISO8601Format :=
        if DateTime.ymd.toNat ≤ dateFormat.toNat ∧ dateFormat.toNat ≤ DateTime.yd.toNat then
          detectDateOrTimeFormat s p e ParseType.TimeOnly
        else none
      match timeDetected with
      | some format =>
        let t := parseTime s p e format 0
        let p := t.p
        let format := t.fmt
        -- Now merge the format with dateFormat and basicDatetime
        if format._datetime = DateTime.h then
          -- in this case do not care about the discrepancy between the basic datetime
          let format : ISO8601Format :=
            { format with _extra := { format._extra with _basicDatetime := basicDatetime } }
          let dateidx := dateFormat.toNat - DateTime.ymd.toNat
          let timeidx := format._datetime.toNat - DateTime.hms.toNat
          { consumed := p - 0,
            format := { format with
              _datetime := (combine_formats.getD dateidx []).getD timeidx DateTime.Invalid },
            ld := r.2, since_midnight := t.since_midnight, gmt_offset := t.gmt_offset }
        else if basicDatetime ≠ format._extra._basicDatetime then
          -- one of the date and time parts uses the basic format but the other does not
          { consumed := 0, format := format, ld := r.2,
            since_midnight := t.since_midnight, gmt_offset := t.gmt_offset }
        else
          let dateidx := dateFormat.toNat - DateTime.ymd.toNat
          let timeidx := format._datetime.toNat - DateTime.hms.toNat
          { consumed := p - 0,
            format := { format with
              _datetime := (combine_formats.getD dateidx []).getD timeidx DateTime.Invalid },
            ld := r.2, since_midnight := t.since_midnight, gmt_offset := t.gmt_offset }
      | none =>
        { consumed := p - 0, format := format, ld := r.2, since_midnight := 0, gmt_offset := 0 }

/-! ## Texts and auxiliary notions used in the statements -/

/-- The `w`-digit decimal numeral of `n` (its last `w` digits), most significant digit first. -/
def numeral : Nat → Nat → List Char
  | 0, _ => []
  | w + 1, n => numeral w (n / 10) ++ [digitChar n]


/-- The text `YYYY-MM-DD` (extended form) or `YYYYMMDD` (compact form). -/
def ymdText (compact : Bool) (Y M D : Nat) : List Char :=
  if compact then numeral 4 Y ++ numeral 2 M ++ numeral 2 D
  else numeral 4 Y ++ '-' :: numeral 2 M ++ '-' :: numeral 2 D

/-- The text `YYYY-Www-D` (extended form) or `YYYYWwwD` (compact form). -/
def ywdText (compact : Bool) (Y W D : Nat) : List Char :=
  if compact then numeral 4 Y ++ 'W' :: numeral 2 W ++ numeral 1 D
  else numeral 4 Y ++ '-' :: 'W' :: numeral 2 W ++ '-' :: numeral 1 D

/-- The text `YYYY-DDD` (extended form) or `YYYYDDD` (compact form). -/
def ydText (compact : Bool) (Y N : Nat) : List Char :=
  if compact then numeral 4 Y ++ numeral 3 N
  else numeral 4 Y ++ '-' :: numeral 3 N

/-- The text `YYYY-Www` (extended form) or `YYYYWww` (compact form). -/
def ywText (compact : Bool) (Y W : Nat) : List Char :=
  if compact then numeral 4 Y ++ 'W' :: numeral 2 W
  else numeral 4 Y ++ '-' :: 'W' :: numeral 2 W

/-- The text `hh:mm:ss` (extended form) or `hhmmss` (compact form). -/
def hmsText (compact : Bool) (h m s : Nat) : List Char :=
  if compact then numeral 2 h ++ numeral 2 m ++ numeral 2 s
  else numeral 2 h ++ ':' :: numeral 2 m ++ ':' :: numeral 2 s

/-- The text `hh:mm` (extended form) or `hhmm` (compact form). -/
def hmText (compact : Bool) (h m : Nat) : List Char :=
  if compact then numeral 2 h ++ numeral 2 m
  else numeral 2 h ++ ':' :: numeral 2 m

/-- The time fields `hh:mm:ss` / `hhmmss` (`withSeconds`) or `hh:mm` / `hhmm`, preceded by the
letter `T` when `withT` is set. -/
def timeFieldsText (withT withSeconds compact : Bool) (h m s : Nat) : List Char :=
  (if withT then ['T'] else []) ++
    (if withSeconds then hmsText compact h m s else hmText compact h m)

/-- The text `tail` does not continue a time field: it is empty or starts with a character
that is neither a digit nor a colon. -/
def endsField (tail : List Char) : Prop :=
  ∀ c, tail.head? = some c → isdigit c = false ∧ c ≠ ':'

/-- The ordinal day `N` exists in year `Y`: `1 ≤ N ≤ 365`, or `366` in a leap year. -/
def validOrdinal (Y N : Nat) : Bool :=
  decide (1 ≤ N) && decide (N ≤ 365 + (if isLeapYear Y then 1 else 0))

/-- A complete date as written in a text: calendar date, week date or ordinal date, given by its
numeric fields. -/
inductive CompleteDate where
  | ymd (Y M D : Nat)
  | ywd (Y W D : Nat)
  | yd (Y N : Nat)

/-- The text of a complete date in extended or compact form. -/
def CompleteDate.text (compact : Bool) : CompleteDate → List Char
  | CompleteDate.ymd Y M D => ymdText compact Y M D
  | CompleteDate.ywd Y W D => ywdText compact Y W D
  | CompleteDate.yd Y N => ydText compact Y N

/-- A complete date is valid when the year has four digits and the Calendar service accepts the
fields. -/
def CompleteDate.valid : CompleteDate → Bool
  | CompleteDate.ymd Y M D => decide (Y < 10000) && validDate Y M D
  | CompleteDate.ywd Y W D => decide (Y < 10000) && decide (W < 100) && validWeekDate Y W D
  | CompleteDate.yd Y N => decide (Y < 10000) && validOrdinal Y N

/-- The day count of a complete date. -/
def CompleteDate.dayCount : CompleteDate → Int
  | CompleteDate.ymd Y M D => dayCountOf Y M D
  | CompleteDate.ywd Y W D => weekDateOf Y W D
  | CompleteDate.yd Y N => dayCountOf Y 1 1 + ((N : Int) - 1)

/-- The date-only variant of a complete date. -/
def CompleteDate.part : CompleteDate → DateTime
  | CompleteDate.ymd _ _ _ => DateTime.ymd
  | CompleteDate.ywd _ _ _ => DateTime.ywd
  | CompleteDate.yd _ _ => DateTime.yd

/-- The combined variant of a complete date with a bare hour. -/
def CompleteDate.withHour : CompleteDate → DateTime
  | CompleteDate.ymd _ _ _ => DateTime.ymd_h
  | CompleteDate.ywd _ _ _ => DateTime.ywd_h
  | CompleteDate.yd _ _ => DateTime.yd_h

/-- The `_omitT` flag that the detector leaves in the format of a complete date that is followed
by the text `rest`: it is set only when a compact calendar or ordinal date runs on into more
digits. -/
def CompleteDate.detectedOmitT (compact : Bool) (rest : List Char) : CompleteDate → Bool
  | CompleteDate.ywd _ _ _ => false
  | _ => compact && decide (0 < digitsRun rest)

/-- The format the detector reports for a complete date that is followed by the text `rest`. -/
def CompleteDate.detectedFormat (d : CompleteDate) (compact : Bool) (rest : List Char) :
    ISO8601Format :=
  { _datetime := d.part, _offset := Offset.none,
    _extra := { _useComma := false, _omitT := d.detectedOmitT compact rest,
                _basicDatetime := compact, _basicOffset := false } }

/-- The text that `detail::format_iso8601` renders when the capacity is large enough: the
concatenation of the texts of its `snprintf` calls and of the characters it stores by hand. -/
def renderText (format_ : ISO8601Format) (precision_ : Precision) (lt_ : Int)
    (gmt_offset_ : Int) : List Char :=
  let lt : Int := if format_._offset = Offset.zulu then lt_ - gmt_offset_ * 1000000000 else lt_
  let ld : Int := lt / 86400000000000
  let tod : Int := lt - ld * 86400000000000
  let fh := formatHelper format_._datetime
  (if fh._date ≠ DateTime.Invalid then dateText format_ fh._date ld else []) ++
  (if fh._time ≠ DateTime.Invalid then
    (if !format_._extra._omitT then ['T'] else []) ++ timeText format_ fh._time tod ++
    (if (fraction fh._time precision_ lt tod).1 ≠ 0 then
      (if format_._extra._useComma then ',' else '.') ::
        fmt_d (fraction fh._time precision_ lt tod).2 (fraction fh._time precision_ lt tod).1
     else []) ++
    (offsetText format_ gmt_offset_).getD []
   else [])

/-- The output `o` has advanced over the text `t`, and the first characters of its memory
(of `e` bytes) are those of `t`. -/
def Wrote (e : Nat) (o : Out) (t : List Char) : Prop :=
  o.p = t.length ∧ o.mem.length = e ∧ ∃ rest, o.mem = t ++ rest

/-- As `Wrote`, and a NUL follows the text in the memory. -/
def WroteZ (e : Nat) (o : Out) (t : List Char) : Prop :=
  o.p = t.length ∧ o.mem.length = e ∧ ∃ rest, o.mem = t ++ NUL :: rest


/-- The day count `ld` that `detail::format_iso8601` derives from its arguments: the local time
(shifted to UTC for `Offset::zulu`) floored to days. -/
def localDay (format_ : ISO8601Format) (lt_ gmt_offset_ : Int) : Int :=
  (if format_._offset = Offset.zulu then lt_ - gmt_offset_ * 1000000000 else lt_) / 86400000000000

/-- The year that a date-only variant prints for a day count: the ISO week-year for `ywd` and
`yw`, the calendar year otherwise. -/
def printedYear (date : DateTime) (ld : Int) : Int :=
  match date with
  | DateTime.ywd | DateTime.yw => (weekOf ld).1
  | _ => (civilOf ld).1

/-- The time fields of a time-only variant in extended form after the letter `T`: `Thh:mm:ss`
for `hms`, `Thh:mm` for `hm`, `Thh` for `h` (and just `T` for any other variant). -/
def tTimeText (time : DateTime) (h m s : Nat) : List Char :=
  match time with
  | DateTime.hms => 'T' :: hmsText false h m s
  | DateTime.hm => 'T' :: hmText false h m
  | DateTime.h => 'T' :: numeral 2 h
  | _ => ['T']

/-- The fraction text that the formatter prints at nanosecond precision. -/
def nanoFractionText (fmt : ISO8601Format) (time : DateTime) (day n : Int) : List Char :=
  if (fraction time Precision.NanoSecond (day * 86400000000000 + n) n).1 ≠ 0 then
    (if fmt._extra._useComma then ',' else '.') ::
      numeral (fraction time Precision.NanoSecond (day * 86400000000000 + n) n).2
        (fraction time Precision.NanoSecond (day * 86400000000000 + n) n).1.toNat
  else []


/-- The value that the fields block of `parseTime` leaves in `fsec` for a time-only variant: the
length in seconds of the last field (1 for `hms`, 60 for `hm`, 3600 for `h`). -/
def fsecOf (time : DateTime) : Int :=
  match time with
  | DateTime.hms => 1
  | DateTime.hm => 60
  | _ => 3600

/-- The part of the time of day `n` (nanoseconds) that the fields of a time-only variant carry:
`n` truncated to whole seconds for `hms`, to whole minutes for `hm`, to whole hours for `h`. -/
def fieldsNanos (time : DateTime) (n : Int) : Int :=
  match time with
  | DateTime.hms => n - n % 1000000000
  | DateTime.hm => n - n % 60000000000
  | _ => n - n % 3600000000000

/-- The format of the canonical text: `ymd_hms`, Zulu, extended form, decimal point. -/
def canonicalFormat : ISO8601Format :=
  { _datetime := DateTime.ymd_hms, _offset := Offset.zulu,
    _extra := { _useComma := false, _omitT := false, _basicDatetime := false,
                _basicOffset := false } }

/-- An offset suffix as written in a text: nothing, `Z` or `z`, `±hh`, `±hh:mm` or `±hhmm`
(`neg` selects the sign `-`). -/
inductive OffsetSuffix where
  | none
  | zulu (lower : Bool)
  | h (neg : Bool) (hh : Nat)
  | hm (neg : Bool) (hh mm : Nat) (compact : Bool)

/-- The characters of an offset suffix. -/
def OffsetSuffix.text : OffsetSuffix → List Char
  | OffsetSuffix.none => []
  | OffsetSuffix.zulu lower => [if lower then 'z' else 'Z']
  | OffsetSuffix.h neg hh => (if neg then '-' else '+') :: numeral 2 hh
  | OffsetSuffix.hm neg hh mm compact =>
    (if neg then '-' else '+') ::
      (numeral 2 hh ++ ((if compact then [] else [':']) ++ numeral 2 mm))

/-- The fields of an offset suffix have two digits each. -/
def OffsetSuffix.wf : OffsetSuffix → Prop
  | OffsetSuffix.h _ hh => hh < 100
  | OffsetSuffix.hm _ hh mm _ => hh < 100 ∧ mm < 100
  | _ => True

/-- The offset in seconds that an offset suffix denotes: 0 for no suffix and for `Z`,
`±hh·3600` for `±hh`, `±(hh·3600 + mm·60)` for `±hh:mm` and `±hhmm`. -/
def OffsetSuffix.value : OffsetSuffix → Int
  | OffsetSuffix.h neg hh => if neg then -((hh : Int) * 3600) else (hh : Int) * 3600
  | OffsetSuffix.hm neg hh mm _ =>
    if neg then -((hh : Int) * 3600 + (mm : Int) * 60) else (hh : Int) * 3600 + (mm : Int) * 60
  | _ => 0

/-- The format after an offset suffix has been read: the offset kind of the suffix, and for
`±hh:mm` / `±hhmm` the `_basicOffset` flag. -/
def OffsetSuffix.apply (fmt : ISO8601Format) : OffsetSuffix → ISO8601Format
  | OffsetSuffix.none => { fmt with _offset := Offset.none }
  | OffsetSuffix.zulu _ => { fmt with _offset := Offset.zulu }
  | OffsetSuffix.h _ _ => { fmt with _offset := Offset.h }
  | OffsetSuffix.hm _ _ _ compact =>
    { fmt with _offset := Offset.hm, _extra := { fmt._extra with _basicOffset := compact } }

/-- What may follow an offset suffix in the text so that the suffix is read as such: after no
suffix, no character that starts one; after `±hh`, neither a digit nor a colon; after `±hh:mm`
and `±hhmm`, no digit; after `Z`, anything. -/
def OffsetSuffix.tailOk (tail : List Char) : OffsetSuffix → Prop
  | OffsetSuffix.none =>
    ∀ c, tail.head? = some c → c ≠ 'z' ∧ c ≠ 'Z' ∧ c ≠ '-' ∧ c ≠ '+'
  | OffsetSuffix.zulu _ => True
  | OffsetSuffix.h _ _ => ∀ c, tail.head? = some c → isdigit c = false ∧ c ≠ ':'
  | OffsetSuffix.hm _ _ _ _ => ∀ c, tail.head? = some c → isdigit c = false

/-- The length in nanoseconds of the smallest field that a time variant renders: a second for
`hms`, a minute for `hm`, an hour for `h`. -/
def unitNanos (time : DateTime) : Int :=
  match time with
  | DateTime.hms => 1000000000
  | DateTime.hm => 60000000000
  | _ => 3600000000000

/-- The fraction digits that a time variant adds: 0 for `hms`, 3 for `hm`, 6 for `h`. -/
def fieldBaseDigits (time : DateTime) : Nat :=
  match time with
  | DateTime.hms => 0
  | DateTime.hm => 3
  | _ => 6

/-- The fraction digits of a precision: 0, 3, 6 or 9. -/
def precisionDigits (precision_ : Precision) : Nat :=
  match precision_ with
  | Precision.Second => 0
  | Precision.MilliSecond => 3
  | Precision.MicroSecond => 6
  | Precision.NanoSecond => 9

/-- The text of the fraction block of `detail::format_iso8601`: nothing when `frac` is zero,
else the decimal mark and `frac` printed with `%0*d` and the width `fdig`. -/
def fractionText (format_ : ISO8601Format) (time : DateTime) (precision_ : Precision)
    (lt tod : Int) : List Char :=
  if (fraction time precision_ lt tod).1 ≠ 0 then
    (if format_._extra._useComma then ',' else '.') ::
      fmt_d (fraction time precision_ lt tod).2 (fraction time precision_ lt tod).1
  else []

/-- A fraction as written in a text: nothing, or a decimal mark (`,` if `comma`, else `.`)
followed by the `k`-digit numeral of `F`. -/
inductive FractionSuffix where
  | none
  | some (comma : Bool) (k F : Nat)

/-- The characters of a fraction. -/
def FractionSuffix.text : FractionSuffix → List Char
  | FractionSuffix.none => []
  | FractionSuffix.some comma k F => (if comma then ',' else '.') :: numeral k F

/-- A fraction has 1 to 15 digits. -/
def FractionSuffix.wf : FractionSuffix → Prop
  | FractionSuffix.none => True
  | FractionSuffix.some _ k _ => 1 ≤ k ∧ k ≤ 15

/-- The nanoseconds that `parseTime` adds for a fraction of a field of `fsec` seconds: the
digits scaled to 15 places, times `fsec`, divided by 10⁶. -/
def FractionSuffix.nanos (fsec : Int) : FractionSuffix → Int
  | FractionSuffix.none => 0
  | FractionSuffix.some _ k F =>
    Int.tdiv (((F % 10 ^ k : Nat) : Int) * 10 ^ (15 - k) * fsec) 1000000

/-- The format after a fraction has been read: a fraction sets the `_useComma` flag. -/
def FractionSuffix.apply (fmt : ISO8601Format) : FractionSuffix → ISO8601Format
  | FractionSuffix.none => fmt
  | FractionSuffix.some comma _ _ => { fmt with _extra := { fmt._extra with _useComma := comma } }

/-- The text `YYYY-MM`. -/
def ymText (Y M : Nat) : List Char := numeral 4 Y ++ '-' :: numeral 2 M

/-- The format that the detector reports for a time without the letter `T` in extended form. -/
def colonTimeFormat (time : DateTime) : ISO8601Format :=
  { _datetime := time, _offset := Offset.none,
    _extra := { _useComma := false, _omitT := true, _basicDatetime := false,
                _basicOffset := false } }

/-- The value of a run of decimal digits read as a decimal numeral (0 for the empty run). -/
def decimalValue (cs : List Char) : Nat :=
  cs.foldl (fun a c => a * 10 + (c.toNat - 48)) 0

/-- The value that a signed 64-bit variable holds when the exact result of a computation is
`x` (two's complement wrap-around). -/
def wrap64 (x : Int) : Int := (x + 2 ^ 63) % 2 ^ 64 - 2 ^ 63

/-- The value of `frac_time.count()` in `detail::format_iso8601` after the `switch (fh._time)`:
the nanoseconds below the second for `hms`, below the minute for `hm`, below the hour for
`h`. -/
def fracNanos (time : DateTime) (lt tod : Int) : Int :=
  let m : Int := (tod % 3600000000000) / 60000000000
  let s : Int := (tod % 60000000000) / 1000000000
  let frac_time : Int := lt - (lt / 1000000000) * 1000000000
  match time with
  | DateTime.hm => frac_time + s * 1000000000
  | DateTime.h => frac_time + (m * 60000000000 + s * 1000000000)
  | _ => frac_time

/-- The time fields in compact form without the letter `T`: `hhmmss` for `hms`, `hhmm` for `hm`,
`hh` for any other variant. -/
def compactTimeText (time : DateTime) (h m s : Nat) : List Char :=
  match time with
  | DateTime.hms => hmsText true h m s
  | DateTime.hm => hmText true h m
  | _ => numeral 2 h

/-- The nanoseconds since midnight that the fields `h`, `m`, `s` of a time variant denote:
all three for `hms`, hours and minutes for `hm`, hours for any other variant. -/
def timeFieldsNanos (time : DateTime) (h m s : Nat) : Int :=
  match time with
  | DateTime.hms => (h : Int) * 3600000000000 + (m : Int) * 60000000000 + (s : Int) * 1000000000
  | DateTime.hm => (h : Int) * 3600000000000 + (m : Int) * 60000000000
  | _ => (h : Int) * 3600000000000

/-- The combined variant of a complete date and a time variant (`hms`, `hm`, else `h`). -/
def CompleteDate.withTime (d : CompleteDate) (time : DateTime) : DateTime :=
  match d, time with
  | CompleteDate.ymd _ _ _, DateTime.hms => DateTime.ymd_hms
  | CompleteDate.ymd _ _ _, DateTime.hm => DateTime.ymd_hm
  | CompleteDate.ymd _ _ _, _ => DateTime.ymd_h
  | CompleteDate.ywd _ _ _, DateTime.hms => DateTime.ywd_hms
  | CompleteDate.ywd _ _ _, DateTime.hm => DateTime.ywd_hm
  | CompleteDate.ywd _ _ _, _ => DateTime.ywd_h
  | CompleteDate.yd _ _, DateTime.hms => DateTime.yd_hms
  | CompleteDate.yd _ _, DateTime.hm => DateTime.yd_hm
  | CompleteDate.yd _ _, _ => DateTime.yd_h

/-! ## Lemmas: digits and numerals -/

theorem digitChar_toNat (d : Nat) : (digitChar d).toNat = 48 + d % 10 := by
  have h : d % 10 < 10 := Nat.mod_lt _ (by decide)
  unfold digitChar
  generalize d % 10 = k at h
  interval_cases k <;> rfl

@[simp] theorem isdigit_digitChar (d : Nat) : isdigit (digitChar d) = true := by
  simp [isdigit, digitChar_toNat]
  omega

theorem digitChar_ne (d : Nat) (c : Char) (hc : isdigit c = false) : (digitChar d == c) = false := by
  have := isdigit_digitChar d
  cases h : digitChar d == c
  · rfl
  · simp at h
    rw [h] at this
    rw [this] at hc
    cases hc

@[simp] theorem isdigit_dash : isdigit '-' = false := by decide
@[simp] theorem isdigit_colon : isdigit ':' = false := by decide
@[simp] theorem isdigit_T : isdigit 'T' = false := by decide
@[simp] theorem isdigit_W : isdigit 'W' = false := by decide
@[simp] theorem isdigit_dot : isdigit '.' = false := by decide
@[simp] theorem isdigit_comma : isdigit ',' = false := by decide
@[simp] theorem isdigit_Z : isdigit 'Z' = false := by decide
@[simp] theorem isdigit_plus : isdigit '+' = false := by decide

@[simp] theorem digitChar_ne_T (d : Nat) : (digitChar d == 'T') = false := digitChar_ne d _ (by decide)
@[simp] theorem digitChar_ne_t (d : Nat) : (digitChar d == 't') = false := digitChar_ne d _ (by decide)
@[simp] theorem digitChar_ne_colon (d : Nat) : (digitChar d == ':') = false := digitChar_ne d _ (by decide)
@[simp] theorem digitChar_ne_dash (d : Nat) : (digitChar d == '-') = false := digitChar_ne d _ (by decide)
@[simp] theorem digitChar_ne_W (d : Nat) : (digitChar d == 'W') = false := digitChar_ne d _ (by decide)
@[simp] theorem digitChar_ne_w (d : Nat) : (digitChar d == 'w') = false := digitChar_ne d _ (by decide)
@[simp] theorem digitChar_ne_dot (d : Nat) : (digitChar d == '.') = false := digitChar_ne d _ (by decide)
@[simp] theorem digitChar_ne_comma (d : Nat) : (digitChar d == ',') = false := digitChar_ne d _ (by decide)
@[simp] theorem digitChar_ne_Z (d : Nat) : (digitChar d == 'Z') = false := digitChar_ne d _ (by decide)
@[simp] theorem digitChar_ne_z (d : Nat) : (digitChar d == 'z') = false := digitChar_ne d _ (by decide)
@[simp] theorem digitChar_ne_plus (d : Nat) : (digitChar d == '+') = false := digitChar_ne d _ (by decide)
@[simp] theorem digitChar_ne_NUL (d : Nat) : (digitChar d == NUL) = false := digitChar_ne d _ (by decide)


theorem numeral_length (w n : Nat) : (numeral w n).length = w := by
  induction w generalizing n with
  | zero => rfl
  | succ w ih => simp [numeral, ih]

theorem numeral_zero (w : Nat) : numeral w 0 = List.replicate w '0' := by
  induction w with
  | zero => rfl
  | succ w ih =>
    have h0 : digitChar 0 = '0' := rfl
    simp [numeral, ih, h0, List.replicate_succ']

theorem numeral_add (k j n : Nat) (h : n < 10 ^ k) :
    numeral (j + k) n = List.replicate j '0' ++ numeral k n := by
  induction k generalizing n with
  | zero =>
    have : n = 0 := by simpa using h
    subst this
    simp [numeral, numeral_zero]
  | succ k ih =>
    have h' : n / 10 < 10 ^ k := by
      rw [Nat.div_lt_iff_lt_mul (by decide)]
      rw [pow_succ] at h
      exact h
    have : j + (k + 1) = (j + k) + 1 := rfl
    rw [this]
    simp [numeral, ih _ h']

theorem decimalAux_eq (fuel n : Nat) (acc : List Char) (h : n < 10 ^ (fuel + 1)) :
    ∃ k, 1 ≤ k ∧ (k = 1 ∨ 10 ^ (k - 1) ≤ n) ∧ n < 10 ^ k ∧
      decimalAux (fuel + 1) n acc = numeral k n ++ acc := by
  induction fuel generalizing n acc with
  | zero =>
    have hn : n < 10 := by simpa using h
    exact ⟨1, le_refl _, Or.inl rfl, by simpa using hn, by simp [decimalAux, numeral, hn]⟩
  | succ fuel ih =>
    unfold decimalAux
    split
    · rename_i hn
      exact ⟨1, le_refl _, Or.inl rfl, by simpa using hn, by simp [numeral]⟩
    · rename_i hn
      have h' : n / 10 < 10 ^ (fuel + 1) := by
        rw [Nat.div_lt_iff_lt_mul (by decide)]
        rw [pow_succ] at h
        exact h
      obtain ⟨k, hk1, hmin, hk', e⟩ := ih (n / 10) (digitChar n :: acc) h'
      refine ⟨k + 1, by omega, Or.inr ?_, ?_, ?_⟩
      · simp only [Nat.add_sub_cancel]
        rcases hmin with rfl | hmin
        · simp; omega
        · have : 10 ^ k = 10 ^ (k - 1) * 10 := by
            rw [← pow_succ]; congr 1; omega
          rw [this]
          have := Nat.div_mul_le_self n 10
          calc 10 ^ (k - 1) * 10 ≤ n / 10 * 10 := Nat.mul_le_mul_right _ hmin
            _ ≤ n := this
      · rw [pow_succ]
        rw [Nat.div_lt_iff_lt_mul (by decide)] at hk'
        exact hk'
      · rw [e]
        simp [numeral]

theorem fmt_d_eq (w : Nat) (v : Int) (h0 : 0 ≤ v) (h : v < 10 ^ w) (hw : 1 ≤ w) :
    fmt_d w v = numeral w v.toNat := by
  obtain ⟨n, rfl⟩ := Int.eq_ofNat_of_zero_le h0
  have hn : n < 10 ^ w := by exact_mod_cast h
  simp only [fmt_d, Int.natAbs_ofNat, Int.toNat_ofNat, decimal]
  have hlt : ¬ ((n : Int) < 0) := by omega
  simp only [hlt, if_false, List.nil_append, List.length_nil, Nat.zero_add]
  have hfuel : n < 10 ^ (n + 1) :=
    (Nat.lt_pow_self (by decide) n).trans_le (Nat.pow_le_pow_right (by decide) (Nat.le_succ _))
  obtain ⟨k, hk1, hmin, hk', e⟩ := decimalAux_eq n n [] hfuel
  rw [e]
  simp only [List.append_nil, numeral_length]
  have hkw : k ≤ w := by
    by_contra hcon
    have hwk : w ≤ k - 1 := by omega
    rcases hmin with rfl | hmin
    · omega
    · have := Nat.pow_le_pow_right (by decide : 0 < 10) hwk
      omega
  have := numeral_add k (w - k) n hk'
  have hw' : w - k + k = w := by omega
  rw [hw'] at this
  rw [this]

theorem fmt_d_one_digit (v : Int) (h0 : 0 ≤ v) (h : v < 10) : fmt_d 0 v = numeral 1 v.toNat := by
  obtain ⟨n, rfl⟩ := Int.eq_ofNat_of_zero_le h0
  have hn : n < 10 := by exact_mod_cast h
  simp [fmt_d, decimal, decimalAux, hn, numeral]

/-! ## Lemmas: the output buffer -/

theorem writeAt_append (t u rest : List Char) (h : u.length ≤ rest.length) :
    writeAt (t ++ rest) t.length u = t ++ u ++ rest.drop u.length := by
  induction u generalizing t rest with
  | nil => simp [writeAt]
  | cons c cs ih =>
    cases rest with
    | nil => simp at h
    | cons r rs =>
      simp only [writeAt]
      have hset : (t ++ r :: rs).set t.length c = (t ++ [c]) ++ rs := by
        simp [List.set_append]
      rw [hset]
      have := ih (t ++ [c]) rs (by simpa using h)
      simp only [List.length_append, List.length_singleton] at this
      rw [this]
      simp

theorem WroteZ.wrote {e : Nat} {o : Out} {t : List Char} (h : WroteZ e o t) : Wrote e o t :=
  ⟨h.1, h.2.1, by obtain ⟨r, hr⟩ := h.2.2; exact ⟨_, hr⟩⟩

theorem snprintf_wrote {e : Nat} {o : Out} {t : List Char} (s : List Char) (h : Wrote e o t)
    (hlen : t.length + s.length < e) : WroteZ e (o.snprintf e s) (t ++ s) := by
  obtain ⟨hp, hl, rest, hm⟩ := h
  have hrl : t.length + rest.length = e := by rw [← hl, hm]; simp
  have hb : buflen t.length e = rest.length := by
    unfold buflen; split <;> omega
  have hn : ¬ (rest.length = 0) := by omega
  have htake : s.take (rest.length - 1) = s := List.take_of_length_le (by omega)
  have hw := writeAt_append t (s ++ [NUL]) rest (by simp; omega)
  have hmem : (o.snprintf e s).mem = (t ++ s) ++ NUL :: rest.drop (s.length + 1) := by
    simp only [Out.snprintf, hp, hm, hb, hn, if_false, htake, hw]
    simp
  refine ⟨by simp [Out.snprintf, hp], ?_, rest.drop (s.length + 1), hmem⟩
  rw [hmem]
  simp
  omega

theorem putc_wrote {e : Nat} {o : Out} {t : List Char} (c : Char) (h : Wrote e o t)
    (hlen : t.length < e) : Wrote e (o.putc e c) (t ++ [c]) := by
  obtain ⟨hp, hl, rest, hm⟩ := h
  have hrl : t.length + rest.length = e := by rw [← hl, hm]; simp
  cases rest with
  | nil => simp at hrl; omega
  | cons r rs =>
    refine ⟨by simp [Out.putc, hp], ?_, rs, ?_⟩
    · simp [Out.putc, hl]
      split <;> simp [hl]
    · simp [Out.putc, hp, hlen, hm, List.set_append]

theorem snprintf_if_wrote {e : Nat} {o : Out} {t : List Char} (c : Prop) [Decidable c]
    (s : List Char) (h : WroteZ e o t) (hlen : t.length + (if c then s else []).length < e) :
    WroteZ e (if c then o.snprintf e s else o) (t ++ if c then s else []) := by
  by_cases hc : c
  · simp only [hc, if_true] at hlen ⊢
    exact snprintf_wrote s h.wrote hlen
  · simpa [hc] using h

theorem putc_if_wrote {e : Nat} {o : Out} {t : List Char} (c : Bool)
    (ch : Char) (h : Wrote e o t) (hlen : t.length + (if c then [ch] else []).length ≤ e) :
    Wrote e (if c then o.putc e ch else o) (t ++ if c then [ch] else []) := by
  cases c
  · simpa using h
  · simp only [if_true] at hlen ⊢
    exact putc_wrote ch h (by simpa using hlen)

theorem frac_if_wrote {e : Nat} {o : Out} {t : List Char} (c : Prop) [Decidable c]
    (ch : Char) (s : List Char) (h : WroteZ e o t)
    (hlen : t.length + (if c then ch :: s else []).length < e) :
    WroteZ e (if c then (o.putc e ch).snprintf e s else o) (t ++ if c then ch :: s else []) := by
  by_cases hc : c
  · simp only [hc, if_true] at hlen ⊢
    simp only [List.length_cons] at hlen
    have h1 := putc_wrote ch h.wrote (by omega)
    have h2 := snprintf_wrote s h1 (by simp; omega)
    simpa using h2
  · simpa [hc] using h

theorem offset_wrote {e : Nat} {o : Out} {t : List Char} (x : Option (List Char))
    (h : WroteZ e o t) : t.length + (x.getD []).length < e →
    WroteZ e (match x with
      | some u => o.snprintf e u
      | none => o) (t ++ x.getD []) := by
  intro hlen
  cases x with
  | none => simpa using h
  | some u => exact snprintf_wrote u h.wrote (by simpa using hlen)

theorem format_iso8601_wrote (buf : List Char) (maxlen : Nat) (hbuf : buf.length = maxlen)
    (format_ : ISO8601Format) (precision_ : Precision) (lt_ gmt_offset_ : Int)
    (hv : format_._datetime ≠ DateTime.Invalid)
    (hlen : (renderText format_ precision_ lt_ gmt_offset_).length < maxlen) :
    WroteZ maxlen
      ⟨(detail.format_iso8601 (some buf) maxlen format_ precision_ lt_ gmt_offset_).2,
       (detail.format_iso8601 (some buf) maxlen format_ precision_ lt_ gmt_offset_).1⟩
      (renderText format_ precision_ lt_ gmt_offset_) := by
  have hlt : ¬ (format_._datetime.toNat ≥ DateTime.Invalid.toNat) := by
    cases h : format_._datetime <;> simp_all [DateTime.toNat]
  have hpos : 0 < maxlen := by omega
  have h0 : WroteZ maxlen ⟨buf.set 0 NUL, 0⟩ [] := by
    cases buf with
    | nil => simp at hbuf; omega
    | cons b bs => exact ⟨rfl, by simpa using hbuf, bs, by simp⟩
  unfold renderText at hlen ⊢
  unfold detail.format_iso8601
  dsimp only at hlen
  simp only [Option.isNone_some, Bool.false_eq_true, if_false, hlt, hpos, if_true, Option.getD_some]
  generalize (if format_._offset = Offset.zulu then lt_ - gmt_offset_ * 1000000000 else lt_) = lt at *
  generalize (formatHelper format_._datetime) = fh at *
  generalize offsetText format_ gmt_offset_ = O at *
  generalize hD : dateText format_ fh._date (lt / 86400000000000) = D at hlen ⊢
  generalize hT : timeText format_ fh._time (lt - lt / 86400000000000 * 86400000000000) = T at hlen ⊢
  generalize hF : fraction fh._time precision_ lt (lt - lt / 86400000000000 * 86400000000000) = F at hlen ⊢
  have h1 := snprintf_if_wrote (fh._date ≠ DateTime.Invalid) D h0 (by
    simp only [List.length_append, List.length_nil, Nat.zero_add] at hlen ⊢; omega)
  by_cases ht : fh._time ≠ DateTime.Invalid
  · simp only [if_pos ht] at hlen ⊢
    have h2 := putc_if_wrote (!format_._extra._omitT) 'T' h1.wrote (by
      simp only [List.length_append, List.length_nil, Nat.zero_add] at hlen ⊢; omega)
    have h3 := snprintf_wrote T h2 (by
      simp only [List.length_append, List.length_nil, Nat.zero_add] at hlen ⊢; omega)
    have h4 := frac_if_wrote (F.1 ≠ 0) (if format_._extra._useComma then ',' else '.')
      (fmt_d F.2 F.1) h3 (by
      simp only [List.length_append, List.length_nil, Nat.zero_add] at hlen ⊢; omega)
    cases O with
    | none =>
      simp only [Option.getD_none, List.append_nil, List.append_assoc, List.nil_append] at h4 ⊢
      exact h4
    | some u =>
      have h5 := snprintf_wrote u h4.wrote (by
        simp only [List.length_append, List.length_nil, Nat.zero_add, Option.getD_some] at hlen ⊢
        omega)
      simp only [Option.getD_some, List.append_assoc, List.nil_append] at h5 ⊢
      exact h5
  · simp only [if_neg ht] at hlen ⊢
    simp only [List.append_nil, List.nil_append] at h1 ⊢
    exact h1

/-! ## Lemmas: reading numbers -/

theorem charAt_drop (s : List Char) (p i : Nat) : charAt (s.drop p) i = charAt s (p + i) := by
  simp [charAt, List.getD_eq_getElem?_getD, List.getElem?_drop]

theorem numLoop_drop (s : List Char) (len p : Nat) (tv : Int) :
    numLoop s len p tv = numLoop (s.drop p) len 0 tv := by
  induction len generalizing s p tv with
  | zero => rfl
  | succ len ih =>
    simp only [numLoop]
    rw [ih s (p + 1), ih (s.drop p) (0 + 1), charAt_drop]
    simp [List.drop_drop, Nat.add_comm]

theorem numLoop_add (s : List Char) (a b p : Nat) (tv : Int) :
    numLoop s (a + b) p tv = numLoop s b (p + a) (numLoop s a p tv) := by
  induction a generalizing p tv with
  | zero => simp [numLoop]
  | succ a ih =>
    have : a + 1 + b = (a + b) + 1 := by omega
    rw [this]
    simp only [numLoop]
    rw [ih]
    congr 1
    omega

theorem charAt_append_length (a : List Char) (c : Char) (rest : List Char) :
    charAt (a ++ c :: rest) a.length = c := by
  simp [charAt, List.getD_eq_getElem?_getD, List.getElem?_append_right (le_refl a.length)]

theorem numLoop_append (a rest : List Char) (len p : Nat) (tv : Int) (h : p + len ≤ a.length) :
    numLoop (a ++ rest) len p tv = numLoop a len p tv := by
  induction len generalizing p tv with
  | zero => rfl
  | succ len ih =>
    simp only [numLoop]
    rw [ih (p + 1) _ (by omega)]
    congr 3
    simp [charAt, List.getD_eq_getElem?_getD, List.getElem?_append_left (show p < a.length by omega)]

theorem numLoop_numeral (w n : Nat) (rest : List Char) (tv : Int) :
    numLoop (numeral w n ++ rest) w 0 tv = tv * 10 ^ w + ((n % 10 ^ w : Nat) : Int) := by
  induction w generalizing n rest tv with
  | zero => simp [numLoop, Nat.mod_one]
  | succ w ih =>
    rw [numLoop_add _ w 1 0 tv]
    simp only [numeral, List.append_assoc, List.singleton_append]
    rw [ih]
    simp only [numLoop, Nat.zero_add]
    have hc := charAt_append_length (numeral w (n / 10)) (digitChar n) rest
    rw [numeral_length] at hc
    rw [hc, digitChar_toNat]
    have hm : n % 10 ^ (w + 1) = n % 10 + 10 * (n / 10 % 10 ^ w) := by
      rw [pow_succ', Nat.mod_mul]
    rw [hm]
    push_cast
    ring

theorem num_eq (s : List Char) (p len : Nat) :
    (num s p len).1 = numLoop (s.drop p) len 0 0 := by
  simp [num, numLoop_drop s len p]

@[simp] theorem num_snd (s : List Char) (p len : Nat) : (num s p len).2 = len := rfl

@[simp] theorem numLoop_1 (n : Nat) (rest : List Char) :
    numLoop (digitChar n :: rest) 1 0 0 = ((n % 10 : Nat) : Int) := by
  simpa [numeral] using numLoop_numeral 1 n rest 0

@[simp] theorem numLoop_2 (n : Nat) (rest : List Char) :
    numLoop (digitChar (n / 10) :: digitChar n :: rest) 2 0 0 = ((n % 100 : Nat) : Int) := by
  simpa [numeral] using numLoop_numeral 2 n rest 0

@[simp] theorem numLoop_3 (n : Nat) (rest : List Char) :
    numLoop (digitChar (n / 10 / 10) :: digitChar (n / 10) :: digitChar n :: rest) 3 0 0 =
      ((n % 1000 : Nat) : Int) := by
  simpa [numeral] using numLoop_numeral 3 n rest 0

@[simp] theorem numLoop_4 (n : Nat) (rest : List Char) :
    numLoop (digitChar (n / 10 / 10 / 10) :: digitChar (n / 10 / 10) :: digitChar (n / 10) ::
      digitChar n :: rest) 4 0 0 = ((n % 10000 : Nat) : Int) := by
  simpa [numeral] using numLoop_numeral 4 n rest 0

theorem i16_natCast (n : Nat) (h : n < 32768) : i16 (n : Int) = n := by
  unfold i16; omega

theorem u8_natCast (n : Nat) (h : n < 256) : u8 (n : Int) = n := by
  unfold u8; omega

/-! ## Lemmas: `parseDate` on well-formed date texts -/

theorem parseDate_ymd_ext (Y M D : Nat) (hY : Y < 10000) (hM : M < 100) (hD : D < 100)
    (rest : List Char) (o : Offset) (a b c : Bool) (ld0 : Int) :
    parseDate (digitChar (Y / 10 / 10 / 10) :: digitChar (Y / 10 / 10) :: digitChar (Y / 10) :: digitChar Y :: '-' :: digitChar (M / 10) :: digitChar M :: '-' :: digitChar (D / 10) :: digitChar D :: rest) 0
      { _datetime := DateTime.ymd, _offset := o,
        _extra := { _useComma := a, _omitT := b, _basicDatetime := false, _basicOffset := c } } ld0 =
      if validDate Y M D = true then (10, dayCountOf Y M D) else (0, ld0) := by
  simp [parseDate, num_eq, Nat.mod_eq_of_lt hY, Nat.mod_eq_of_lt hM, Nat.mod_eq_of_lt hD, i16_natCast Y (by omega), u8_natCast M (by omega), u8_natCast D (by omega)]
  split <;> simp_all

theorem parseDate_ymd_compact (Y M D : Nat) (hY : Y < 10000) (hM : M < 100) (hD : D < 100)
    (rest : List Char) (o : Offset) (a b c : Bool) (ld0 : Int) :
    parseDate (digitChar (Y / 10 / 10 / 10) :: digitChar (Y / 10 / 10) :: digitChar (Y / 10) :: digitChar Y :: digitChar (M / 10) :: digitChar M :: digitChar (D / 10) :: digitChar D :: rest) 0
      { _datetime := DateTime.ymd, _offset := o,
        _extra := { _useComma := a, _omitT := b, _basicDatetime := true, _basicOffset := c } } ld0 =
      if validDate Y M D = true then (8, dayCountOf Y M D) else (0, ld0) := by
  simp [parseDate, num_eq, Nat.mod_eq_of_lt hY, Nat.mod_eq_of_lt hM, Nat.mod_eq_of_lt hD, i16_natCast Y (by omega), u8_natCast M (by omega), u8_natCast D (by omega)]
  split <;> simp_all

theorem parseDate_ywd_ext (Y W D : Nat) (hY : Y < 10000) (hW : W < 100) (hD : D < 10)
    (rest : List Char) (o : Offset) (a b c : Bool) (ld0 : Int) :
    parseDate (digitChar (Y / 10 / 10 / 10) :: digitChar (Y / 10 / 10) :: digitChar (Y / 10) :: digitChar Y :: '-' :: 'W' :: digitChar (W / 10) :: digitChar W :: '-' :: digitChar D :: rest) 0
      { _datetime := DateTime.ywd, _offset := o,
        _extra := { _useComma := a, _omitT := b, _basicDatetime := false, _basicOffset := c } } ld0 =
      if validWeekDate Y W D = true then (10, weekDateOf Y W D) else (0, ld0) := by
  simp [parseDate, num_eq, Nat.mod_eq_of_lt hY, Nat.mod_eq_of_lt hW, Nat.mod_eq_of_lt hD, i16_natCast Y (by omega), u8_natCast W (by omega), u8_natCast D (by omega)]
  split <;> simp_all

theorem parseDate_ywd_compact (Y W D : Nat) (hY : Y < 10000) (hW : W < 100) (hD : D < 10)
    (rest : List Char) (o : Offset) (a b c : Bool) (ld0 : Int) :
    parseDate (digitChar (Y / 10 / 10 / 10) :: digitChar (Y / 10 / 10) :: digitChar (Y / 10) :: digitChar Y :: 'W' :: digitChar (W / 10) :: digitChar W :: digitChar D :: rest) 0
      { _datetime := DateTime.ywd, _offset := o,
        _extra := { _useComma := a, _omitT := b, _basicDatetime := true, _basicOffset := c } } ld0 =
      if validWeekDate Y W D = true then (8, weekDateOf Y W D) else (0, ld0) := by
  simp [parseDate, num_eq, Nat.mod_eq_of_lt hY, Nat.mod_eq_of_lt hW, Nat.mod_eq_of_lt hD, i16_natCast Y (by omega), u8_natCast W (by omega), u8_natCast D (by omega)]
  split <;> simp_all

theorem parseDate_yd_ext (Y N : Nat) (hY : Y < 10000) (hN : N < 1000)
    (rest : List Char) (o : Offset) (a b c : Bool) (ld0 : Int) :
    parseDate (digitChar (Y / 10 / 10 / 10) :: digitChar (Y / 10 / 10) :: digitChar (Y / 10) :: digitChar Y :: '-' :: digitChar (N / 10 / 10) :: digitChar (N / 10) :: digitChar N :: rest) 0
      { _datetime := DateTime.yd, _offset := o,
        _extra := { _useComma := a, _omitT := b, _basicDatetime := false, _basicOffset := c } } ld0 =
      if validOrdinal Y N = true then (8, dayCountOf Y 1 1 + ((N : Int) - 1)) else (0, ld0) := by
  simp [parseDate, num_eq, Nat.mod_eq_of_lt hY, Nat.mod_eq_of_lt hN, i16_natCast Y (by omega), validOrdinal]
  split_ifs <;> first | rfl | (exfalso; omega)

theorem parseDate_yd_compact (Y N : Nat) (hY : Y < 10000) (hN : N < 1000)
    (rest : List Char) (o : Offset) (a b c : Bool) (ld0 : Int) :
    parseDate (digitChar (Y / 10 / 10 / 10) :: digitChar (Y / 10 / 10) :: digitChar (Y / 10) :: digitChar Y :: digitChar (N / 10 / 10) :: digitChar (N / 10) :: digitChar N :: rest) 0
      { _datetime := DateTime.yd, _offset := o,
        _extra := { _useComma := a, _omitT := b, _basicDatetime := true, _basicOffset := c } } ld0 =
      if validOrdinal Y N = true then (7, dayCountOf Y 1 1 + ((N : Int) - 1)) else (0, ld0) := by
  simp [parseDate, num_eq, Nat.mod_eq_of_lt hY, Nat.mod_eq_of_lt hN, i16_natCast Y (by omega), validOrdinal]
  split_ifs <;> first | rfl | (exfalso; omega)

theorem parseDate_yw_ext (Y W : Nat) (hY : Y < 10000) (hW : W < 100)
    (rest : List Char) (o : Offset) (a b c : Bool) (ld0 : Int) :
    parseDate (digitChar (Y / 10 / 10 / 10) :: digitChar (Y / 10 / 10) :: digitChar (Y / 10) :: digitChar Y :: '-' :: 'W' :: digitChar (W / 10) :: digitChar W :: rest) 0
      { _datetime := DateTime.yw, _offset := o,
        _extra := { _useComma := a, _omitT := b, _basicDatetime := false, _basicOffset := c } } ld0 =
      if 1 ≤ W ∧ W ≤ 53 then (8, weekDateOf Y W 1) else (0, ld0) := by
  simp [parseDate, num_eq, Nat.mod_eq_of_lt hY, Nat.mod_eq_of_lt hW, i16_natCast Y (by omega), u8_natCast W (by omega)]
  split_ifs <;> first | rfl | (exfalso; omega)

theorem parseDate_yw_compact (Y W : Nat) (hY : Y < 10000) (hW : W < 100)
    (rest : List Char) (o : Offset) (a b c : Bool) (ld0 : Int) :
    parseDate (digitChar (Y / 10 / 10 / 10) :: digitChar (Y / 10 / 10) :: digitChar (Y / 10) :: digitChar Y :: 'W' :: digitChar (W / 10) :: digitChar W :: rest) 0
      { _datetime := DateTime.yw, _offset := o,
        _extra := { _useComma := a, _omitT := b, _basicDatetime := true, _basicOffset := c } } ld0 =
      if 1 ≤ W ∧ W ≤ 53 then (7, weekDateOf Y W 1) else (0, ld0) := by
  simp [parseDate, num_eq, Nat.mod_eq_of_lt hY, Nat.mod_eq_of_lt hW, i16_natCast Y (by omega), u8_natCast W (by omega)]
  split_ifs <;> first | rfl | (exfalso; omega)

/-! ## Lemmas: a parser that starts behind a prefix -/

theorem charAt_shift (pre l : List Char) (i : Nat) :
    charAt (pre ++ l) (pre.length + i) = charAt l i := by
  simp [charAt, List.getD_eq_getElem?_getD, List.getElem?_append_right]

theorem digits_shift (pre l : List Char) (i e : Nat) :
    digits (pre ++ l) (pre.length + i) (pre.length + e) = digits l i e := by
  simp [digits, List.take_append_eq_append_take, List.drop_append_eq_append_drop]
  have : List.drop (pre.length + i) (List.take (pre.length + e) pre) = [] :=
    List.drop_eq_nil_of_le (by simp)
  rw [this, List.nil_append]

theorem numLoop_shift (pre l : List Char) (len i : Nat) (tv : Int) :
    numLoop (pre ++ l) len (pre.length + i) tv = numLoop l len i tv := by
  induction len generalizing i tv with
  | zero => rfl
  | succ len ih =>
    simp only [numLoop]
    rw [Nat.add_assoc, ih, charAt_shift]

theorem num_shift (pre l : List Char) (len i : Nat) :
    num (pre ++ l) (pre.length + i) len = num l i len := by
  simp [num, numLoop_shift]

theorem frac_shift (pre l : List Char) (i e : Nat) :
    frac (pre ++ l) (pre.length + i) (pre.length + e) = frac l i e := by
  simp [frac, digits_shift, num_shift]

theorem lt_shift (n a b : Nat) : (n + a < n + b) = (a < b) := by
  simp

theorem detect_shift (pre l : List Char) (e : Nat) (pt : ParseType) :
    detectDateOrTimeFormat (pre ++ l) pre.length (pre.length + e) pt
      = detectDateOrTimeFormat l 0 e pt := by
  have h0 := charAt_shift pre l 0
  have d0 := digits_shift pre l 0 e
  simp only [Nat.add_zero] at h0 d0
  unfold detectDateOrTimeFormat
  simp only [h0, Nat.lt_add_right_iff_pos]
  by_cases hT : (decide (0 < e) && (charAt l 0 == 'T' || charAt l 0 == 't')) = true
  · simp only [hT, if_true, d0, charAt_shift, digits_shift, Nat.add_assoc,
      Nat.add_lt_add_iff_left, Nat.zero_add]
  · simp only [hT, if_false, Bool.false_eq_true, Bool.false_and, d0, h0, charAt_shift, digits_shift, Nat.add_assoc,
      Nat.add_lt_add_iff_left, Nat.zero_add, Nat.lt_add_right_iff_pos]

theorem ite_prefix0 (c : Prop) [Decidable c] (n a : Nat) :
    (if c then n + a else n) = n + if c then a else 0 := by
  split <;> rfl


theorem parseTimeFields_shift (pre l : List Char) (i : Nat) (fmt : ISO8601Format) :
    parseTimeFields (pre ++ l) (pre.length + i) fmt =
      (parseTimeFields l i fmt).map (fun r => (pre.length + r.1, r.2)) := by
  unfold parseTimeFields
  cases fmt._datetime <;> simp [num_shift, Nat.add_assoc]

theorem parseTimeFraction_shift (pre l : List Char) (i e : Nat) (fmt : ISO8601Format)
    (fsec : Int) :
    parseTimeFraction (pre ++ l) (pre.length + i) (pre.length + e) fmt fsec =
      { failed := (parseTimeFraction l i e fmt fsec).failed,
        p := pre.length + (parseTimeFraction l i e fmt fsec).p,
        fmt := (parseTimeFraction l i e fmt fsec).fmt,
        ns := (parseTimeFraction l i e fmt fsec).ns } := by
  unfold parseTimeFraction
  simp only [charAt_shift, frac_shift, Nat.add_assoc, Nat.add_lt_add_iff_left]
  split
  · split <;> rfl
  · rfl

theorem parseTimeOffset_shift (pre l : List Char) (i e : Nat) (fmt : ISO8601Format) (g : Int) :
    parseTimeOffset (pre ++ l) (pre.length + i) (pre.length + e) fmt g =
      { failed := (parseTimeOffset l i e fmt g).failed,
        p := pre.length + (parseTimeOffset l i e fmt g).p,
        fmt := (parseTimeOffset l i e fmt g).fmt,
        gmt_offset := (parseTimeOffset l i e fmt g).gmt_offset } := by
  simp only [parseTimeOffset, charAt_shift, digits_shift, num_shift, Nat.add_assoc,
    Nat.add_lt_add_iff_left, num_snd]
  split_ifs <;> rfl

theorem parseTime_shift (pre l : List Char) (e : Nat) (fmt : ISO8601Format) (g : Int) :
    parseTime (pre ++ l) pre.length (pre.length + e) fmt g =
      { p := pre.length + (parseTime l 0 e fmt g).p,
        fmt := (parseTime l 0 e fmt g).fmt,
        since_midnight := (parseTime l 0 e fmt g).since_midnight,
        gmt_offset := (parseTime l 0 e fmt g).gmt_offset } := by
  have f0 := parseTimeFields_shift pre l 0 fmt
  simp only [Nat.add_zero] at f0
  unfold parseTime
  simp only [ite_prefix0, Nat.zero_add, parseTimeFields_shift, f0]
  cases hf : parseTimeFields l (if (!fmt._extra._omitT) = true then 1 else 0) fmt with
  | none => rfl
  | some r =>
    obtain ⟨p, sm, fsec⟩ := r
    simp only [Option.map_some', parseTimeFraction_shift, parseTimeOffset_shift]
    split
    · rfl
    · split <;> simp

theorem digits_of_le (s : List Char) (p e : Nat) (h : s.length ≤ e) :
    digits s p e = digitsRun (s.drop p) := by
  simp [digits, List.take_of_length_le h]

/-! ## Lemmas: detection of a complete date followed by more text -/

theorem detect_ymd_ext (Y M D : Nat) (rest : List Char) (pt : ParseType)
    (hpt : pt ≠ ParseType.TimeOnly) :
    detectDateOrTimeFormat (ymdText false Y M D ++ rest) 0 (10 + rest.length) pt =
      some { _datetime := DateTime.ymd, _offset := Offset.none,
             _extra := { _useComma := false, _omitT := false, _basicDatetime := false,
                         _basicOffset := false } } := by
  have hl : (ymdText false Y M D ++ rest).length ≤ 10 + rest.length := by
    simp [ymdText, numeral_length]; omega
  simp only [ymdText, ywdText, ydText, ywText, hmsText, hmText, numeral, List.cons_append,
    List.nil_append, List.append_assoc, Bool.false_eq_true, if_false, if_true] at hl ⊢
  cases pt <;>
    simp [detectDateOrTimeFormat, digits_of_le _ _ _ hl, digitsRun, charAt, RET_FMT] at hpt ⊢ <;>
    (try split_ifs) <;> (try simp only [List.length_cons] at hl) <;>
    first | rfl | omega | (exfalso; omega) | (simp; omega)

theorem detect_ymd_compact (Y M D : Nat) (rest : List Char) (pt : ParseType)
    (hpt : pt ≠ ParseType.TimeOnly)
    (heven : digitsRun rest % 2 = 0) :
    detectDateOrTimeFormat (ymdText true Y M D ++ rest) 0 (8 + rest.length) pt =
      some { _datetime := DateTime.ymd, _offset := Offset.none,
             _extra := { _useComma := false, _omitT := decide (0 < digitsRun rest), _basicDatetime := true,
                         _basicOffset := false } } := by
  have hl : (ymdText true Y M D ++ rest).length ≤ 8 + rest.length := by
    simp [ymdText, numeral_length]; omega
  simp only [ymdText, ywdText, ydText, ywText, hmsText, hmText, numeral, List.cons_append,
    List.nil_append, List.append_assoc, Bool.false_eq_true, if_false, if_true] at hl ⊢
  cases pt <;>
    simp [detectDateOrTimeFormat, digits_of_le _ _ _ hl, digitsRun, charAt, RET_FMT] at hpt ⊢ <;>
    (try split_ifs) <;> (try simp only [List.length_cons] at hl) <;>
    first | rfl | omega | (exfalso; omega) | (simp; omega)

theorem detect_ywd_ext (Y W D : Nat) (rest : List Char) (pt : ParseType)
    (hpt : pt ≠ ParseType.TimeOnly) :
    detectDateOrTimeFormat (ywdText false Y W D ++ rest) 0 (10 + rest.length) pt =
      some { _datetime := DateTime.ywd, _offset := Offset.none,
             _extra := { _useComma := false, _omitT := false, _basicDatetime := false,
                         _basicOffset := false } } := by
  have hl : (ywdText false Y W D ++ rest).length ≤ 10 + rest.length := by
    simp [ywdText, numeral_length]; omega
  simp only [ymdText, ywdText, ydText, ywText, hmsText, hmText, numeral, List.cons_append,
    List.nil_append, List.append_assoc, Bool.false_eq_true, if_false, if_true] at hl ⊢
  cases pt <;>
    simp [detectDateOrTimeFormat, digits_of_le _ _ _ hl, digitsRun, charAt, RET_FMT] at hpt ⊢ <;>
    (try split_ifs) <;> (try simp only [List.length_cons] at hl) <;>
    first | rfl | omega | (exfalso; omega) | (simp; omega)

theorem detect_ywd_compact (Y W D : Nat) (rest : List Char) (pt : ParseType)
    (hpt : pt ≠ ParseType.TimeOnly) :
    detectDateOrTimeFormat (ywdText true Y W D ++ rest) 0 (8 + rest.length) pt =
      some { _datetime := DateTime.ywd, _offset := Offset.none,
             _extra := { _useComma := false, _omitT := false, _basicDatetime := true,
                         _basicOffset := false } } := by
  have hl : (ywdText true Y W D ++ rest).length ≤ 8 + rest.length := by
    simp [ywdText, numeral_length]; omega
  simp only [ymdText, ywdText, ydText, ywText, hmsText, hmText, numeral, List.cons_append,
    List.nil_append, List.append_assoc, Bool.false_eq_true, if_false, if_true] at hl ⊢
  cases pt <;>
    simp [detectDateOrTimeFormat, digits_of_le _ _ _ hl, digitsRun, charAt, RET_FMT] at hpt ⊢ <;>
    (try split_ifs) <;> (try simp only [List.length_cons] at hl) <;>
    first | rfl | omega | (exfalso; omega) | (simp; omega)

theorem detect_yd_ext (Y N : Nat) (rest : List Char) (pt : ParseType)
    (hpt : pt ≠ ParseType.TimeOnly) :
    detectDateOrTimeFormat (ydText false Y N ++ rest) 0 (8 + rest.length) pt =
      some { _datetime := DateTime.yd, _offset := Offset.none,
             _extra := { _useComma := false, _omitT := false, _basicDatetime := false,
                         _basicOffset := false } } := by
  have hl : (ydText false Y N ++ rest).length ≤ 8 + rest.length := by
    simp [ydText, numeral_length]; omega
  simp only [ymdText, ywdText, ydText, ywText, hmsText, hmText, numeral, List.cons_append,
    List.nil_append, List.append_assoc, Bool.false_eq_true, if_false, if_true] at hl ⊢
  cases pt <;>
    simp [detectDateOrTimeFormat, digits_of_le _ _ _ hl, digitsRun, charAt, RET_FMT] at hpt ⊢ <;>
    (try split_ifs) <;> (try simp only [List.length_cons] at hl) <;>
    first | rfl | omega | (exfalso; omega) | (simp; omega)

theorem detect_yd_compact (Y N : Nat) (rest : List Char) (pt : ParseType)
    (hpt : pt ≠ ParseType.TimeOnly)
    (heven : digitsRun rest % 2 = 0) :
    detectDateOrTimeFormat (ydText true Y N ++ rest) 0 (7 + rest.length) pt =
      some { _datetime := DateTime.yd, _offset := Offset.none,
             _extra := { _useComma := false, _omitT := decide (0 < digitsRun rest), _basicDatetime := true,
                         _basicOffset := false } } := by
  have hl : (ydText true Y N ++ rest).length ≤ 7 + rest.length := by
    simp [ydText, numeral_length]; omega
  simp only [ymdText, ywdText, ydText, ywText, hmsText, hmText, numeral, List.cons_append,
    List.nil_append, List.append_assoc, Bool.false_eq_true, if_false, if_true] at hl ⊢
  cases pt <;>
    simp [detectDateOrTimeFormat, digits_of_le _ _ _ hl, digitsRun, charAt, RET_FMT] at hpt ⊢ <;>
    (try split_ifs) <;> (try simp only [List.length_cons] at hl) <;>
    first | rfl | omega | (exfalso; omega) | (simp; omega)

/-! ## Lemmas: a complete date followed by more text -/

theorem CompleteDate.text_length_pos (d : CompleteDate) (compact : Bool) :
    0 < (d.text compact).length := by
  cases d <;> cases compact <;>
    simp [CompleteDate.text, ymdText, ywdText, ydText, numeral_length]

theorem detect_complete (d : CompleteDate) (compact : Bool) (rest : List Char) (pt : ParseType)
    (hpt : pt ≠ ParseType.TimeOnly) (heven : digitsRun rest % 2 = 0) :
    detectDateOrTimeFormat (d.text compact ++ rest) 0 ((d.text compact).length + rest.length) pt
      = some (d.detectedFormat compact rest) := by
  cases d with
  | ymd Y M D =>
    cases compact
    · have hl : (ymdText false Y M D).length = 10 := by simp [ymdText, numeral_length]
      simp only [CompleteDate.text, hl]
      rw [detect_ymd_ext Y M D rest pt hpt]
      simp [CompleteDate.detectedFormat, CompleteDate.detectedOmitT, CompleteDate.part]
    · have hl : (ymdText true Y M D).length = 8 := by simp [ymdText, numeral_length]
      simp only [CompleteDate.text, hl]
      rw [detect_ymd_compact Y M D rest pt hpt heven]
      simp [CompleteDate.detectedFormat, CompleteDate.detectedOmitT, CompleteDate.part]
  | ywd Y W D =>
    cases compact
    · have hl : (ywdText false Y W D).length = 10 := by simp [ywdText, numeral_length]
      simp only [CompleteDate.text, hl]
      rw [detect_ywd_ext Y W D rest pt hpt]
      simp [CompleteDate.detectedFormat, CompleteDate.detectedOmitT, CompleteDate.part]
    · have hl : (ywdText true Y W D).length = 8 := by simp [ywdText, numeral_length]
      simp only [CompleteDate.text, hl]
      rw [detect_ywd_compact Y W D rest pt hpt]
      simp [CompleteDate.detectedFormat, CompleteDate.detectedOmitT, CompleteDate.part]
  | yd Y N =>
    cases compact
    · have hl : (ydText false Y N).length = 8 := by simp [ydText, numeral_length]
      simp only [CompleteDate.text, hl]
      rw [detect_yd_ext Y N rest pt hpt]
      simp [CompleteDate.detectedFormat, CompleteDate.detectedOmitT, CompleteDate.part]
    · have hl : (ydText true Y N).length = 7 := by simp [ydText, numeral_length]
      simp only [CompleteDate.text, hl]
      rw [detect_yd_compact Y N rest pt hpt heven]
      simp [CompleteDate.detectedFormat, CompleteDate.detectedOmitT, CompleteDate.part]

theorem validDate_bounds (Y : Int) (M D : Nat) (h : validDate Y M D = true) :
    M < 100 ∧ D < 100 := by
  simp only [validDate, lastDayOf, Bool.and_eq_true, decide_eq_true_eq] at h
  obtain ⟨⟨⟨_, h2⟩, _⟩, h4⟩ := h
  refine ⟨by omega, ?_⟩
  split at h4
  · split at h4 <;> omega
  · split at h4 <;> omega

theorem parseDate_complete (d : CompleteDate) (compact : Bool) (rest : List Char)
    (hv : d.valid = true) (o : Offset) (a b c : Bool) (ld0 : Int) :
    parseDate (d.text compact ++ rest) 0
      { _datetime := d.part, _offset := o,
        _extra := { _useComma := a, _omitT := b, _basicDatetime := compact, _basicOffset := c } }
      ld0 = ((d.text compact).length, d.dayCount) := by
  cases d with
  | ymd Y M D =>
    simp only [CompleteDate.valid, Bool.and_eq_true, decide_eq_true_eq] at hv
    obtain ⟨hY, hval⟩ := hv
    obtain ⟨hM, hD⟩ := validDate_bounds Y M D hval
    cases compact
    · have := parseDate_ymd_ext Y M D hY hM hD rest o a b c ld0
      simp only [CompleteDate.text, CompleteDate.part, CompleteDate.dayCount, ymdText, numeral,
        List.cons_append, List.nil_append, List.append_assoc, Bool.false_eq_true, if_false]
      rw [this]
      simp [hval]
    · have := parseDate_ymd_compact Y M D hY hM hD rest o a b c ld0
      simp only [CompleteDate.text, CompleteDate.part, CompleteDate.dayCount, ymdText, numeral,
        List.cons_append, List.nil_append, List.append_assoc, if_true]
      rw [this]
      simp [hval]
  | ywd Y W D =>
    simp only [CompleteDate.valid, Bool.and_eq_true, decide_eq_true_eq] at hv
    obtain ⟨⟨hY, hW⟩, hval⟩ := hv
    have hD : D < 10 := by
      simp only [validWeekDate, Bool.and_eq_true, decide_eq_true_eq] at hval; omega
    cases compact
    · have := parseDate_ywd_ext Y W D hY hW hD rest o a b c ld0
      simp only [CompleteDate.text, CompleteDate.part, CompleteDate.dayCount, ywdText, numeral,
        List.cons_append, List.nil_append, List.append_assoc, Bool.false_eq_true, if_false]
      rw [this]
      simp [hval]
    · have := parseDate_ywd_compact Y W D hY hW hD rest o a b c ld0
      simp only [CompleteDate.text, CompleteDate.part, CompleteDate.dayCount, ywdText, numeral,
        List.cons_append, List.nil_append, List.append_assoc, if_true]
      rw [this]
      simp [hval]
  | yd Y N =>
    simp only [CompleteDate.valid, Bool.and_eq_true, decide_eq_true_eq] at hv
    obtain ⟨hY, hval⟩ := hv
    have hN : N < 1000 := by
      simp only [validOrdinal, Bool.and_eq_true, decide_eq_true_eq] at hval
      obtain ⟨_, h⟩ := hval
      split at h <;> omega
    cases compact
    · have := parseDate_yd_ext Y N hY hN rest o a b c ld0
      simp only [CompleteDate.text, CompleteDate.part, CompleteDate.dayCount, ydText, numeral,
        List.cons_append, List.nil_append, List.append_assoc, Bool.false_eq_true, if_false]
      rw [this]
      simp [hval]
    · have := parseDate_yd_compact Y N hY hN rest o a b c ld0
      simp only [CompleteDate.text, CompleteDate.part, CompleteDate.dayCount, ydText, numeral,
        List.cons_append, List.nil_append, List.append_assoc, if_true]
      rw [this]
      simp [hval]

/-! ## Lemmas: `parseTime` keeps the variant and the compactness of the format -/

theorem parseTimeFraction_datetime (s : List Char) (p e : Nat) (fmt : ISO8601Format)
    (fsec : Int) :
    (parseTimeFraction s p e fmt fsec).fmt._datetime = fmt._datetime ∧
    (parseTimeFraction s p e fmt fsec).fmt._extra._basicDatetime = fmt._extra._basicDatetime := by
  simp only [parseTimeFraction]
  split_ifs <;> exact ⟨rfl, rfl⟩

theorem parseTimeOffset_datetime (s : List Char) (p e : Nat) (fmt : ISO8601Format) (g : Int) :
    (parseTimeOffset s p e fmt g).fmt._datetime = fmt._datetime ∧
    (parseTimeOffset s p e fmt g).fmt._extra._basicDatetime = fmt._extra._basicDatetime := by
  simp only [parseTimeOffset]
  split_ifs <;> exact ⟨rfl, rfl⟩

theorem parseTime_datetime (s : List Char) (p e : Nat) (fmt : ISO8601Format) (g : Int) :
    (parseTime s p e fmt g).fmt._datetime = fmt._datetime ∧
    (parseTime s p e fmt g).fmt._extra._basicDatetime = fmt._extra._basicDatetime := by
  simp only [parseTime]
  split
  · exact ⟨rfl, rfl⟩
  · rename_i p' sm fsec _
    have hf := parseTimeFraction_datetime s p' e fmt fsec
    split
    · exact hf
    · have ho := parseTimeOffset_datetime s (parseTimeFraction s p' e fmt fsec).p e
        (parseTimeFraction s p' e fmt fsec).fmt g
      exact ⟨ho.1.trans hf.1, ho.2.trans hf.2⟩

/-- The combiner of `detail::parse_iso8601` for a valid complete date followed by `rest`. -/
theorem parse_complete (d : CompleteDate) (compact : Bool) (rest : List Char)
    (hv : d.valid = true) (heven : digitsRun rest % 2 = 0) (ld0 today : Int) :
    detail.parse_iso8601 (d.text compact ++ rest) ((d.text compact).length + rest.length)
        ld0 today ParseType.DateTime =
      match detectDateOrTimeFormat rest 0 rest.length ParseType.TimeOnly with
      | none =>
        { consumed := (d.text compact).length, format := d.detectedFormat compact rest,
          ld := d.dayCount, since_midnight := 0, gmt_offset := 0 }
      | some tf =>
        if tf._datetime = DateTime.h then
          { consumed := (d.text compact).length + (parseTime rest 0 rest.length tf 0).p,
            format :=
              { _datetime := (combine_formats.getD (d.part.toNat - 12) []).getD 2 DateTime.Invalid,
                _offset := (parseTime rest 0 rest.length tf 0).fmt._offset,
                _extra := { (parseTime rest 0 rest.length tf 0).fmt._extra with
                            _basicDatetime := compact } },
            ld := d.dayCount,
            since_midnight := (parseTime rest 0 rest.length tf 0).since_midnight,
            gmt_offset := (parseTime rest 0 rest.length tf 0).gmt_offset }
        else if compact ≠ tf._extra._basicDatetime then
          { consumed := 0, format := (parseTime rest 0 rest.length tf 0).fmt,
            ld := d.dayCount,
            since_midnight := (parseTime rest 0 rest.length tf 0).since_midnight,
            gmt_offset := (parseTime rest 0 rest.length tf 0).gmt_offset }
        else
          { consumed := (d.text compact).length + (parseTime rest 0 rest.length tf 0).p,
            format :=
              { (parseTime rest 0 rest.length tf 0).fmt with
                _datetime := (combine_formats.getD (d.part.toNat - 12) []).getD
                  (tf._datetime.toNat - 9) DateTime.Invalid },
            ld := d.dayCount,
            since_midnight := (parseTime rest 0 rest.length tf 0).since_midnight,
            gmt_offset := (parseTime rest 0 rest.length tf 0).gmt_offset } := by
  have hdet := detect_complete d compact rest ParseType.DateTime (by decide) heven
  have hpd := parseDate_complete d compact rest hv Offset.none false
    (d.detectedOmitT compact rest) false ld0
  have hpos := d.text_length_pos compact
  have hpart : ¬ (9 ≤ d.part.toNat ∧ d.part.toNat ≤ 11) := by
    cases d <;> simp [CompleteDate.part, DateTime.toNat]
  have hpart2 : 12 ≤ d.part.toNat ∧ d.part.toNat ≤ 14 := by
    cases d <;> simp [CompleteDate.part, DateTime.toNat]
  have hsh := detect_shift (d.text compact) rest rest.length ParseType.TimeOnly
  have h9 : DateTime.hms.toNat = 9 := rfl
  have h11 : DateTime.h.toNat = 11 := rfl
  have h12 : DateTime.ymd.toNat = 12 := rfl
  have h14 : DateTime.yd.toNat = 14 := rfl
  unfold detail.parse_iso8601
  simp only [hdet]
  simp only [CompleteDate.detectedFormat, h9, h11, h12, h14, hpart, if_false, hpd,
    Nat.pos_iff_ne_zero.mp hpos, hpart2, and_self, if_true, hsh]
  cases hdt : detectDateOrTimeFormat rest 0 rest.length ParseType.TimeOnly with
  | none => simp
  | some tf =>
    have hps := parseTime_shift (d.text compact) rest rest.length tf 0
    have hk := parseTime_datetime rest 0 rest.length tf 0
    simp only [hps, hk.1, hk.2]
    by_cases h1 : tf._datetime = DateTime.h
    · simp [h1, h11]
    · simp only [h1, if_false]
      by_cases h2 : compact = tf._extra._basicDatetime
      · simp [h2, hk.1, hk.2]
      · simp [h2]

/-! ## Lemmas: detection of a time text -/

theorem detect_time (withT withSeconds compact : Bool) (h m s : Nat) (tail : List Char)
    (htail : endsField tail) :
    detectDateOrTimeFormat (timeFieldsText withT withSeconds compact h m s ++ tail) 0
      ((timeFieldsText withT withSeconds compact h m s).length + tail.length)
      ParseType.TimeOnly =
      some { _datetime := if withSeconds then DateTime.hms else DateTime.hm,
             _offset := Offset.none,
             _extra := { _useComma := false, _omitT := !withT, _basicDatetime := compact,
                         _basicOffset := false } } ∧
    digitsRun (timeFieldsText withT withSeconds compact h m s ++ tail) % 2 = 0 := by
  have hl : (timeFieldsText withT withSeconds compact h m s ++ tail).length ≤
      (timeFieldsText withT withSeconds compact h m s).length + tail.length := by simp
  cases tail with
  | nil =>
    cases withT <;> cases withSeconds <;> cases compact <;>
      simp only [timeFieldsText, hmsText, hmText, numeral, List.cons_append, List.nil_append,
        List.append_assoc, Bool.false_eq_true, if_false, if_true, List.append_nil] at hl ⊢ <;>
      simp only [detectDateOrTimeFormat, digits_of_le _ _ _ hl] <;>
      simp [digitsRun, charAt, RET_FMT]
  | cons c tl =>
    have hc := htail c rfl
    have hc1 : isdigit c = false := hc.1
    have hc2 : ¬ (c = ':') := hc.2
    cases withT <;> cases withSeconds <;> cases compact <;>
      simp only [timeFieldsText, hmsText, hmText, numeral, List.cons_append, List.nil_append,
        List.append_assoc, Bool.false_eq_true, if_false, if_true] at hl ⊢ <;>
      simp only [detectDateOrTimeFormat, digits_of_le _ _ _ hl] <;>
      simp [digitsRun, charAt, RET_FMT, hc1, hc2] <;>
      (try split_ifs) <;> first | rfl | omega | (exfalso; omega)

theorem withHour_eq (d : CompleteDate) :
    (combine_formats.getD (d.part.toNat - 12) []).getD 2 DateTime.Invalid = d.withHour := by
  cases d <;> rfl

/-! ## Lemmas: the calendar -/

theorem yoe_recover (yoe doy : Int) (h0 : 0 ≤ yoe) (h1 : yoe ≤ 399) (h2 : 0 ≤ doy)
    (h3 : doy ≤ 365) (h4 : doy = 365 → yoe % 4 = 3 ∧ (yoe % 100 ≠ 99 ∨ yoe = 399))
    (D : Int) (hD : D = 365 * yoe + yoe / 4 - yoe / 100 + doy) :
    (D - D / 1460 + D / 36524 - D / 146096) / 365 = yoe := by
  have hc : yoe / 100 = 0 ∨ yoe / 100 = 1 ∨ yoe / 100 = 2 ∨ yoe / 100 = 3 := by omega
  have hg : D / 146096 = 0 ∨ (D = 146096) := by omega
  have hf : D / 36524 = yoe / 100 ∨ D = 146096 := by
    rcases hc with hc | hc | hc | hc <;> omega
  have he : D / 1460 = yoe / 4 ∨ D / 1460 = yoe / 4 + 1 := by
    rcases hc with hc | hc | hc | hc <;> omega
  rcases hc with hc | hc | hc | hc <;> rcases hg with hg | hg <;> rcases hf with hf | hf <;>
    rcases he with he | he <;> omega

theorem doe_split (doe : Int) (h0 : 0 ≤ doe) (h1 : doe ≤ 146096) :
    ∃ yoe doy : Int, 0 ≤ yoe ∧ yoe ≤ 399 ∧ 0 ≤ doy ∧ doy ≤ 365 ∧
      (doy = 365 → yoe % 4 = 3 ∧ (yoe % 100 ≠ 99 ∨ yoe = 399)) ∧
      doe = 365 * yoe + yoe / 4 - yoe / 100 + doy := by
  obtain ⟨c, hc⟩ : ∃ c : Int, c = min (doe / 36524) 3 := ⟨_, rfl⟩
  obtain ⟨q, hq⟩ : ∃ q : Int, q = min ((doe - 36524 * c) / 1461) 24 := ⟨_, rfl⟩
  obtain ⟨s, hs⟩ : ∃ s : Int, s = min ((doe - 36524 * c - 1461 * q) / 365) 3 := ⟨_, rfl⟩
  refine ⟨100 * c + 4 * q + s, doe - 36524 * c - 1461 * q - 365 * s, ?_⟩
  have hcc : 0 ≤ c ∧ c ≤ 3 := by omega
  have hr1 : 0 ≤ doe - 36524 * c ∧ doe - 36524 * c ≤ 36524 := by omega
  have hqq : 0 ≤ q ∧ q ≤ 24 := by omega
  have hr2 : 0 ≤ doe - 36524 * c - 1461 * q ∧ doe - 36524 * c - 1461 * q ≤ 1460 := by omega
  have hss : 0 ≤ s ∧ s ≤ 3 := by omega
  have hr3 : 0 ≤ doe - 36524 * c - 1461 * q - 365 * s ∧
      doe - 36524 * c - 1461 * q - 365 * s ≤ 365 := by omega
  have e4 : (100 * c + 4 * q + s) / 4 = 25 * c + q := by omega
  have e100 : (100 * c + 4 * q + s) / 100 = c := by omega
  have m4 : (100 * c + 4 * q + s) % 4 = s := by omega
  have m100 : (100 * c + 4 * q + s) % 100 = 4 * q + s := by omega
  rw [e4, e100, m4, m100]
  refine ⟨by omega, by omega, by omega, by omega, ?_, by omega⟩
  intro h
  omega

theorem doy_bounds (doe : Int) (h0 : 0 ≤ doe) (h1 : doe ≤ 146096) (yoe doy : Int)
    (hy : yoe = (doe - doe / 1460 + doe / 36524 - doe / 146096) / 365)
    (hd : doy = doe - (365 * yoe + yoe / 4 - yoe / 100)) :
    0 ≤ yoe ∧ yoe ≤ 399 ∧ 0 ≤ doy ∧ doy ≤ 365 ∧
      (doy = 365 → yoe % 4 = 3 ∧ (yoe % 100 ≠ 99 ∨ yoe = 399)) := by
  obtain ⟨y0, d0, a, b, c, d, e, f⟩ := doe_split doe h0 h1
  have hrec := yoe_recover y0 d0 a b c d e doe f
  have hy0 : yoe = y0 := by rw [hy, hrec]
  subst hy0
  have hd0 : doy = d0 := by omega
  subst hd0
  exact ⟨a, b, c, d, e⟩

theorem d_bounds (doy mp d : Int) (h0 : 0 ≤ doy) (h1 : doy ≤ 365)
    (hmp : mp = (5 * doy + 2) / 153) (hd : d = doy - (153 * mp + 2) / 5 + 1) :
    0 ≤ mp ∧ mp ≤ 11 ∧ 1 ≤ d ∧ d ≤ 31 ∧ ((mp = 1 ∨ mp = 3 ∨ mp = 6 ∨ mp = 8) → d ≤ 30) ∧
      (mp = 11 → d ≤ 29 ∧ (d = 29 → doy = 365)) := by
  have : mp = 0 ∨ mp = 1 ∨ mp = 2 ∨ mp = 3 ∨ mp = 4 ∨ mp = 5 ∨ mp = 6 ∨ mp = 7 ∨ mp = 8 ∨
      mp = 9 ∨ mp = 10 ∨ mp = 11 := by omega
  rcases this with h | h | h | h | h | h | h | h | h | h | h | h <;> omega

theorem civilOf_eq (z era doe yoe doy mp d : Int) (hz : z + 719468 = era * 146097 + doe)
    (hdoe0 : 0 ≤ doe) (hdoe1 : doe ≤ 146096)
    (hyoe : yoe = (doe - doe / 1460 + doe / 36524 - doe / 146096) / 365)
    (hdoy : doy = doe - (365 * yoe + yoe / 4 - yoe / 100))
    (hmp : mp = (5 * doy + 2) / 153) (hd : d = doy - (153 * mp + 2) / 5 + 1) :
    civilOf z = (if (if mp < 10 then mp + 3 else mp - 9) ≤ 2 then yoe + era * 400 + 1
                 else yoe + era * 400,
                 (if mp < 10 then mp + 3 else mp - 9).toNat, d.toNat) := by
  have e1 : (z + 719468) / 146097 = era := by omega
  have e2 : z + 719468 - era * 146097 = doe := by omega
  simp only [civilOf, e1, e2]
  rw [← hyoe, ← hdoy, ← hmp, ← hd]

/-- The decomposition that `civilOf` computes. -/
theorem civilOf_spec (z : Int) :
    ∃ era yoe doy mp d : Int,
      0 ≤ yoe ∧ yoe ≤ 399 ∧ 0 ≤ doy ∧ doy ≤ 365 ∧
      (doy = 365 → yoe % 4 = 3 ∧ (yoe % 100 ≠ 99 ∨ yoe = 399)) ∧
      0 ≤ mp ∧ mp ≤ 11 ∧ 1 ≤ d ∧ d ≤ 31 ∧
      ((mp = 1 ∨ mp = 3 ∨ mp = 6 ∨ mp = 8) → d ≤ 30) ∧
      (mp = 11 → d ≤ 29 ∧ (d = 29 → doy = 365)) ∧
      doy = (153 * mp + 2) / 5 + d - 1 ∧
      z + 719468 = era * 146097 + (365 * yoe + yoe / 4 - yoe / 100 + doy) ∧
      civilOf z = (if (if mp < 10 then mp + 3 else mp - 9) ≤ 2 then yoe + era * 400 + 1
                   else yoe + era * 400,
                   (if mp < 10 then mp + 3 else mp - 9).toNat, d.toNat) := by
  obtain ⟨era, hera⟩ : ∃ era : Int, era = (z + 719468) / 146097 := ⟨_, rfl⟩
  obtain ⟨doe, hdoe⟩ : ∃ doe : Int, doe = z + 719468 - era * 146097 := ⟨_, rfl⟩
  obtain ⟨yoe, hyoe⟩ : ∃ yoe : Int,
      yoe = (doe - doe / 1460 + doe / 36524 - doe / 146096) / 365 := ⟨_, rfl⟩
  obtain ⟨doy, hdoy⟩ : ∃ doy : Int, doy = doe - (365 * yoe + yoe / 4 - yoe / 100) := ⟨_, rfl⟩
  obtain ⟨mp, hmp⟩ : ∃ mp : Int, mp = (5 * doy + 2) / 153 := ⟨_, rfl⟩
  obtain ⟨d, hd⟩ : ∃ d : Int, d = doy - (153 * mp + 2) / 5 + 1 := ⟨_, rfl⟩
  have hdoe0 : 0 ≤ doe ∧ doe ≤ 146096 := by omega
  have hb := doy_bounds doe hdoe0.1 hdoe0.2 yoe doy hyoe hdoy
  have hdb := d_bounds doy mp d hb.2.2.1 hb.2.2.2.1 hmp hd
  refine ⟨era, yoe, doy, mp, d, hb.1, hb.2.1, hb.2.2.1, hb.2.2.2.1, hb.2.2.2.2, hdb.1, hdb.2.1,
    hdb.2.2.1, hdb.2.2.2.1, hdb.2.2.2.2.1, hdb.2.2.2.2.2, by omega, by omega, ?_⟩
  exact civilOf_eq z era doe yoe doy mp d (by omega) hdoe0.1 hdoe0.2 hyoe hdoy hmp hd

theorem validDate_civilOf (z : Int) :
    validDate (civilOf z).1 (civilOf z).2.1 (civilOf z).2.2 = true := by
  obtain ⟨era, yoe, doy, mp, d, h1, h2, h3, h4, h5, h6, h7, h8, h9, h10, h11, h12, h13, hc⟩ :=
    civilOf_spec z
  rw [hc]
  simp only [validDate, lastDayOf, isLeapYear, Bool.and_eq_true, decide_eq_true_eq]
  have hdn : (d.toNat : Int) = d := Int.toNat_of_nonneg (by omega)
  by_cases hfeb : mp = 11
  · subst hfeb
    simp
    refine ⟨by omega, ?_⟩
    split
    · have := (h11 rfl).1
      omega
    · rename_i hnl
      have hd29 : d ≠ 29 := by
        intro h29
        have := h5 ((h11 rfl).2 h29)
        apply hnl
        omega
      have := (h11 rfl).1
      omega
  · have hmm : mp = 0 ∨ mp = 1 ∨ mp = 2 ∨ mp = 3 ∨ mp = 4 ∨ mp = 5 ∨ mp = 6 ∨ mp = 7 ∨
        mp = 8 ∨ mp = 9 ∨ mp = 10 := by omega
    rcases hmm with h | h | h | h | h | h | h | h | h | h | h <;> subst h <;> simp <;> omega

theorem dayCountOf_civilOf (z : Int) :
    dayCountOf (civilOf z).1 (civilOf z).2.1 (civilOf z).2.2 = z := by
  obtain ⟨era, yoe, doy, mp, d, h1, h2, h3, h4, h5, h6, h7, h8, h9, h10, h11, h12, h13, hc⟩ :=
    civilOf_spec z
  rw [hc]
  have hdn : (d.toNat : Int) = d := Int.toNat_of_nonneg (by omega)
  have hmm : mp = 0 ∨ mp = 1 ∨ mp = 2 ∨ mp = 3 ∨ mp = 4 ∨ mp = 5 ∨ mp = 6 ∨ mp = 7 ∨ mp = 8 ∨
      mp = 9 ∨ mp = 10 ∨ mp = 11 := by omega
  rcases hmm with h | h | h | h | h | h | h | h | h | h | h | h <;> subst h <;>
    simp [dayCountOf, hdn] <;> omega

/-- The day count of 1 January of year `y` in closed form. -/
theorem dayCountOf_jan1 (y : Int) :
    dayCountOf y 1 1 = 365 * (y - 1) + (y - 1) / 4 - (y - 1) / 100 + (y - 1) / 400 - 719162 := by
  simp [dayCountOf]
  omega

theorem dayCountOf_jan4 (y : Int) : dayCountOf y 1 4 = dayCountOf y 1 1 + 3 := by
  simp [dayCountOf]
  omega

theorem year_length (y : Int) :
    dayCountOf (y + 1) 1 1 - dayCountOf y 1 1 = 365 + (if isLeapYear y then 1 else 0) := by
  rw [dayCountOf_jan1, dayCountOf_jan1]
  simp only [isLeapYear, Bool.and_eq_true, Bool.or_eq_true, beq_iff_eq, bne_iff_ne, ne_eq]
  split <;> omega

/-- A day count lies in the year `civilOf` reports. -/
theorem civilOf_year_bounds (z : Int) :
    dayCountOf (civilOf z).1 1 1 ≤ z ∧ z < dayCountOf ((civilOf z).1 + 1) 1 1 := by
  obtain ⟨era, yoe, doy, mp, d, h1, h2, h3, h4, h5, h6, h7, h8, h9, h10, h11, h12, h13, hc⟩ :=
    civilOf_spec z
  rw [hc, dayCountOf_jan1, dayCountOf_jan1]
  simp only
  have hmm : mp = 0 ∨ mp = 1 ∨ mp = 2 ∨ mp = 3 ∨ mp = 4 ∨ mp = 5 ∨ mp = 6 ∨ mp = 7 ∨ mp = 8 ∨
      mp = 9 ∨ mp = 10 ∨ mp = 11 := by omega
  rcases hmm with h | h | h | h | h | h | h | h | h | h | h | h <;> subst h <;> simp <;> omega

/-! ## Lemmas: detection of a year-week text -/

theorem detect_yw_ext (Y W : Nat) :
    detectDateOrTimeFormat (ywText false Y W) 0 8 ParseType.DateOnly =
      some { _datetime := DateTime.yw, _offset := Offset.none,
             _extra := { _useComma := false, _omitT := false, _basicDatetime := false,
                         _basicOffset := false } } := by
  simp only [ywText, numeral, List.cons_append, List.nil_append, List.append_assoc,
    Bool.false_eq_true, if_false, if_true]
  simp [detectDateOrTimeFormat, digits, digitsRun, charAt, RET_FMT]

theorem detect_yw_compact (Y W : Nat) :
    detectDateOrTimeFormat (ywText true Y W) 0 7 ParseType.DateOnly =
      some { _datetime := DateTime.yw, _offset := Offset.none,
             _extra := { _useComma := false, _omitT := false, _basicDatetime := true,
                         _basicOffset := false } } := by
  simp only [ywText, numeral, List.cons_append, List.nil_append, List.append_assoc,
    Bool.false_eq_true, if_false, if_true]
  simp [detectDateOrTimeFormat, digits, digitsRun, charAt, RET_FMT]

/-- The parse of a year-week text in DateOnly mode. -/
theorem parse_yw (compact : Bool) (Y W : Nat) (hY : Y < 10000) (hW : W < 100) (ld0 today : Int) :
    detail.parse_iso8601 (ywText compact Y W) (ywText compact Y W).length ld0 today
        ParseType.DateOnly =
      if 1 ≤ W ∧ W ≤ 53 then
        { consumed := (ywText compact Y W).length,
          format := { _datetime := DateTime.yw, _offset := Offset.none,
                      _extra := { _useComma := false, _omitT := false,
                                  _basicDatetime := compact, _basicOffset := false } },
          ld := weekDateOf Y W 1, since_midnight := 0, gmt_offset := 0 }
      else
        { consumed := 0,
          format := { _datetime := DateTime.yw, _offset := Offset.none,
                      _extra := { _useComma := false, _omitT := false,
                                  _basicDatetime := compact, _basicOffset := false } },
          ld := ld0, since_midnight := 0, gmt_offset := 0 } := by
  cases compact
  · have hl : (ywText false Y W).length = 8 := by simp [ywText, numeral_length]
    have hdet := detect_yw_ext Y W
    have hpd := parseDate_yw_ext Y W hY hW [] Offset.none false false false ld0
    rw [hl]
    unfold detail.parse_iso8601
    simp only [hdet]
    simp only [ywText, numeral, List.cons_append, List.nil_append, List.append_assoc,
      Bool.false_eq_true, if_false]
    rw [hpd]
    split_ifs <;> simp
  · have hl : (ywText true Y W).length = 7 := by simp [ywText, numeral_length]
    have hdet := detect_yw_compact Y W
    have hpd := parseDate_yw_compact Y W hY hW [] Offset.none false false false ld0
    rw [hl]
    unfold detail.parse_iso8601
    simp only [hdet]
    simp only [ywText, numeral, List.cons_append, List.nil_append, List.append_assoc, if_true]
    rw [hpd]
    split_ifs <;> simp

/-- The parse of a year-week-day text in DateOnly mode. -/
theorem parse_ywd (compact : Bool) (Y W D : Nat) (hY : Y < 10000) (hW : W < 100) (hD : D < 10)
    (ld0 today : Int) :
    detail.parse_iso8601 (ywdText compact Y W D) (ywdText compact Y W D).length ld0 today
        ParseType.DateOnly =
      if validWeekDate Y W D = true then
        { consumed := (ywdText compact Y W D).length,
          format := { _datetime := DateTime.ywd, _offset := Offset.none,
                      _extra := { _useComma := false, _omitT := false,
                                  _basicDatetime := compact, _basicOffset := false } },
          ld := weekDateOf Y W D, since_midnight := 0, gmt_offset := 0 }
      else
        { consumed := 0,
          format := { _datetime := DateTime.ywd, _offset := Offset.none,
                      _extra := { _useComma := false, _omitT := false,
                                  _basicDatetime := compact, _basicOffset := false } },
          ld := ld0, since_midnight := 0, gmt_offset := 0 } := by
  cases compact
  · have hl : (ywdText false Y W D).length = 10 := by simp [ywdText, numeral_length]
    have hdet := detect_ywd_ext Y W D [] ParseType.DateOnly (by decide)
    have hpd := parseDate_ywd_ext Y W D hY hW hD [] Offset.none false false false ld0
    simp only [List.append_nil, List.length_nil, Nat.add_zero] at hdet
    rw [hl]
    unfold detail.parse_iso8601
    simp only [hdet]
    simp only [ywdText, numeral, List.cons_append, List.nil_append, List.append_assoc,
      Bool.false_eq_true, if_false]
    rw [hpd]
    split_ifs <;> simp
  · have hl : (ywdText true Y W D).length = 8 := by simp [ywdText, numeral_length]
    have hdet := detect_ywd_compact Y W D [] ParseType.DateOnly (by decide)
    have hpd := parseDate_ywd_compact Y W D hY hW hD [] Offset.none false false false ld0
    simp only [List.append_nil, List.length_nil, Nat.add_zero] at hdet
    rw [hl]
    unfold detail.parse_iso8601
    simp only [hdet]
    simp only [ywdText, numeral, List.cons_append, List.nil_append, List.append_assoc, if_true]
    rw [hpd]
    split_ifs <;> simp

/-! ## Lemmas: ISO weeks -/

theorem week1Start_step (y : Int) :
    week1Start (y + 1) - week1Start y = 364 ∨ week1Start (y + 1) - week1Start y = 371 := by
  have h := year_length y
  simp only [week1Start, dayCountOf_jan4]
  split_ifs at h <;> omega

theorem weeksInYear_bounds (y : Int) : weeksInYear y = 52 ∨ weeksInYear y = 53 := by
  unfold weeksInYear
  rcases week1Start_step y with h | h <;> rw [h]
  · left; rfl
  · right; rfl

theorem week1Start_mod (y : Int) : (week1Start y + 3) % 7 = 0 := by
  simp only [week1Start]
  omega

theorem week1Start_le (y : Int) :
    dayCountOf y 1 1 - 3 ≤ week1Start y ∧ week1Start y ≤ dayCountOf y 1 1 + 3 := by
  simp only [week1Start, dayCountOf_jan4]
  omega

theorem week1Start_weeks (y : Int) :
    week1Start (y + 1) = week1Start y + 7 * (weeksInYear y : Int) := by
  rcases week1Start_step y with h | h
  · have : weeksInYear y = 52 := by unfold weeksInYear; rw [h]; rfl
    rw [this]; omega
  · have : weeksInYear y = 53 := by unfold weeksInYear; rw [h]; rfl
    rw [this]; omega

theorem weekOf_bounds (dp : Int) :
    week1Start (weekOf dp).1 ≤ dp ∧ dp < week1Start ((weekOf dp).1 + 1) := by
  have hb := civilOf_year_bounds (dp + 3)
  have h1 := week1Start_le (civilOf (dp + 3)).1
  have h2 := week1Start_le ((civilOf (dp + 3)).1 + 1)
  have h3 := week1Start_step ((civilOf (dp + 3)).1 - 1)
  have h4 := week1Start_le ((civilOf (dp + 3)).1 - 1)
  simp only [weekOf]
  generalize (civilOf (dp + 3)).1 = y0 at *
  rw [show y0 - 1 + 1 = y0 by omega] at h3
  split_ifs with h
  · rw [show y0 - 1 + 1 = y0 by omega]
    omega
  · omega

theorem weekOf_fields (dp : Int) :
    (weekOf dp).2.1 = ((dp - week1Start (weekOf dp).1) / 7).toNat + 1 ∧
      (weekOf dp).2.2 = isoWeekdayOf dp := by
  simp only [weekOf, and_self]

theorem weekDateOf_weekOf (dp : Int) :
    weekDateOf (weekOf dp).1 (weekOf dp).2.1 (weekOf dp).2.2 = dp := by
  have hb := weekOf_bounds dp
  have hf := weekOf_fields dp
  have hm := week1Start_mod (weekOf dp).1
  rw [hf.1, hf.2]
  simp only [weekDateOf, isoWeekdayOf]
  generalize week1Start (weekOf dp).1 = w at *
  have e1 : (((dp - w) / 7).toNat : Int) = (dp - w) / 7 := Int.toNat_of_nonneg (by omega)
  have e2 : (((dp + 3) % 7).toNat : Int) = (dp + 3) % 7 := Int.toNat_of_nonneg (by omega)
  push_cast
  rw [e1, e2]
  omega

theorem validWeekDate_weekOf (dp : Int) :
    validWeekDate (weekOf dp).1 (weekOf dp).2.1 (weekOf dp).2.2 = true := by
  have hb := weekOf_bounds dp
  have hf := weekOf_fields dp
  have hw := week1Start_weeks (weekOf dp).1
  rw [hf.1, hf.2]
  simp only [validWeekDate, isoWeekdayOf, Bool.and_eq_true, decide_eq_true_eq]
  generalize week1Start (weekOf dp).1 = w at *
  generalize week1Start ((weekOf dp).1 + 1) = w2 at *
  generalize weeksInYear (weekOf dp).1 = n at *
  have e1 : (((dp - w) / 7).toNat : Int) = (dp - w) / 7 := Int.toNat_of_nonneg (by omega)
  have e2 : (((dp + 3) % 7).toNat : Int) = (dp + 3) % 7 := Int.toNat_of_nonneg (by omega)
  refine ⟨⟨⟨?_, ?_⟩, ?_⟩, ?_⟩ <;> omega

/-- The ordinal day that the formatter prints lies in the year. -/
theorem ordinal_bounds (z : Int) :
    1 ≤ z - dayCountOf (civilOf z).1 1 1 + 1 ∧
      z - dayCountOf (civilOf z).1 1 1 + 1 ≤ 365 + (if isLeapYear (civilOf z).1 then 1 else 0) := by
  have hb := civilOf_year_bounds z
  have hy := year_length (civilOf z).1
  omega

/-! ## Lemmas: the text returned by the public formatter -/

theorem takeWhile_nul (t rest : List Char) (h : NUL ∉ t) :
    (t ++ NUL :: rest).takeWhile (fun c => c != NUL) = t := by
  induction t with
  | nil => simp [List.takeWhile]
  | cons a t ih =>
    have ha : a ≠ NUL := fun e => h (by simp [e])
    have ht : NUL ∉ t := fun e => h (by simp [e])
    have hb : (a != NUL) = true := by simpa using ha
    rw [List.cons_append, List.takeWhile_cons, hb, if_pos rfl, ih ht]

theorem format_iso8601_eq (buf : List Char) (hbuf : buf.length = 64)
    (format_ : ISO8601Format) (precision_ : Precision) (lt_ gmt_offset_ : Int)
    (hv : format_._datetime ≠ DateTime.Invalid)
    (hlen : (renderText format_ precision_ lt_ gmt_offset_).length < 64)
    (hnul : NUL ∉ renderText format_ precision_ lt_ gmt_offset_) :
    format_iso8601 buf precision_ lt_ gmt_offset_ format_ =
      renderText format_ precision_ lt_ gmt_offset_ := by
  obtain ⟨_, _, rest, hm⟩ :=
    format_iso8601_wrote buf 64 hbuf format_ precision_ lt_ gmt_offset_ hv hlen
  simp only at hm
  rw [format_iso8601, hm, takeWhile_nul _ _ hnul]

theorem digitChar_ne_NUL2 (d : Nat) : NUL ≠ digitChar d := by
  intro h
  have := digitChar_ne_NUL d
  rw [← h] at this
  simp at this

theorem nul_not_mem_numeral (w n : Nat) : NUL ∉ numeral w n := by
  induction w generalizing n with
  | zero => simp [numeral]
  | succ w ih => simp [numeral, ih, digitChar_ne_NUL2]

theorem fmt_d_nat (w n : Nat) (h : n < 10 ^ w) (hw : 1 ≤ w) : fmt_d w (n : Int) = numeral w n := by
  rw [fmt_d_eq w n (by omega) (by exact_mod_cast h) hw, Int.toNat_ofNat]

theorem fmt_d_nat1 (n : Nat) (h : n < 10) : fmt_d 0 (n : Int) = numeral 1 n := by
  rw [fmt_d_one_digit n (by omega) (by exact_mod_cast h), Int.toNat_ofNat]

/-! ## Lemmas: the formatted date -/

theorem dateText_ymd (fmt : ISO8601Format) (z : Int) (h0 : 0 ≤ (civilOf z).1)
    (h1 : (civilOf z).1 ≤ 9999) :
    dateText fmt DateTime.ymd z =
      ymdText fmt._extra._basicDatetime (civilOf z).1.toNat (civilOf z).2.1 (civilOf z).2.2 := by
  have hv := validDate_bounds _ _ _ (validDate_civilOf z)
  have e4 := fmt_d_eq 4 (civilOf z).1 h0 (by omega) (by decide)
  have e2 := fmt_d_nat 2 (civilOf z).2.1 (by omega) (by decide)
  have e3 := fmt_d_nat 2 (civilOf z).2.2 (by omega) (by decide)
  cases hb : fmt._extra._basicDatetime <;>
    simp [dateText, hb, formatHelper, formats, DateTime.toNat, vformat, e4, e2, e3, ymdText]

theorem dateText_yd (fmt : ISO8601Format) (z : Int) (h0 : 0 ≤ (civilOf z).1)
    (h1 : (civilOf z).1 ≤ 9999) :
    dateText fmt DateTime.yd z =
      ydText fmt._extra._basicDatetime (civilOf z).1.toNat
        (z - dayCountOf (civilOf z).1 1 1 + 1).toNat := by
  have hb := ordinal_bounds z
  have e4 := fmt_d_eq 4 (civilOf z).1 h0 (by omega) (by decide)
  have e3 := fmt_d_eq 3 (z - dayCountOf (civilOf z).1 1 1 + 1) (by omega)
    (by split_ifs at hb <;> omega) (by decide)
  cases hb : fmt._extra._basicDatetime <;>
    simp [dateText, hb, formatHelper, formats, DateTime.toNat, vformat, e4, e3, ydText]

theorem dateText_ywd (fmt : ISO8601Format) (z : Int) (h0 : 0 ≤ (weekOf z).1)
    (h1 : (weekOf z).1 ≤ 9999) :
    dateText fmt DateTime.ywd z =
      ywdText fmt._extra._basicDatetime (weekOf z).1.toNat (weekOf z).2.1 (weekOf z).2.2 := by
  have hv := validWeekDate_weekOf z
  have hw := weeksInYear_bounds (weekOf z).1
  simp only [validWeekDate, Bool.and_eq_true, decide_eq_true_eq] at hv
  have e4 := fmt_d_eq 4 (weekOf z).1 h0 (by omega) (by decide)
  have e2 := fmt_d_nat 2 (weekOf z).2.1 (by omega) (by decide)
  have e1 := fmt_d_nat1 (weekOf z).2.2 (by omega)
  have eW : Char.ofNat 87 = 'W' := rfl
  cases hb : fmt._extra._basicDatetime <;>
    simp [dateText, hb, formatHelper, formats, DateTime.toNat, vformat, e4, e2, e1, ywdText, eW]

theorem renderText_date (fmt : ISO8601Format) (precision_ : Precision) (lt_ gmt_offset_ : Int)
    (h : fmt._datetime = DateTime.ymd ∨ fmt._datetime = DateTime.yd ∨
      fmt._datetime = DateTime.ywd) :
    renderText fmt precision_ lt_ gmt_offset_ =
      dateText fmt fmt._datetime (localDay fmt lt_ gmt_offset_) := by
  rcases h with h | h | h <;>
    simp [renderText, h, formatHelper, formats, DateTime.toNat, localDay]

/-! ## Lemmas: the parse of a date text in DateOnly mode -/

/-- The parse of a calendar-date text in DateOnly mode. -/
theorem parse_ymd (compact : Bool) (Y M D : Nat) (hY : Y < 10000) (hM : M < 100) (hD : D < 100)
    (ld0 today : Int) :
    detail.parse_iso8601 (ymdText compact Y M D) (ymdText compact Y M D).length ld0 today
        ParseType.DateOnly =
      if validDate Y M D = true then
        { consumed := (ymdText compact Y M D).length,
          format := { _datetime := DateTime.ymd, _offset := Offset.none,
                      _extra := { _useComma := false, _omitT := false,
                                  _basicDatetime := compact, _basicOffset := false } },
          ld := dayCountOf Y M D, since_midnight := 0, gmt_offset := 0 }
      else
        { consumed := 0,
          format := { _datetime := DateTime.ymd, _offset := Offset.none,
                      _extra := { _useComma := false, _omitT := false,
                                  _basicDatetime := compact, _basicOffset := false } },
          ld := ld0, since_midnight := 0, gmt_offset := 0 } := by
  cases compact
  · have hl : (ymdText false Y M D).length = 10 := by simp [ymdText, numeral_length]
    have hdet := detect_ymd_ext Y M D [] ParseType.DateOnly (by decide)
    have hpd := parseDate_ymd_ext Y M D hY hM hD [] Offset.none false false false ld0
    simp only [List.append_nil, List.length_nil, Nat.add_zero] at hdet
    rw [hl]
    unfold detail.parse_iso8601
    simp only [hdet]
    simp only [ymdText, numeral, List.cons_append, List.nil_append, List.append_assoc,
      Bool.false_eq_true, if_false]
    rw [hpd]
    split_ifs <;> simp
  · have hl : (ymdText true Y M D).length = 8 := by simp [ymdText, numeral_length]
    have hdet := detect_ymd_compact Y M D [] ParseType.DateOnly (by decide) (by simp [digitsRun])
    have hpd := parseDate_ymd_compact Y M D hY hM hD [] Offset.none false false false ld0
    simp only [List.append_nil, List.length_nil, Nat.add_zero, digitsRun] at hdet
    rw [hl]
    unfold detail.parse_iso8601
    simp only [hdet]
    simp only [ymdText, numeral, List.cons_append, List.nil_append, List.append_assoc, if_true]
    simp only [Nat.lt_irrefl, decide_False]
    rw [hpd]
    split_ifs <;> simp

/-- The parse of an ordinal-date text in DateOnly mode. -/
theorem parse_yd (compact : Bool) (Y N : Nat) (hY : Y < 10000) (hN : N < 1000)
    (ld0 today : Int) :
    detail.parse_iso8601 (ydText compact Y N) (ydText compact Y N).length ld0 today
        ParseType.DateOnly =
      if validOrdinal Y N = true then
        { consumed := (ydText compact Y N).length,
          format := { _datetime := DateTime.yd, _offset := Offset.none,
                      _extra := { _useComma := false, _omitT := false,
                                  _basicDatetime := compact, _basicOffset := false } },
          ld := dayCountOf Y 1 1 + ((N : Int) - 1), since_midnight := 0, gmt_offset := 0 }
      else
        { consumed := 0,
          format := { _datetime := DateTime.yd, _offset := Offset.none,
                      _extra := { _useComma := false, _omitT := false,
                                  _basicDatetime := compact, _basicOffset := false } },
          ld := ld0, since_midnight := 0, gmt_offset := 0 } := by
  cases compact
  · have hl : (ydText false Y N).length = 8 := by simp [ydText, numeral_length]
    have hdet := detect_yd_ext Y N [] ParseType.DateOnly (by decide)
    have hpd := parseDate_yd_ext Y N hY hN [] Offset.none false false false ld0
    simp only [List.append_nil, List.length_nil, Nat.add_zero] at hdet
    rw [hl]
    unfold detail.parse_iso8601
    simp only [hdet]
    simp only [ydText, numeral, List.cons_append, List.nil_append, List.append_assoc,
      Bool.false_eq_true, if_false]
    rw [hpd]
    split_ifs <;> simp
  · have hl : (ydText true Y N).length = 7 := by simp [ydText, numeral_length]
    have hdet := detect_yd_compact Y N [] ParseType.DateOnly (by decide) (by simp [digitsRun])
    have hpd := parseDate_yd_compact Y N hY hN [] Offset.none false false false ld0
    simp only [List.append_nil, List.length_nil, Nat.add_zero, digitsRun] at hdet
    rw [hl]
    unfold detail.parse_iso8601
    simp only [hdet]
    simp only [ydText, numeral, List.cons_append, List.nil_append, List.append_assoc, if_true]
    simp only [Nat.lt_irrefl, decide_False]
    rw [hpd]
    split_ifs <;> simp

theorem nul_not_mem_ymdText (compact : Bool) (Y M D : Nat) : NUL ∉ ymdText compact Y M D := by
  have h : NUL ≠ '-' := by decide
  cases compact <;> simp [ymdText, nul_not_mem_numeral, h]

theorem nul_not_mem_ydText (compact : Bool) (Y N : Nat) : NUL ∉ ydText compact Y N := by
  have h : NUL ≠ '-' := by decide
  cases compact <;> simp [ydText, nul_not_mem_numeral, h]

theorem nul_not_mem_ywdText (compact : Bool) (Y W D : Nat) : NUL ∉ ywdText compact Y W D := by
  have h : NUL ≠ '-' := by decide
  have h2 : NUL ≠ 'W' := by decide
  cases compact <;> simp [ywdText, nul_not_mem_numeral, h, h2]

theorem ymdText_length (compact : Bool) (Y M D : Nat) : (ymdText compact Y M D).length < 64 := by
  cases compact <;> simp [ymdText, numeral_length]

theorem ydText_length (compact : Bool) (Y N : Nat) : (ydText compact Y N).length < 64 := by
  cases compact <;> simp [ydText, numeral_length]

theorem ywdText_length (compact : Bool) (Y W D : Nat) : (ywdText compact Y W D).length < 64 := by
  cases compact <;> simp [ywdText, numeral_length]

/-- The public formatter on a date-only format prints the date text of the local day. -/
theorem format_iso8601_date (buf : List Char) (hbuf : buf.length = 64) (fmt : ISO8601Format)
    (precision_ : Precision) (lt_ gmt_offset_ : Int)
    (hdate : fmt._datetime = DateTime.ymd ∨ fmt._datetime = DateTime.yd ∨
      fmt._datetime = DateTime.ywd)
    (hy0 : 0 ≤ printedYear fmt._datetime (localDay fmt lt_ gmt_offset_))
    (hy1 : printedYear fmt._datetime (localDay fmt lt_ gmt_offset_) ≤ 9999) :
    format_iso8601 buf precision_ lt_ gmt_offset_ fmt =
      dateText fmt fmt._datetime (localDay fmt lt_ gmt_offset_) := by
  have hr := renderText_date fmt precision_ lt_ gmt_offset_ hdate
  have hv : fmt._datetime ≠ DateTime.Invalid := by
    rcases hdate with h | h | h <;> rw [h] <;> decide
  rw [format_iso8601_eq buf hbuf fmt precision_ lt_ gmt_offset_ hv, hr]
  · rw [hr]
    rcases hdate with h | h | h <;> rw [h] at hy0 hy1 ⊢
    · rw [dateText_ymd fmt _ hy0 hy1]; exact ymdText_length _ _ _ _
    · rw [dateText_yd fmt _ hy0 hy1]; exact ydText_length _ _ _
    · rw [dateText_ywd fmt _ hy0 hy1]; exact ywdText_length _ _ _ _
  · rw [hr]
    rcases hdate with h | h | h <;> rw [h] at hy0 hy1 ⊢
    · rw [dateText_ymd fmt _ hy0 hy1]; exact nul_not_mem_ymdText _ _ _ _
    · rw [dateText_yd fmt _ hy0 hy1]; exact nul_not_mem_ydText _ _ _
    · rw [dateText_ywd fmt _ hy0 hy1]; exact nul_not_mem_ywdText _ _ _ _

/-! ## Lemmas: the stages of `parseTime` -/

theorem digitsRun_numeral (w n : Nat) (rest : List Char) :
    digitsRun (numeral w n ++ rest) = w + digitsRun rest := by
  induction w generalizing n rest with
  | zero => simp [numeral]
  | succ w ih =>
    simp only [numeral, List.append_assoc, List.singleton_append]
    rw [ih]
    simp [digitsRun]
    omega

theorem digitsRun_nondigit (tail : List Char)
    (h : ∀ c, tail.head? = some c → isdigit c = false) : digitsRun tail = 0 := by
  cases tail with
  | nil => rfl
  | cons c t => simp [digitsRun, h c rfl]

theorem frac_to_nano_getD (k : Nat) (h1 : 1 ≤ k) (h2 : k ≤ 15) :
    frac_to_nano.getD (k - 1) 0 = 10 ^ (15 - k) := by
  interval_cases k <;> rfl

/-- The function `frac` on a numeral of `k` digits that is not followed by a digit. -/
theorem frac_numeral (k F : Nat) (h1 : 1 ≤ k) (h2 : k ≤ 15) (tail : List Char)
    (htail : ∀ c, tail.head? = some c → isdigit c = false) :
    frac (numeral k F ++ tail) 0 (k + tail.length) =
      (((F % 10 ^ k : Nat) : Int) * 10 ^ (15 - k), k) := by
  have hl : (numeral k F ++ tail).length ≤ k + tail.length := by simp [numeral_length]
  have hd : digits (numeral k F ++ tail) 0 (k + tail.length) = k := by
    rw [digits_of_le _ _ _ hl, List.drop_zero, digitsRun_numeral, digitsRun_nondigit tail htail]
    rfl
  simp only [frac, hd]
  have hk : ¬ k > 15 := by omega
  have hk0 : k > 0 := by omega
  simp only [hk, hk0, if_true, if_false, num_eq, List.drop_zero, numLoop_numeral,
    frac_to_nano_getD k h1 h2]
  simp

/-- The fraction block on a decimal mark followed by `k` digits. -/
theorem parseTimeFraction_mark (comma : Bool) (k F : Nat) (h1 : 1 ≤ k) (h2 : k ≤ 15)
    (tail : List Char) (htail : ∀ c, tail.head? = some c → isdigit c = false)
    (fmt : ISO8601Format) (fsec : Int) :
    parseTimeFraction ((if comma then ',' else '.') :: (numeral k F ++ tail)) 0
        (1 + (k + tail.length)) fmt fsec =
      { failed := false, p := 1 + k,
        fmt := { fmt with _extra := { fmt._extra with _useComma := comma } },
        ns := Int.tdiv (((F % 10 ^ k : Nat) : Int) * 10 ^ (15 - k) * fsec) 1000000 } := by
  have hk : k ≠ 0 := by omega
  have hf : ∀ c : Char, frac (c :: (numeral k F ++ tail)) 1 (1 + (k + tail.length)) =
      (((F % 10 ^ k : Nat) : Int) * 10 ^ (15 - k), k) := by
    intro c
    have := frac_shift [c] (numeral k F ++ tail) 0 (k + tail.length)
    simp only [List.singleton_append, List.length_singleton, Nat.add_zero] at this
    rw [this, frac_numeral k F h1 h2 tail htail]
  cases comma <;> simp [parseTimeFraction, charAt, hf, hk]

/-- The fraction block on a text that does not start with a decimal mark. -/
theorem parseTimeFraction_nomark (tail : List Char)
    (htail : ∀ c, tail.head? = some c → c ≠ '.' ∧ c ≠ ',') (e : Nat)
    (fmt : ISO8601Format) (fsec : Int) :
    parseTimeFraction tail 0 e fmt fsec = { failed := false, p := 0, fmt := fmt, ns := 0 } := by
  cases tail with
  | nil => simp [parseTimeFraction, charAt, NUL]
  | cons c t =>
    have h := htail c rfl
    simp [parseTimeFraction, charAt, h.1, h.2]

theorem parseTimeOffset_nil (fmt : ISO8601Format) (g : Int) :
    parseTimeOffset [] 0 0 fmt g =
      { failed := false, p := 0, fmt := { fmt with _offset := Offset.none }, gmt_offset := 0 } := by
  simp [parseTimeOffset]

theorem parseTimeOffset_Z (fmt : ISO8601Format) (g : Int) :
    parseTimeOffset ['Z'] 0 1 fmt g =
      { failed := false, p := 1, fmt := { fmt with _offset := Offset.zulu }, gmt_offset := 0 } := by
  simp [parseTimeOffset, charAt]

/-- The offset block on `±hh:mm`. -/
theorem parseTimeOffset_hm_ext (neg : Bool) (hh mm : Nat) (h1 : hh < 100) (h2 : mm < 100)
    (fmt : ISO8601Format) (g : Int) :
    parseTimeOffset ((if neg then '-' else '+') :: (numeral 2 hh ++ ':' :: numeral 2 mm)) 0 6
        fmt g =
      { failed := false, p := 6,
        fmt := { fmt with _offset := Offset.hm,
                          _extra := { fmt._extra with _basicOffset := false } },
        gmt_offset := if neg then -((hh : Int) * 3600 + (mm : Int) * 60)
                      else (hh : Int) * 3600 + (mm : Int) * 60 } := by
  cases neg <;>
    simp [parseTimeOffset, numeral, charAt, digits, digitsRun, num_eq, Nat.mod_eq_of_lt h1,
      Nat.mod_eq_of_lt h2]

/-- The offset block on `±hhmm`. -/
theorem parseTimeOffset_hm_basic (neg : Bool) (hh mm : Nat) (h1 : hh < 100) (h2 : mm < 100)
    (fmt : ISO8601Format) (g : Int) :
    parseTimeOffset ((if neg then '-' else '+') :: (numeral 2 hh ++ numeral 2 mm)) 0 5
        fmt g =
      { failed := false, p := 5,
        fmt := { fmt with _offset := Offset.hm,
                          _extra := { fmt._extra with _basicOffset := true } },
        gmt_offset := if neg then -((hh : Int) * 3600 + (mm : Int) * 60)
                      else (hh : Int) * 3600 + (mm : Int) * 60 } := by
  cases neg <;>
    simp [parseTimeOffset, numeral, charAt, digits, digitsRun, num_eq, Nat.mod_eq_of_lt h1,
      Nat.mod_eq_of_lt h2]

/-- The offset block on `±hh`. -/
theorem parseTimeOffset_h (neg : Bool) (hh : Nat) (h1 : hh < 100)
    (fmt : ISO8601Format) (g : Int) :
    parseTimeOffset ((if neg then '-' else '+') :: numeral 2 hh) 0 3 fmt g =
      { failed := false, p := 3, fmt := { fmt with _offset := Offset.h },
        gmt_offset := if neg then -((hh : Int) * 3600) else (hh : Int) * 3600 } := by
  cases neg <;>
    simp [parseTimeOffset, numeral, charAt, digits, digitsRun, num_eq, Nat.mod_eq_of_lt h1]

/-! ## Lemmas: the formatted offset -/

theorem tdiv_cases (a b : Int) (hb : 0 < b) :
    Int.tdiv a b = if 0 ≤ a then a / b else -((-a) / b) := by
  split_ifs with h
  · exact Int.tdiv_eq_ediv h (by omega)
  · have h2 : a = -(-a) := by omega
    rw [h2, Int.neg_tdiv, Int.tdiv_eq_ediv (by omega) (by omega)]
    simp

/-- The sign, hours and minutes that `detail::format_iso8601` prints for an offset of `g`
seconds. -/
theorem i32_eq (v : Int) (h1 : -2147483648 ≤ v) (h2 : v < 2147483648) : i32 v = v := by
  unfold i32
  omega

theorem numericOffsetText_eq (tzfmt : List Conv) (g : Int) (hg1 : -128849018880 < g)
    (hg2 : g < 128849018880) :
    numericOffsetText tzfmt g =
      vformat tzfmt [if g ≤ -60 then 45 else 43, ((g.natAbs / 60 / 60 : Nat) : Int),
        ((g.natAbs / 60 % 60 : Nat) : Int)] := by
  have hn : i32 (Int.tdiv g 60) = Int.tdiv g 60 := by
    apply i32_eq <;> rw [tdiv_cases _ 60 (by decide)] <;> split_ifs <;> omega
  simp only [numericOffsetText, hn]
  simp only [tdiv_cases _ 60 (by decide)]
  by_cases h0 : 0 ≤ g
  · have h1 : ¬ g ≤ -60 := by omega
    have h2 : 0 ≤ g / 60 := by omega
    have h3 : ¬ g / 60 < 0 := by omega
    have e1 : g / 60 / 60 = ((g.natAbs / 60 / 60 : Nat) : Int) := by omega
    have e2 : g / 60 - g / 60 / 60 * 60 = ((g.natAbs / 60 % 60 : Nat) : Int) := by omega
    simp only [h0, h1, h2, h3, if_true, if_false, e2]
    rw [e1]
  · simp only [h0, if_false]
    by_cases h1 : g ≤ -60
    · have h2 : -(-g / 60) < 0 := by omega
      have h3 : ¬ 0 ≤ -(-g / 60) := by omega
      have e1 : - -(- -(-g / 60) / 60) = ((g.natAbs / 60 / 60 : Nat) : Int) := by omega
      have e2 : -(- -(-g / 60) / 60) * 60 - -(-g / 60) =
          ((g.natAbs / 60 % 60 : Nat) : Int) := by omega
      simp only [h1, h2, h3, if_true, if_false, e2]
      rw [e1]
    · have h2 : -g / 60 = 0 := by omega
      have e1 : (0 : Int) = ((g.natAbs / 60 / 60 : Nat) : Int) := by omega
      have e2 : (0 : Int) = ((g.natAbs / 60 % 60 : Nat) : Int) := by omega
      simp only [h1, h2, if_false]
      rw [← e1, ← e2]
      simp

/-- The offset suffix that the formatter prints is read back by the offset block of `parseTime`:
the block succeeds, consumes the whole suffix and, for `Offset::hm` and an offset of whole
minutes, stores the offset; the suffix holds no NUL, has at most six characters and starts with
neither a digit, a decimal mark nor a colon. -/
theorem parseTimeOffset_offsetText (fmt0 fmtp : ISO8601Format) (g : Int)
    (hg1 : -360000 < g) (hg2 : g < 360000) :
    (parseTimeOffset ((offsetText fmt0 g).getD []) 0 ((offsetText fmt0 g).getD []).length
      fmtp 0).failed = false ∧
    (parseTimeOffset ((offsetText fmt0 g).getD []) 0 ((offsetText fmt0 g).getD []).length
      fmtp 0).p = ((offsetText fmt0 g).getD []).length ∧
    (fmt0._offset = Offset.hm → g % 60 = 0 →
      (parseTimeOffset ((offsetText fmt0 g).getD []) 0 ((offsetText fmt0 g).getD []).length
        fmtp 0).gmt_offset = g) ∧
    NUL ∉ (offsetText fmt0 g).getD [] ∧
    ((offsetText fmt0 g).getD []).length ≤ 6 ∧
    (∀ c, ((offsetText fmt0 g).getD []).head? = some c →
      isdigit c = false ∧ c ≠ '.' ∧ c ≠ ',' ∧ c ≠ ':') := by
  have hh : g.natAbs / 60 / 60 < 100 := by omega
  have hm : g.natAbs / 60 % 60 < 100 := by omega
  have e1 := fmt_d_nat 2 (g.natAbs / 60 / 60) hh (by decide)
  have e2 := fmt_d_nat 2 (g.natAbs / 60 % 60) hm (by decide)
  have c45 : Char.ofNat 45 = '-' := rfl
  have c43 : Char.ofNat 43 = '+' := rfl
  have hsign : ∀ b : Bool, Char.ofNat (Int.toNat (if b then 45 else 43)) =
      if b then '-' else '+' := by
    intro b; cases b <;> rfl
  have hsg : (if g ≤ -60 then (45 : Int) else 43) =
      if (decide (g ≤ -60)) = true then 45 else 43 := by
    by_cases h : g ≤ -60 <;> simp [h]
  have hsd : ∀ b : Bool, isdigit (if b then '-' else '+') = false ∧
      (if b then '-' else '+') ≠ '.' ∧ (if b then '-' else '+') ≠ ',' ∧
      (if b then '-' else '+') ≠ ':' ∧ NUL ≠ (if b then '-' else '+') := by
    intro b; cases b <;> decide
  have hnc : NUL ≠ ':' := by decide
  have hZ : ∀ c, ['Z'].head? = some c → isdigit c = false ∧ c ≠ '.' ∧ c ≠ ',' ∧ c ≠ ':' := by
    intro c hc
    simp only [List.head?_cons, Option.some.injEq] at hc
    subst hc
    decide
  have hS : ∀ (b : Bool) (t : List Char) (c : Char),
      ((if b then '-' else '+') :: t).head? = some c →
      isdigit c = false ∧ c ≠ '.' ∧ c ≠ ',' ∧ c ≠ ':' := by
    intro b t c hc
    simp only [List.head?_cons, Option.some.injEq] at hc
    subst hc
    exact ⟨(hsd _).1, (hsd _).2.1, (hsd _).2.2.1, (hsd _).2.2.2.1⟩
  by_cases hz : g = 0 ∧ fmt0._offset ≠ Offset.none
  · have ht : offsetText fmt0 g = some ['Z'] := by
      simp only [offsetText, hz, ne_eq, not_false_eq_true, and_self, if_true]
    rw [ht, Option.getD_some, List.length_singleton, parseTimeOffset_Z]
    exact ⟨rfl, rfl, fun _ _ => hz.1.symm, by decide, by decide, hZ⟩
  · cases ho : fmt0._offset with
    | zulu =>
      have ht : offsetText fmt0 g = some ['Z'] := by
        simp only [offsetText, ho]
        split_ifs <;> rfl
      rw [ht, Option.getD_some, List.length_singleton, parseTimeOffset_Z]
      exact ⟨rfl, rfl, (fun h => by cases h), by decide, by decide, hZ⟩
    | none =>
      have ht : offsetText fmt0 g = none := by
        simp only [offsetText, ho]
        split_ifs with h
        · exact absurd rfl h.2
        · rfl
        · rfl
      rw [ht, Option.getD_none, List.length_nil, parseTimeOffset_nil]
      exact ⟨rfl, rfl, (fun h => by cases h), by simp, by simp, (fun c hc => by simp at hc)⟩
    | h =>
      have hz2 : ¬ (g = 0 ∧ Offset.h ≠ Offset.none) := by rw [ho] at hz; exact hz
      have ht : offsetText fmt0 g =
          some ((if decide (g ≤ -60) then '-' else '+') :: numeral 2 (g.natAbs / 60 / 60)) := by
        simp only [offsetText, ho, hz2, if_false, numericOffsetText_eq _ g (by omega) (by omega), vformat, e1, hsg, hsign,
          List.append_nil]
      have hl : ((if decide (g ≤ -60) then '-' else '+') ::
          numeral 2 (g.natAbs / 60 / 60)).length = 3 := by simp [numeral_length]
      rw [ht, Option.getD_some, hl, parseTimeOffset_h _ _ hh]
      refine ⟨rfl, rfl, (fun h => by cases h), ?_, by omega, hS _ _⟩
      simp [nul_not_mem_numeral]
      split_ifs <;> decide
    | hm =>
      have hz2 : ¬ (g = 0 ∧ Offset.hm ≠ Offset.none) := by rw [ho] at hz; exact hz
      have hval : g % 60 = 0 → (if decide (g ≤ -60) = true then
          -(((g.natAbs / 60 / 60 : Nat) : Int) * 3600 + ((g.natAbs / 60 % 60 : Nat) : Int) * 60)
          else ((g.natAbs / 60 / 60 : Nat) : Int) * 3600 +
            ((g.natAbs / 60 % 60 : Nat) : Int) * 60) = g := by
        intro h60
        by_cases hn : g ≤ -60
        · simp only [hn, decide_True, if_true]; omega
        · simp only [hn, decide_False, Bool.false_eq_true, if_false]; omega
      cases hb : fmt0._extra._basicOffset with
      | false =>
        have ht : offsetText fmt0 g =
            some ((if decide (g ≤ -60) then '-' else '+') ::
              (numeral 2 (g.natAbs / 60 / 60) ++ ':' :: numeral 2 (g.natAbs / 60 % 60))) := by
          simp only [offsetText, ho, hb, hz2, if_false, numericOffsetText_eq _ g (by omega) (by omega), vformat, e1, e2,
            hsg, hsign, List.append_nil, Bool.false_eq_true, List.cons_append]
        have hl : ((if decide (g ≤ -60) then '-' else '+') ::
            (numeral 2 (g.natAbs / 60 / 60) ++ ':' :: numeral 2 (g.natAbs / 60 % 60))).length
            = 6 := by simp [numeral_length]
        rw [ht, Option.getD_some, hl, parseTimeOffset_hm_ext _ _ _ hh hm]
        refine ⟨rfl, rfl, fun _ => hval, ?_, by omega, hS _ _⟩
        simp [nul_not_mem_numeral, hnc]
        split_ifs <;> decide
      | true =>
        have ht : offsetText fmt0 g =
            some ((if decide (g ≤ -60) then '-' else '+') ::
              (numeral 2 (g.natAbs / 60 / 60) ++ numeral 2 (g.natAbs / 60 % 60))) := by
          simp only [offsetText, ho, hb, hz2, if_false, if_true, numericOffsetText_eq _ g (by omega) (by omega), vformat,
            e1, e2, hsg, hsign, List.append_nil]
        have hl : ((if decide (g ≤ -60) then '-' else '+') ::
            (numeral 2 (g.natAbs / 60 / 60) ++ numeral 2 (g.natAbs / 60 % 60))).length
            = 5 := by simp [numeral_length]
        rw [ht, Option.getD_some, hl, parseTimeOffset_hm_basic _ _ _ hh hm]
        refine ⟨rfl, rfl, fun _ => hval, ?_, by omega, hS _ _⟩
        simp [nul_not_mem_numeral]
        split_ifs <;> decide

/-! ## Lemmas: a time text that starts with `T`, in extended form -/

theorem detect_tTime (time : DateTime)
    (ht : time = DateTime.hms ∨ time = DateTime.hm ∨ time = DateTime.h) (h m s : Nat)
    (tail : List Char) (htail : endsField tail) (pt : ParseType)
    (hpt : pt ≠ ParseType.DateOnly) :
    detectDateOrTimeFormat (tTimeText time h m s ++ tail) 0
      ((tTimeText time h m s).length + tail.length) pt =
      some { _datetime := time, _offset := Offset.none,
             _extra := { _useComma := false, _omitT := false, _basicDatetime := false,
                         _basicOffset := false } } := by
  have hl : (tTimeText time h m s ++ tail).length ≤
      (tTimeText time h m s).length + tail.length := by simp
  cases tail with
  | nil =>
    rcases ht with rfl | rfl | rfl <;> cases pt <;>
      simp only [tTimeText, hmsText, hmText, numeral, List.cons_append, List.nil_append,
        List.append_assoc, Bool.false_eq_true, if_false, if_true, List.append_nil] at hl ⊢ <;>
      simp only [detectDateOrTimeFormat, digits_of_le _ _ _ hl] <;>
      simp [digitsRun, charAt, RET_FMT] at hpt ⊢
  | cons c tl =>
    have hc := htail c rfl
    have hc1 : isdigit c = false := hc.1
    have hc2 : ¬ (c = ':') := hc.2
    rcases ht with rfl | rfl | rfl <;> cases pt <;>
      simp only [tTimeText, hmsText, hmText, numeral, List.cons_append, List.nil_append,
        List.append_assoc, Bool.false_eq_true, if_false, if_true] at hl ⊢ <;>
      simp only [detectDateOrTimeFormat, digits_of_le _ _ _ hl] <;>
      simp [digitsRun, charAt, RET_FMT, hc1, hc2] at hpt ⊢ <;>
      (try split_ifs) <;> first | rfl | omega | (exfalso; omega)

/-- The fields block of `parseTime` on a time text in extended form behind the letter `T`. -/
theorem parseTimeFields_tTime (time : DateTime)
    (ht : time = DateTime.hms ∨ time = DateTime.hm ∨ time = DateTime.h) (h m s : Nat)
    (hh : h < 100) (hm : m < 100) (hs : s < 100) (tail : List Char) (fmt : ISO8601Format)
    (hf : fmt._datetime = time) (hb : fmt._extra._basicDatetime = false) :
    parseTimeFields (tTimeText time h m s ++ tail) 1 fmt =
      some ((tTimeText time h m s).length,
        match time with
        | DateTime.hms => (h : Int) * 3600000000000 + (m : Int) * 60000000000 +
            (s : Int) * 1000000000
        | DateTime.hm => (h : Int) * 3600000000000 + (m : Int) * 60000000000
        | _ => (h : Int) * 3600000000000,
        fsecOf time) := by
  rcases ht with rfl | rfl | rfl <;>
    simp only [tTimeText, hmsText, hmText, numeral, List.cons_append, List.nil_append,
      List.append_assoc, Bool.false_eq_true, if_false] <;>
    simp [parseTimeFields, hf, hb, num_eq, Nat.mod_eq_of_lt hh, Nat.mod_eq_of_lt hm,
      Nat.mod_eq_of_lt hs, fsecOf]

/-- The function `parseTime` on fields, fraction and offset texts whose blocks succeed. -/
theorem parseTime_parts (F R O : List Char) (fmt fmt1 fmt2 : ISO8601Format)
    (sm fsec ns g : Int) (hT : fmt._extra._omitT = false)
    (hF : parseTimeFields (F ++ (R ++ O)) 1 fmt = some (F.length, sm, fsec))
    (hR : parseTimeFraction (R ++ O) 0 (R.length + O.length) fmt fsec =
      { failed := false, p := R.length, fmt := fmt1, ns := ns })
    (hO : parseTimeOffset O 0 O.length fmt1 0 =
      { failed := false, p := O.length, fmt := fmt2, gmt_offset := g }) :
    parseTime (F ++ (R ++ O)) 0 (F.length + (R.length + O.length)) fmt 0 =
      { p := F.length + (R.length + O.length), fmt := fmt2, since_midnight := sm + ns,
        gmt_offset := g } := by
  have h1 := parseTimeFraction_shift F (R ++ O) 0 (R.length + O.length) fmt fsec
  have h2 := parseTimeOffset_shift (F ++ R) O 0 O.length fmt1 0
  simp only [Nat.add_zero, List.length_append, List.append_assoc, Nat.add_assoc] at h1 h2
  simp only [parseTime, hT, Bool.not_false, if_true, Nat.zero_add, hF, h1, hR,
    Bool.false_eq_true, if_false, h2, hO]

/-! ## Lemmas: the formatted time -/

/-- The fraction that the formatter prints at nanosecond precision for the time of day `n` of
day `day`: the value and the number of digits. -/
theorem fraction_nano (time : DateTime)
    (ht : time = DateTime.hms ∨ time = DateTime.hm ∨ time = DateTime.h) (day n : Int) :
    fraction time Precision.NanoSecond (day * 86400000000000 + n) n =
      match time with
      | DateTime.hms => (n % 1000000000, 9)
      | DateTime.hm => (n % 60000000000 * 1000 / 60, 12)
      | _ => (n % 3600000000000 * 1000000 / 3600, 15) := by
  rcases ht with rfl | rfl | rfl
  · simp only [fraction, Nat.zero_add]
    congr 1
    omega
  · simp only [fraction, tdiv_cases _ 60 (by decide)]
    have e : day * 86400000000000 + n - (day * 86400000000000 + n) / 1000000000 * 1000000000 +
        n % 60000000000 / 1000000000 * 1000000000 = n % 60000000000 := by omega
    rw [e]
    have h0 : 0 ≤ n % 60000000000 * 1000 := by omega
    simp only [h0, if_true]
  · simp only [fraction, tdiv_cases _ 3600 (by decide)]
    have e : day * 86400000000000 + n - (day * 86400000000000 + n) / 1000000000 * 1000000000 +
        (n % 3600000000000 / 60000000000 * 60000000000 +
          n % 60000000000 / 1000000000 * 1000000000) = n % 3600000000000 := by omega
    rw [e]
    have h0 : 0 ≤ n % 3600000000000 * 1000 * 1000 := by omega
    simp only [h0, if_true]
    congr 2
    omega

theorem fraction_nano_bounds (time : DateTime)
    (ht : time = DateTime.hms ∨ time = DateTime.hm ∨ time = DateTime.h) (day n : Int) :
    0 ≤ (fraction time Precision.NanoSecond (day * 86400000000000 + n) n).1 ∧
    (fraction time Precision.NanoSecond (day * 86400000000000 + n) n).1 <
      10 ^ (fraction time Precision.NanoSecond (day * 86400000000000 + n) n).2 ∧
    1 ≤ (fraction time Precision.NanoSecond (day * 86400000000000 + n) n).2 ∧
    (fraction time Precision.NanoSecond (day * 86400000000000 + n) n).2 ≤ 15 := by
  rw [fraction_nano time ht day n]
  rcases ht with rfl | rfl | rfl <;> simp only <;> refine ⟨?_, ?_, by decide, by decide⟩ <;>
    (try norm_num) <;> omega

/-- The time fields that the formatter prints for the time of day `n` in extended form. -/
theorem timeText_ext (time : DateTime)
    (ht : time = DateTime.hms ∨ time = DateTime.hm ∨ time = DateTime.h) (fmt : ISO8601Format)
    (hb : fmt._extra._basicDatetime = false) (n : Int) (hn0 : 0 ≤ n)
    (hn1 : n < 86400000000000) :
    'T' :: timeText fmt time n =
      tTimeText time (n / 3600000000000).toNat (n % 3600000000000 / 60000000000).toNat
        (n % 60000000000 / 1000000000).toNat := by
  have e1 := fmt_d_eq 2 (n / 3600000000000) (by omega) (by norm_num; omega) (by decide)
  have e2 := fmt_d_eq 2 (n % 3600000000000 / 60000000000) (by omega) (by norm_num; omega)
    (by decide)
  have e3 := fmt_d_eq 2 (n % 60000000000 / 1000000000) (by omega) (by norm_num; omega)
    (by decide)
  rcases ht with rfl | rfl | rfl <;>
    simp [timeText, hb, formatHelper, formats, DateTime.toNat, vformat, e1, e2, e3, tTimeText,
      hmsText, hmText]

/-- The text rendered for a time-only format in extended form with the letter `T`, at nanosecond
precision. -/
theorem renderText_tTime (time : DateTime)
    (ht : time = DateTime.hms ∨ time = DateTime.hm ∨ time = DateTime.h) (fmt : ISO8601Format)
    (hf : fmt._datetime = time) (hT : fmt._extra._omitT = false)
    (hb : fmt._extra._basicDatetime = false) (hz : fmt._offset ≠ Offset.zulu) (day n g : Int)
    (hn0 : 0 ≤ n) (hn1 : n < 86400000000000) :
    renderText fmt Precision.NanoSecond (day * 86400000000000 + n) g =
      tTimeText time (n / 3600000000000).toNat (n % 3600000000000 / 60000000000).toNat
        (n % 60000000000 / 1000000000).toNat ++
      (nanoFractionText fmt time day n ++ (offsetText fmt g).getD []) := by
  have hd : (day * 86400000000000 + n) / 86400000000000 = day := by omega
  have htod : day * 86400000000000 + n - day * 86400000000000 = n := by omega
  have hfb := fraction_nano_bounds time ht day n
  have hfd := fmt_d_eq _ _ hfb.1 (by exact_mod_cast hfb.2.1) hfb.2.2.1
  have htt := timeText_ext time ht fmt hb n hn0 hn1
  rw [← htt]
  have hfh : (formatHelper fmt._datetime)._date = DateTime.Invalid ∧
      (formatHelper fmt._datetime)._time = time := by
    rw [hf]
    rcases ht with rfl | rfl | rfl <;> exact ⟨rfl, rfl⟩
  have htv : time ≠ DateTime.Invalid := by
    rcases ht with rfl | rfl | rfl <;> decide
  simp only [renderText, hz, if_false, hd, htod, hfh.1, hfh.2, ne_eq, not_true_eq_false,
    htv, not_false_eq_true, if_true, hT, Bool.not_false, List.nil_append, nanoFractionText, hfd,
    List.cons_append, List.append_assoc, List.singleton_append]

theorem nul_not_mem_tTimeText (time : DateTime) (h m s : Nat) :
    NUL ∉ tTimeText time h m s := by
  have h1 : NUL ≠ 'T' := by decide
  have h2 : NUL ≠ ':' := by decide
  cases time <;> simp [tTimeText, hmsText, hmText, nul_not_mem_numeral, h1, h2]

theorem tTimeText_length (time : DateTime) (h m s : Nat) : (tTimeText time h m s).length ≤ 9 := by
  cases time <;> simp [tTimeText, hmsText, hmText, numeral_length]

/-- The fraction text at nanosecond precision is read back by the fraction block of
`parseTime`. -/
theorem parseTimeFraction_nanoFractionText (time : DateTime)
    (ht : time = DateTime.hms ∨ time = DateTime.hm ∨ time = DateTime.h) (fmt0 fmt : ISO8601Format)
    (day n : Int) (O : List Char)
    (hO : ∀ c, O.head? = some c → isdigit c = false ∧ c ≠ '.' ∧ c ≠ ',' ∧ c ≠ ':')
    (fsec : Int) :
    (parseTimeFraction (nanoFractionText fmt0 time day n ++ O) 0
        ((nanoFractionText fmt0 time day n).length + O.length) fmt fsec).failed = false ∧
    (parseTimeFraction (nanoFractionText fmt0 time day n ++ O) 0
        ((nanoFractionText fmt0 time day n).length + O.length) fmt fsec).p =
      (nanoFractionText fmt0 time day n).length ∧
    (parseTimeFraction (nanoFractionText fmt0 time day n ++ O) 0
        ((nanoFractionText fmt0 time day n).length + O.length) fmt fsec).ns =
      Int.tdiv ((fraction time Precision.NanoSecond (day * 86400000000000 + n) n).1 *
        10 ^ (15 - (fraction time Precision.NanoSecond (day * 86400000000000 + n) n).2) * fsec)
        1000000 ∧
    NUL ∉ nanoFractionText fmt0 time day n ∧
    (nanoFractionText fmt0 time day n).length ≤ 16 ∧
    endsField (nanoFractionText fmt0 time day n ++ O) := by
  have hfb := fraction_nano_bounds time ht day n
  unfold nanoFractionText
  generalize (fraction time Precision.NanoSecond (day * 86400000000000 + n) n) = fr at *
  obtain ⟨F, k⟩ := fr
  simp only at hfb ⊢
  obtain ⟨hF0, hF1, hk1, hk2⟩ := hfb
  by_cases hz : F = 0
  · have hO2 : ∀ c, O.head? = some c → c ≠ '.' ∧ c ≠ ',' := fun c hc => ⟨(hO c hc).2.1, (hO c hc).2.2.1⟩
    simp only [hz, ne_eq, not_true_eq_false, if_false, List.nil_append, List.length_nil,
      Nat.zero_add, parseTimeFraction_nomark O hO2, zero_mul, Int.zero_tdiv]
    refine ⟨trivial, trivial, trivial, by simp, by simp, ?_⟩
    intro c hc
    exact ⟨(hO c hc).1, (hO c hc).2.2.2⟩
  · obtain ⟨N, rfl⟩ := Int.eq_ofNat_of_zero_le hF0
    have hN : N < 10 ^ k := by exact_mod_cast hF1
    have hO1 : ∀ c, O.head? = some c → isdigit c = false := fun c hc => (hO c hc).1
    have hl : ((if fmt0._extra._useComma = true then ',' else '.') ::
        numeral k (N : Int).toNat).length = 1 + k := by
      simp [numeral_length]; omega
    have hp := parseTimeFraction_mark fmt0._extra._useComma k N hk1 hk2 O hO1 fmt fsec
    simp only [hz, ne_eq, not_false_eq_true, if_true, Int.toNat_ofNat, List.cons_append]
    simp only [Int.toNat_ofNat] at hl
    rw [hl, Nat.add_assoc, hp, Nat.mod_eq_of_lt hN]
    refine ⟨rfl, rfl, rfl, ?_, by omega, ?_⟩
    · have h1 : NUL ≠ ',' := by decide
      have h2 : NUL ≠ '.' := by decide
      simp [nul_not_mem_numeral]
      split_ifs <;> decide
    · intro c hc
      simp only [List.head?_cons, Option.some.injEq] at hc
      subst hc
      split_ifs <;> decide

theorem fracResult_eq_of (r : FracResult) (p : Nat) (h1 : r.failed = false) (h2 : r.p = p) :
    r = { failed := false, p := p, fmt := r.fmt, ns := r.ns } := by
  cases r; simp_all

theorem offsetResult_eq_of (r : OffsetResult) (p : Nat) (h1 : r.failed = false) (h2 : r.p = p) :
    r = { failed := false, p := p, fmt := r.fmt, gmt_offset := r.gmt_offset } := by
  cases r; simp_all

/-- Formatting a time of day with a time-only format (extended form, letter `T`, any offset kind
but Zulu) at nanosecond precision and parsing the text in DateTime mode: the whole text is
consumed, the time read back is the fields plus the rescaled fraction, and an offset of whole
minutes printed as hours and minutes is read back. -/
theorem parse_format_tTime (time : DateTime)
    (ht : time = DateTime.hms ∨ time = DateTime.hm ∨ time = DateTime.h) (fmt : ISO8601Format)
    (hf : fmt._datetime = time) (hT : fmt._extra._omitT = false)
    (hb : fmt._extra._basicDatetime = false) (hz : fmt._offset ≠ Offset.zulu)
    (buf : List Char) (hbuf : buf.length = 64) (day n g : Int)
    (hn0 : 0 ≤ n) (hn1 : n < 86400000000000) (hg1 : -360000 < g) (hg2 : g < 360000)
    (ld0 today : Int) :
    (detail.parse_iso8601
        (format_iso8601 buf Precision.NanoSecond (day * 86400000000000 + n) g fmt)
        (format_iso8601 buf Precision.NanoSecond (day * 86400000000000 + n) g fmt).length
        ld0 today ParseType.DateTime).consumed =
      (format_iso8601 buf Precision.NanoSecond (day * 86400000000000 + n) g fmt).length ∧
    (detail.parse_iso8601
        (format_iso8601 buf Precision.NanoSecond (day * 86400000000000 + n) g fmt)
        (format_iso8601 buf Precision.NanoSecond (day * 86400000000000 + n) g fmt).length
        ld0 today ParseType.DateTime).since_midnight =
      fieldsNanos time n +
      Int.tdiv ((fraction time Precision.NanoSecond (day * 86400000000000 + n) n).1 *
        10 ^ (15 - (fraction time Precision.NanoSecond (day * 86400000000000 + n) n).2) *
        fsecOf time) 1000000 ∧
    (fmt._offset = Offset.hm → g % 60 = 0 →
      (detail.parse_iso8601
        (format_iso8601 buf Precision.NanoSecond (day * 86400000000000 + n) g fmt)
        (format_iso8601 buf Precision.NanoSecond (day * 86400000000000 + n) g fmt).length
        ld0 today ParseType.DateTime).gmt_offset = g) := by
  have hr := renderText_tTime time ht fmt hf hT hb hz day n g hn0 hn1
  have hv : fmt._datetime ≠ DateTime.Invalid := by
    rw [hf]; rcases ht with rfl | rfl | rfl <;> decide
  obtain ⟨ho1, ho2, ho3, ho4, ho5, ho6⟩ :=
    parseTimeOffset_offsetText fmt
      (parseTimeFraction
        (nanoFractionText fmt time day n ++ (offsetText fmt g).getD []) 0
        ((nanoFractionText fmt time day n).length + ((offsetText fmt g).getD []).length)
        { _datetime := time, _offset := Offset.none,
          _extra := { _useComma := false, _omitT := false, _basicDatetime := false,
                      _basicOffset := false } }
        (fsecOf time)).fmt g hg1 hg2
  obtain ⟨hf1, hf2, hf3, hf4, hf5, hf6⟩ :=
    parseTimeFraction_nanoFractionText time ht fmt
      { _datetime := time, _offset := Offset.none,
        _extra := { _useComma := false, _omitT := false, _basicDatetime := false,
                    _basicOffset := false } } day n ((offsetText fmt g).getD []) ho6
      (fsecOf time)
  have hH : (n / 3600000000000).toNat < 100 := by omega
  have hM : (n % 3600000000000 / 60000000000).toNat < 100 := by omega
  have hS : (n % 60000000000 / 1000000000).toNat < 100 := by omega
  have hdet := detect_tTime time ht (n / 3600000000000).toNat
    (n % 3600000000000 / 60000000000).toNat (n % 60000000000 / 1000000000).toNat _ hf6
    ParseType.DateTime (by decide)
  have hfields := parseTimeFields_tTime time ht (n / 3600000000000).toNat
    (n % 3600000000000 / 60000000000).toNat (n % 60000000000 / 1000000000).toNat hH hM hS
    (nanoFractionText fmt time day n ++ (offsetText fmt g).getD [])
    { _datetime := time, _offset := Offset.none,
      _extra := { _useComma := false, _omitT := false, _basicDatetime := false,
                  _basicOffset := false } } rfl rfl
  have hlen := tTimeText_length time (n / 3600000000000).toNat
    (n % 3600000000000 / 60000000000).toNat (n % 60000000000 / 1000000000).toNat
  have hnul := nul_not_mem_tTimeText time (n / 3600000000000).toNat
    (n % 3600000000000 / 60000000000).toNat (n % 60000000000 / 1000000000).toNat
  have hpt := parseTime_parts _ _ _ _ _ _ _ _ _ _ rfl hfields
    (fracResult_eq_of _ _ hf1 hf2) (offsetResult_eq_of _ _ ho1 ho2)
  rw [format_iso8601_eq buf hbuf fmt Precision.NanoSecond _ g hv
    (by rw [hr]; simp only [List.length_append]; omega)
    (by rw [hr]; simp only [List.mem_append, not_or]; exact ⟨hnul, hf4, ho4⟩), hr]
  have h9 : DateTime.hms.toNat = 9 := rfl
  have h11 : DateTime.h.toNat = 11 := rfl
  have htn : 9 ≤ time.toNat ∧ time.toNat ≤ 11 := by
    rcases ht with rfl | rfl | rfl <;> decide
  simp only [List.length_append] at hdet ⊢
  unfold detail.parse_iso8601
  simp only [hdet, h9, h11, htn, and_self, if_true, hpt, Nat.sub_zero, true_and]
  refine ⟨?_, ?_⟩
  · rw [hf3]
    congr 1
    rcases ht with rfl | rfl | rfl <;> simp only [fieldsNanos] <;> omega
  · intro h1 h2
    exact ho3 h1 h2

/-! ## Lemmas: the canonical text -/

theorem offsetText_zero (fmt : ISO8601Format) (h : fmt._offset ≠ Offset.none) :
    offsetText fmt 0 = some ['Z'] := by
  simp only [offsetText, h, ne_eq, not_false_eq_true, and_self, if_true]

theorem offsetText_none (fmt : ISO8601Format) (g : Int) (h : fmt._offset = Offset.none) :
    offsetText fmt g = none := by
  simp only [offsetText, h, ne_eq, not_true_eq_false, and_false, if_false]

/-- The rendered text of a format with a time part is the text rendered without an offset
suffix followed by the offset suffix. -/
theorem renderText_offset (fmt : ISO8601Format) (precision_ : Precision) (lt_ g : Int)
    (ht : (formatHelper fmt._datetime)._time ≠ DateTime.Invalid) :
    renderText fmt precision_ lt_ g =
      renderText { fmt with _offset := Offset.none } precision_
        (if fmt._offset = Offset.zulu then lt_ - g * 1000000000 else lt_) g ++
      (offsetText fmt g).getD [] := by
  have hn : offsetText { fmt with _offset := Offset.none } g = none := offsetText_none _ g rfl
  have hz : ¬ (Offset.none = Offset.zulu) := by decide
  simp only [renderText, ht, ne_eq, not_false_eq_true, if_true, hn, Option.getD_none,
    List.append_nil, hz, if_false, List.append_assoc]
  rfl

/-- The numeric offset suffix for the offset kind `hm`. -/
theorem offsetText_hm (fmt : ISO8601Format) (g : Int) (ho : fmt._offset = Offset.hm)
    (h0 : g ≠ 0) (hg1 : -360000 < g) (hg2 : g < 360000) :
    offsetText fmt g =
      some ((if g ≤ -60 then '-' else '+') :: (numeral 2 (g.natAbs / 60 / 60) ++
        ((if fmt._extra._basicOffset then [] else [':']) ++ numeral 2 (g.natAbs / 60 % 60)))) := by
  have hh : g.natAbs / 60 / 60 < 100 := by omega
  have hm : g.natAbs / 60 % 60 < 100 := by omega
  have e1 := fmt_d_nat 2 (g.natAbs / 60 / 60) hh (by decide)
  have e2 := fmt_d_nat 2 (g.natAbs / 60 % 60) hm (by decide)
  have hz2 : ¬ (g = 0 ∧ Offset.hm ≠ Offset.none) := fun h => h0 h.1
  have hs : Char.ofNat (Int.toNat (if g ≤ -60 then 45 else 43)) =
      if g ≤ -60 then '-' else '+' := by
    split_ifs <;> rfl
  cases hb : fmt._extra._basicOffset <;>
    simp only [offsetText, ho, hb, hz2, if_false, if_true, numericOffsetText_eq _ g (by omega) (by omega), vformat, e1, e2,
      hs, List.append_nil, Bool.false_eq_true, List.cons_append, List.nil_append]

/-- The numeric offset suffix for the offset kind `h`. -/
theorem offsetText_h (fmt : ISO8601Format) (g : Int) (ho : fmt._offset = Offset.h)
    (h0 : g ≠ 0) (hg1 : -360000 < g) (hg2 : g < 360000) :
    offsetText fmt g =
      some ((if g ≤ -60 then '-' else '+') :: numeral 2 (g.natAbs / 60 / 60)) := by
  have hh : g.natAbs / 60 / 60 < 100 := by omega
  have e1 := fmt_d_nat 2 (g.natAbs / 60 / 60) hh (by decide)
  have hz2 : ¬ (g = 0 ∧ Offset.h ≠ Offset.none) := fun h => h0 h.1
  have hs : Char.ofNat (Int.toNat (if g ≤ -60 then 45 else 43)) =
      if g ≤ -60 then '-' else '+' := by
    split_ifs <;> rfl
  simp only [offsetText, ho, hz2, if_false, numericOffsetText_eq _ g (by omega) (by omega), vformat, e1, hs,
    List.append_nil]

/-! ## Lemmas: the offset block of `parseTime` on an offset suffix -/

/-- The offset block of `parseTime` reads an offset suffix that is followed by `tail`. -/
theorem parseTimeOffset_suffix (O : OffsetSuffix) (tail : List Char) (hwf : O.wf)
    (htail : O.tailOk tail) (fmt : ISO8601Format) (g : Int) :
    parseTimeOffset (O.text ++ tail) 0 (O.text.length + tail.length) fmt g =
      { failed := false, p := O.text.length, fmt := O.apply fmt, gmt_offset := O.value } := by
  have hl : (O.text ++ tail).length ≤ O.text.length + tail.length := by simp
  cases O with
  | none =>
    cases tail with
    | nil => simp [OffsetSuffix.text, OffsetSuffix.apply, OffsetSuffix.value, parseTimeOffset]
    | cons c t =>
      have hc := htail c rfl
      simp [OffsetSuffix.text, OffsetSuffix.apply, OffsetSuffix.value, parseTimeOffset, charAt,
        hc.1, hc.2.1, hc.2.2.1, hc.2.2.2]
  | zulu lower =>
    cases lower <;>
      simp [OffsetSuffix.text, OffsetSuffix.apply, OffsetSuffix.value, parseTimeOffset, charAt]
  | h neg hh =>
    have h1 : hh < 100 := hwf
    cases tail with
    | nil =>
      cases neg <;>
        simp [OffsetSuffix.text, OffsetSuffix.apply, OffsetSuffix.value, parseTimeOffset,
          numeral, charAt, digits, digitsRun, num_eq, Nat.mod_eq_of_lt h1]
    | cons c t =>
      have hc := htail c rfl
      have hc1 : isdigit c = false := hc.1
      have hc2 : ¬ (c = ':') := hc.2
      cases neg <;>
        simp only [OffsetSuffix.text, numeral, List.cons_append, List.nil_append,
          List.append_assoc, Bool.false_eq_true, if_false, if_true] at hl ⊢ <;>
        simp only [parseTimeOffset, digits_of_le _ _ _ hl] <;>
        simp [OffsetSuffix.apply, OffsetSuffix.value, charAt, digitsRun, num_eq, hc1, hc2,
          Nat.mod_eq_of_lt h1]
  | hm neg hh mm compact =>
    have h1 : hh < 100 := hwf.1
    have h2 : mm < 100 := hwf.2
    cases tail with
    | nil =>
      cases neg <;> cases compact <;>
        simp [OffsetSuffix.text, OffsetSuffix.apply, OffsetSuffix.value, parseTimeOffset,
          numeral, charAt, digits, digitsRun, num_eq, Nat.mod_eq_of_lt h1, Nat.mod_eq_of_lt h2]
    | cons c t =>
      have hc1 : isdigit c = false := htail c rfl
      cases neg <;> cases compact <;>
        simp only [OffsetSuffix.text, numeral, List.cons_append, List.nil_append,
          List.append_assoc, Bool.false_eq_true, if_false, if_true] at hl ⊢ <;>
        simp only [parseTimeOffset, digits_of_le _ _ _ hl] <;>
        simp [OffsetSuffix.apply, OffsetSuffix.value, charAt, digitsRun, num_eq, hc1,
          Nat.mod_eq_of_lt h1, Nat.mod_eq_of_lt h2] <;>
        omega

/-! ## Lemmas: the fraction of the formatter at every precision -/

theorem tdiv_of_nonneg (a b : Int) (ha : 0 ≤ a) (hb : 0 < b) : Int.tdiv a b = a / b :=
  Int.tdiv_eq_ediv ha (by omega)

theorem fraction_core (time : DateTime)
    (ht : time = DateTime.hms ∨ time = DateTime.hm ∨ time = DateTime.h)
    (precision_ : Precision) (q tod : Int) :
    fraction time precision_ (q * 86400000000000 + tod) tod =
      (tod % unitNanos time *
          10 ^ (fieldBaseDigits time + precisionDigits precision_) / unitNanos time,
        fieldBaseDigits time + precisionDigits precision_) := by
  have e1 : q * 86400000000000 + tod - (q * 86400000000000 + tod) / 1000000000 * 1000000000 =
      tod % 1000000000 := by omega
  have e2 : tod % 1000000000 + tod % 60000000000 / 1000000000 * 1000000000 =
      tod % 60000000000 := by omega
  have e3 : tod % 1000000000 + (tod % 3600000000000 / 60000000000 * 60000000000 +
      tod % 60000000000 / 1000000000 * 1000000000) = tod % 3600000000000 := by omega
  have n1 : 0 ≤ tod % 1000000000 := by omega
  have n2 : 0 ≤ tod % 60000000000 * 1000 := by omega
  have n3 : 0 ≤ tod % 3600000000000 * 1000 * 1000 := by omega
  rcases ht with rfl | rfl | rfl <;> cases precision_ <;>
    simp only [fraction, unitNanos, fieldBaseDigits, precisionDigits, e1, e2, e3] <;>
    refine Prod.ext ?_ rfl <;>
    simp only <;>
    (try rw [tdiv_of_nonneg _ 60 n2 (by decide)]) <;>
    (try rw [tdiv_of_nonneg _ 3600 n3 (by decide)]) <;>
    (try rw [tdiv_of_nonneg _ _ (by omega) (by decide)]) <;>
    norm_num <;>
    omega

theorem fraction_eq (time : DateTime)
    (ht : time = DateTime.hms ∨ time = DateTime.hm ∨ time = DateTime.h)
    (precision_ : Precision) (lt : Int) :
    fraction time precision_ lt (lt - lt / 86400000000000 * 86400000000000) =
      ((lt - lt / 86400000000000 * 86400000000000) % unitNanos time *
          10 ^ (fieldBaseDigits time + precisionDigits precision_) / unitNanos time,
        fieldBaseDigits time + precisionDigits precision_) := by
  have h := fraction_core time ht precision_ (lt / 86400000000000)
    (lt - lt / 86400000000000 * 86400000000000)
  have e : lt / 86400000000000 * 86400000000000 +
      (lt - lt / 86400000000000 * 86400000000000) = lt := by omega
  rw [e] at h
  exact h

/-- The fraction that the formatter computes is smaller than `10 ^ fdig`. -/
theorem fraction_bounds (time : DateTime)
    (ht : time = DateTime.hms ∨ time = DateTime.hm ∨ time = DateTime.h)
    (precision_ : Precision) (lt : Int) :
    0 ≤ (lt - lt / 86400000000000 * 86400000000000) % unitNanos time *
        10 ^ (fieldBaseDigits time + precisionDigits precision_) / unitNanos time ∧
    (lt - lt / 86400000000000 * 86400000000000) % unitNanos time *
        10 ^ (fieldBaseDigits time + precisionDigits precision_) / unitNanos time <
      10 ^ (fieldBaseDigits time + precisionDigits precision_) := by
  generalize lt - lt / 86400000000000 * 86400000000000 = tod
  rcases ht with rfl | rfl | rfl <;> cases precision_ <;>
    simp only [unitNanos, fieldBaseDigits, precisionDigits] <;>
    norm_num <;>
    omega

/-! ## Lemmas: fraction and offset suffixes behind a time -/

theorem OffsetSuffix.text_head (O : OffsetSuffix) (c : Char) (h : O.text.head? = some c) :
    isdigit c = false ∧ c ≠ '.' ∧ c ≠ ',' ∧ c ≠ ':' := by
  cases O with
  | none => simp [OffsetSuffix.text] at h
  | zulu lower =>
    simp only [OffsetSuffix.text, List.head?_cons, Option.some.injEq] at h
    subst h
    cases lower <;> decide
  | h neg hh =>
    simp only [OffsetSuffix.text, List.head?_cons, Option.some.injEq] at h
    subst h
    cases neg <;> decide
  | hm neg hh mm compact =>
    simp only [OffsetSuffix.text, List.head?_cons, Option.some.injEq] at h
    subst h
    cases neg <;> decide

theorem OffsetSuffix.tailOk_nil (O : OffsetSuffix) : O.tailOk [] := by
  cases O <;> simp [OffsetSuffix.tailOk]

/-- The fraction block of `parseTime` reads a fraction that is followed by `tail`. -/
theorem parseTimeFraction_suffix (R : FractionSuffix) (tail : List Char) (hwf : R.wf)
    (htail : ∀ c, tail.head? = some c → isdigit c = false ∧ c ≠ '.' ∧ c ≠ ',')
    (fmt : ISO8601Format) (fsec : Int) :
    parseTimeFraction (R.text ++ tail) 0 (R.text.length + tail.length) fmt fsec =
      { failed := false, p := R.text.length, fmt := R.apply fmt, ns := R.nanos fsec } := by
  cases R with
  | none =>
    simp only [FractionSuffix.text, List.nil_append, List.length_nil, Nat.zero_add,
      FractionSuffix.apply, FractionSuffix.nanos]
    exact parseTimeFraction_nomark tail (fun c hc => ⟨(htail c hc).2.1, (htail c hc).2.2⟩) _ _ _
  | some comma k F =>
    have h := parseTimeFraction_mark comma k F hwf.1 hwf.2 tail (fun c hc => (htail c hc).1)
      fmt fsec
    simp only [FractionSuffix.text, List.cons_append, List.length_cons, numeral_length,
      FractionSuffix.apply, FractionSuffix.nanos]
    rw [show k + 1 + tail.length = 1 + (k + tail.length) by omega, h]
    congr 1
    omega

/-- The function `parseTime` on a text whose fields and fraction have been read up to the end of
`pre` and that continues with an offset suffix. -/
theorem parseTime_offsetSuffix (pre tail : List Char) (O : OffsetSuffix) (p q : Nat)
    (fmt fmt1 : ISO8601Format) (sm fsec ns g0 : Int) (hwf : O.wf) (htail : O.tailOk tail)
    (hF : parseTimeFields (pre ++ (O.text ++ tail))
      (if !fmt._extra._omitT then p + 1 else p) fmt = some (q, sm, fsec))
    (hR : parseTimeFraction (pre ++ (O.text ++ tail)) q
      (pre.length + (O.text.length + tail.length)) fmt fsec =
      { failed := false, p := pre.length, fmt := fmt1, ns := ns }) :
    parseTime (pre ++ (O.text ++ tail)) p (pre.length + (O.text.length + tail.length)) fmt g0 =
      { p := pre.length + O.text.length, fmt := O.apply fmt1, since_midnight := sm + ns,
        gmt_offset := O.value } := by
  have h2 := parseTimeOffset_shift pre (O.text ++ tail) 0 (O.text.length + tail.length) fmt1 g0
  simp only [Nat.add_zero] at h2
  simp only [parseTime, hF, hR, Bool.false_eq_true, if_false, h2,
    parseTimeOffset_suffix O tail hwf htail fmt1 g0]

/-- Detection of six digits that are not followed by a digit: always the compact `hms`. -/
theorem detect_six (hh mm ss : Nat) (tail : List Char)
    (htail : ∀ c, tail.head? = some c → isdigit c = false) (pt : ParseType) :
    detectDateOrTimeFormat (hmsText true hh mm ss ++ tail) 0
      ((hmsText true hh mm ss).length + tail.length) pt =
      some { _datetime := DateTime.hms, _offset := Offset.none,
             _extra := { _useComma := false, _omitT := true, _basicDatetime := true,
                         _basicOffset := false } } := by
  have hl : (hmsText true hh mm ss ++ tail).length ≤
      (hmsText true hh mm ss).length + tail.length := by simp
  cases tail with
  | nil =>
    cases pt <;>
      simp only [hmsText, numeral, List.cons_append, List.nil_append,
        List.append_assoc, Bool.false_eq_true, if_false, if_true, List.append_nil] at hl ⊢ <;>
      simp only [detectDateOrTimeFormat, digits_of_le _ _ _ hl] <;>
      simp [digitsRun, charAt, RET_FMT]
  | cons c tl =>
    have hc1 : isdigit c = false := htail c rfl
    cases pt <;>
      simp only [hmsText, numeral, List.cons_append, List.nil_append,
        List.append_assoc, Bool.false_eq_true, if_false, if_true] at hl ⊢ <;>
      simp only [detectDateOrTimeFormat, digits_of_le _ _ _ hl] <;>
      simp [digitsRun, charAt, RET_FMT, hc1]

/-! ## Lemmas: the length returned by the formatter -/

/-- The length returned by `detail::format_iso8601` is the length of the rendered text, whatever
the buffer and the capacity. -/
theorem format_iso8601_length (buf_ : Option (List Char)) (maxlen : Nat)
    (format_ : ISO8601Format) (precision_ : Precision) (lt_ gmt_offset_ : Int)
    (hv : format_._datetime ≠ DateTime.Invalid) :
    (detail.format_iso8601 buf_ maxlen format_ precision_ lt_ gmt_offset_).1 =
      (renderText format_ precision_ lt_ gmt_offset_).length := by
  have hlt : ¬ (format_._datetime.toNat ≥ DateTime.Invalid.toNat) := by
    cases h : format_._datetime <;> simp_all [DateTime.toNat]
  unfold renderText
  unfold detail.format_iso8601
  simp only [hlt, if_false]
  generalize (if format_._offset = Offset.zulu then lt_ - gmt_offset_ * 1000000000 else lt_) = lt
  generalize (formatHelper format_._datetime) = fh
  generalize offsetText format_ gmt_offset_ = O
  generalize dateText format_ fh._date (lt / 86400000000000) = D
  generalize timeText format_ fh._time (lt - lt / 86400000000000 * 86400000000000) = T
  generalize fraction fh._time precision_ lt (lt - lt / 86400000000000 * 86400000000000) = F
  generalize (if buf_.isNone = true then 0 else maxlen) = e
  generalize (if 0 < e then (buf_.getD []).set 0 NUL else buf_.getD []) = m
  by_cases hd : fh._date ≠ DateTime.Invalid <;> by_cases ht : fh._time ≠ DateTime.Invalid <;>
    cases O <;> cases hT : format_._extra._omitT <;> by_cases hF : F.1 ≠ 0 <;>
    simp [hd, ht, hT, hF, Out.snprintf, Out.putc] <;> omega

/-! ## Lemmas: truncated dates -/

set_option maxHeartbeats 2000000 in
/-- The detector reports the variant `ym` only in extended form. -/
theorem detect_ym_extended (s : List Char) (p e : Nat) (pt : ParseType) (fmt : ISO8601Format)
    (h : detectDateOrTimeFormat s p e pt = some fmt) (hk : fmt._datetime = DateTime.ym) :
    fmt._extra._basicDatetime = false := by
  unfold detectDateOrTimeFormat at h
  simp only [RET_FMT] at h
  generalize (decide (p < e) && (charAt s p == 'T' || charAt s p == 't')) = isT at h
  generalize hfmt0 : (if (decide (p < e) && !isT) = true then
      ({ _datetime := DateTime.ymd_hms, _offset := Offset.none,
         _extra := { _useComma := false, _omitT := true, _basicDatetime := false,
                     _basicOffset := false } } : ISO8601Format)
    else
      { _datetime := DateTime.ymd_hms, _offset := Offset.none,
        _extra := { _useComma := false, _omitT := false, _basicDatetime := false,
                    _basicOffset := false } }) = fmt0 at h
  have hb0 : fmt0._extra._basicDatetime = false := by
    rw [← hfmt0]; split <;> rfl
  clear hfmt0
  generalize (if isT = true then p + 1 else p) = p1 at h
  generalize digits s p1 e = d at h
  generalize (if isT = true then true else pt == ParseType.TimeOnly) = time_only at h
  generalize digits s (p1 + d + 1) e = d2 at h
  generalize digits s (p1 + d + 1 + d2 + 1) e = d3 at h
  generalize digits s (p1 + d + 1 + d2 + 1 + d3 + 1) e = d4 at h
  generalize digits s (p1 + d + 1) e = d5 at h
  generalize (decide (p1 + d < e) && charAt s (p1 + d) == ':') = b1 at h
  generalize (decide (p1 + d < e) && charAt s (p1 + d) == '-') = b2 at h
  generalize (decide (p1 + d < e) && (charAt s (p1 + d) == 'W' || charAt s (p1 + d) == 'w')) =
    b3 at h
  generalize (decide (p1 + d + 1 + d2 < e) && charAt s (p1 + d + 1 + d2) == ':') = b4 at h
  generalize (decide (p1 + d + 1 + d2 < e) && charAt s (p1 + d + 1 + d2) == '-') = b5 at h
  generalize (decide (p1 + d + 1 + d2 < e) &&
    (charAt s (p1 + d + 1 + d2) == 'W' || charAt s (p1 + d + 1 + d2) == 'w')) = b6 at h
  generalize (decide (p1 + d + 1 + d2 + 1 + d3 < e) &&
    charAt s (p1 + d + 1 + d2 + 1 + d3) == '-') = b7 at h
  by_cases hI : (isT && pt == ParseType.DateOnly) = true
  · simp only [hI, if_true] at h
    cases h
  simp only [hI, if_false] at h
  by_cases h2 : d = 2
  · simp only [h2, if_true] at h
    split_ifs at h <;> cases h <;> cases hk
  simp only [h2, if_false] at h
  by_cases h4 : d = 4
  · simp only [h4, if_true] at h
    split_ifs at h <;> cases h <;> first | exact hb0 | cases hk
  simp only [h4, if_false] at h
  split_ifs at h <;> cases h <;> cases hk


/-- The width that `parseDate` consumes for a truncated date. -/
theorem parseDate_truncated_width (s : List Char) (fmt : ISO8601Format) (ld0 : Int)
    (hk : fmt._datetime = DateTime.y ∨ fmt._datetime = DateTime.ym ∨
      fmt._datetime = DateTime.yw)
    (hp : (parseDate s 0 fmt ld0).1 ≠ 0) :
    (parseDate s 0 fmt ld0).1 =
      (if fmt._datetime = DateTime.y then 4
       else if fmt._datetime = DateTime.ym then
         (if fmt._extra._basicDatetime then 6 else 7)
       else (if fmt._extra._basicDatetime then 7 else 8)) := by
  obtain ⟨dt, o, ⟨a, b, c, d⟩⟩ := fmt
  simp only at hk hp ⊢
  rcases hk with rfl | rfl | rfl <;> cases c <;> simp only [parseDate, num_snd] at hp ⊢ <;>
    split_ifs at hp ⊢ <;> first | rfl | (exact absurd rfl hp) | (simp at *)

/-! ## Lemmas: the length of the rendered text -/

theorem decimal_length_le (n w : Nat) (h : n < 10 ^ w) (hw : 1 ≤ w) :
    (decimal n).length ≤ w := by
  have hfuel : n < 10 ^ (n + 1) :=
    (Nat.lt_pow_self (by decide) n).trans_le (Nat.pow_le_pow_right (by decide) (Nat.le_succ _))
  obtain ⟨k, hk1, hmin, hk', e⟩ := decimalAux_eq n n [] hfuel
  rw [decimal, e]
  simp only [List.append_nil, numeral_length]
  by_contra hcon
  have hwk : w ≤ k - 1 := by omega
  rcases hmin with rfl | hmin
  · omega
  · have := Nat.pow_le_pow_right (by decide : 0 < 10) hwk
    omega

/-- The conversion `%0<w>d` of a value between `-10^(b-1)` and `10^b` has at most `b`
characters when `w ≤ b`. -/
theorem fmt_d_length_le (w b : Nat) (v : Int) (hw : w ≤ b) (hb : 2 ≤ b)
    (h1 : -(10 : Int) ^ (b - 1) < v) (h2 : v < (10 : Int) ^ b) : (fmt_d w v).length ≤ b := by
  by_cases hv : v < 0
  · have hn : v.natAbs < 10 ^ (b - 1) := by
      have e : ((10 ^ (b - 1) : Nat) : Int) = (10 : Int) ^ (b - 1) := by norm_cast
      have : ((v.natAbs : Nat) : Int) < ((10 ^ (b - 1) : Nat) : Int) := by
        rw [e]
        omega
      exact Int.ofNat_lt.mp this
    have hd := decimal_length_le v.natAbs (b - 1) hn (by omega)
    simp only [fmt_d, hv, if_true, List.length_append, List.length_replicate, List.length_cons,
      List.length_nil]
    omega
  · have hn : v.natAbs < 10 ^ b := by
      have e : ((10 ^ b : Nat) : Int) = (10 : Int) ^ b := by norm_cast
      have : ((v.natAbs : Nat) : Int) < ((10 ^ b : Nat) : Int) := by
        rw [e]
        omega
      exact Int.ofNat_lt.mp this
    have hd := decimal_length_le v.natAbs b hn (by omega)
    simp only [fmt_d, hv, if_false, List.length_append, List.length_replicate, List.length_nil]
    omega

theorem year_near (z0 z : Int) (h0 : 0 ≤ (civilOf z0).1) (h1 : (civilOf z0).1 ≤ 9999)
    (hz1 : z0 - 5 ≤ z) (hz2 : z ≤ z0 + 5) :
    -1 ≤ (civilOf z).1 ∧ (civilOf z).1 ≤ 10000 := by
  have hb0 := civilOf_year_bounds z0
  have hb := civilOf_year_bounds z
  rw [dayCountOf_jan1, dayCountOf_jan1] at hb0 hb
  generalize (civilOf z0).1 = y0 at *
  generalize (civilOf z).1 = y at *
  constructor <;> omega

theorem weekyear_near (z0 z : Int) (h0 : 0 ≤ (weekOf z0).1) (h1 : (weekOf z0).1 ≤ 9999)
    (hz1 : z0 - 5 ≤ z) (hz2 : z ≤ z0 + 5) :
    -1 ≤ (weekOf z).1 ∧ (weekOf z).1 ≤ 10000 := by
  have hb0 := weekOf_bounds z0
  have hb := weekOf_bounds z
  have l1 := week1Start_le (weekOf z0).1
  have l2 := week1Start_le ((weekOf z0).1 + 1)
  have l3 := week1Start_le (weekOf z).1
  have l4 := week1Start_le ((weekOf z).1 + 1)
  rw [dayCountOf_jan1] at l1 l2 l3 l4
  generalize (weekOf z0).1 = y0 at *
  generalize (weekOf z).1 = y at *
  constructor <;> omega

/-- The date text has at most six characters more than the year. -/
theorem dateText_length_le (fmt : ISO8601Format) (date : DateTime) (z : Int) (L : Nat)
    (hd : date = DateTime.ymd ∨ date = DateTime.ywd ∨ date = DateTime.yd ∨
      date = DateTime.yw ∨ date = DateTime.ym ∨ date = DateTime.y)
    (hL1 : (fmt_d 4 (civilOf z).1).length ≤ L) (hL2 : (fmt_d 4 (weekOf z).1).length ≤ L) :
    (dateText fmt date z).length ≤ L + 6 := by
  have hv := validDate_bounds _ _ _ (validDate_civilOf z)
  have e2 := fmt_d_nat 2 (civilOf z).2.1 (by omega) (by decide)
  have e3 := fmt_d_nat 2 (civilOf z).2.2 (by omega) (by decide)
  have hvw := validWeekDate_weekOf z
  have hw := weeksInYear_bounds (weekOf z).1
  simp only [validWeekDate, Bool.and_eq_true, decide_eq_true_eq] at hvw
  have w2 := fmt_d_nat 2 (weekOf z).2.1 (by omega) (by decide)
  have w1 := fmt_d_nat1 (weekOf z).2.2 (by omega)
  have hb := ordinal_bounds z
  have o3 := fmt_d_eq 3 (z - dayCountOf (civilOf z).1 1 1 + 1) (by omega)
    (by split_ifs at hb <;> omega) (by decide)
  rcases hd with rfl | rfl | rfl | rfl | rfl | rfl <;> cases hb2 : fmt._extra._basicDatetime <;>
    simp [dateText, hb2, formatHelper, formats, DateTime.toNat, vformat, e2, e3, w2, w1, o3,
      numeral_length] <;> omega

/-- The time fields have at most eight characters, and fewer when the variant adds fraction
digits. -/
theorem timeText_length_le (fmt : ISO8601Format) (time : DateTime)
    (ht : time = DateTime.hms ∨ time = DateTime.hm ∨ time = DateTime.h) (n : Int)
    (hn0 : 0 ≤ n) (hn1 : n < 86400000000000) :
    (timeText fmt time n).length + fieldBaseDigits time ≤ 8 := by
  have e1 := fmt_d_eq 2 (n / 3600000000000) (by omega) (by norm_num; omega) (by decide)
  have e2 := fmt_d_eq 2 (n % 3600000000000 / 60000000000) (by omega) (by norm_num; omega)
    (by decide)
  have e3 := fmt_d_eq 2 (n % 60000000000 / 1000000000) (by omega) (by norm_num; omega)
    (by decide)
  rcases ht with rfl | rfl | rfl <;> cases hb : fmt._extra._basicDatetime <;>
    simp [timeText, hb, formatHelper, formats, DateTime.toNat, vformat, e1, e2, e3,
      numeral_length, fieldBaseDigits]

/-- The fraction text has at most one character more than the fraction width. -/
theorem fractionText_length_le (fmt : ISO8601Format) (time : DateTime)
    (ht : time = DateTime.hms ∨ time = DateTime.hm ∨ time = DateTime.h)
    (precision_ : Precision) (lt : Int) :
    (fractionText fmt time precision_ lt (lt - lt / 86400000000000 * 86400000000000)).length ≤
      1 + (fieldBaseDigits time + 9) := by
  have hfe := fraction_eq time ht precision_ lt
  have hb := fraction_bounds time ht precision_ lt
  have hp : precisionDigits precision_ ≤ 9 := by cases precision_ <;> decide
  rw [fractionText, hfe]
  simp only
  by_cases hz : (lt - lt / 86400000000000 * 86400000000000) % unitNanos time *
      10 ^ (fieldBaseDigits time + precisionDigits precision_) / unitNanos time = 0
  · simp [hz]
  · simp only [hz, ne_eq, not_false_eq_true, if_true]
    rw [fmt_d_eq _ _ hb.1 (by exact_mod_cast hb.2) (by
      by_contra hD
      have hD0 : fieldBaseDigits time + precisionDigits precision_ = 0 := by omega
      rw [hD0] at hb
      simp only [pow_zero] at hb
      rw [hD0] at hz
      simp only [pow_zero] at hz
      omega)]
    simp only [List.length_cons, numeral_length]
    omega

/-- The date and time variants that the table `formats` holds for a valid format. -/
theorem formatHelper_fields (dt : DateTime) (hv : dt ≠ DateTime.Invalid) :
    ((formatHelper dt)._date = DateTime.Invalid ∨ (formatHelper dt)._date = DateTime.ymd ∨
      (formatHelper dt)._date = DateTime.ywd ∨ (formatHelper dt)._date = DateTime.yd ∨
      (formatHelper dt)._date = DateTime.yw ∨ (formatHelper dt)._date = DateTime.ym ∨
      (formatHelper dt)._date = DateTime.y) ∧
    ((formatHelper dt)._time = DateTime.Invalid ∨ (formatHelper dt)._time = DateTime.hms ∨
      (formatHelper dt)._time = DateTime.hm ∨ (formatHelper dt)._time = DateTime.h) := by
  cases dt <;> first | (exact absurd rfl hv) | decide

/-- The offset suffix has at most six characters, and one for the offset kind Zulu. -/
theorem offsetText_length_le (fmt : ISO8601Format) (g : Int) (hg1 : -360000 < g)
    (hg2 : g < 360000) :
    ((offsetText fmt g).getD []).length ≤ 6 ∧
    (fmt._offset = Offset.zulu → ((offsetText fmt g).getD []).length ≤ 1) := by
  refine ⟨(parseTimeOffset_offsetText fmt fmt g hg1 hg2).2.2.2.2.1, ?_⟩
  intro hz
  have : offsetText fmt g = some ['Z'] := by
    simp only [offsetText, hz]
    split_ifs <;> rfl
  rw [this]
  simp

/-- The rendered text has at most `L + 25` characters when the printed year has at most `L`
characters and the offset suffix at most `S`, with `S = 6`; in general `L + 19 + S`. -/
theorem renderText_length_le (fmt : ISO8601Format) (precision_ : Precision) (lt_ g : Int)
    (L S : Nat) (hv : fmt._datetime ≠ DateTime.Invalid)
    (hL1 : (fmt_d 4 (civilOf (localDay fmt lt_ g)).1).length ≤ L)
    (hL2 : (fmt_d 4 (weekOf (localDay fmt lt_ g)).1).length ≤ L)
    (hS : ((offsetText fmt g).getD []).length ≤ S) :
    (renderText fmt precision_ lt_ g).length ≤ L + 6 + (1 + 18 + S) := by
  obtain ⟨hfd, hft⟩ := formatHelper_fields fmt._datetime hv
  unfold localDay at hL1 hL2
  unfold renderText
  simp only
  generalize (if fmt._offset = Offset.zulu then lt_ - g * 1000000000 else lt_) = lt at *
  have hT : (if (!fmt._extra._omitT) = true then ['T'] else []).length ≤ 1 := by
    split <;> simp
  have hfrac : ∀ time, (if (fraction time precision_ lt
      (lt - lt / 86400000000000 * 86400000000000)).1 ≠ 0 then
      (if fmt._extra._useComma = true then ',' else '.') ::
        fmt_d (fraction time precision_ lt (lt - lt / 86400000000000 * 86400000000000)).2
          (fraction time precision_ lt (lt - lt / 86400000000000 * 86400000000000)).1
      else []) = fractionText fmt time precision_ lt
        (lt - lt / 86400000000000 * 86400000000000) := fun _ => rfl
  rw [hfrac]
  have hdate : (if (formatHelper fmt._datetime)._date ≠ DateTime.Invalid then
      dateText fmt (formatHelper fmt._datetime)._date (lt / 86400000000000)
      else []).length ≤ L + 6 := by
    by_cases hd : (formatHelper fmt._datetime)._date = DateTime.Invalid
    · simp [hd]
    · rw [if_pos hd]
      exact dateText_length_le fmt _ _ L (by
        rcases hfd with h | h
        · exact absurd h hd
        · exact h) hL1 hL2
  by_cases htm : (formatHelper fmt._datetime)._time = DateTime.Invalid
  · simp only [htm, ne_eq, not_true_eq_false, if_false, List.append_nil] at hdate ⊢
    omega
  · have ht : (formatHelper fmt._datetime)._time = DateTime.hms ∨
        (formatHelper fmt._datetime)._time = DateTime.hm ∨
        (formatHelper fmt._datetime)._time = DateTime.h := by
      rcases hft with h | h
      · exact absurd h htm
      · exact h
    have h1 := timeText_length_le fmt _ ht (lt - lt / 86400000000000 * 86400000000000)
      (by omega) (by omega)
    have h2 := fractionText_length_le fmt _ ht precision_ lt
    rw [if_pos htm]
    simp only [List.length_append]
    omega

/-! ## Lemmas: the formatter does not write behind the capacity -/

theorem writeAt_untouched (s mem : List Char) (p i : Nat) (h : p + s.length ≤ i) :
    (writeAt mem p s)[i]? = mem[i]? := by
  induction s generalizing mem p with
  | nil => rfl
  | cons c cs ih =>
    simp only [writeAt]
    rw [ih (mem.set p c) (p + 1) (by simp only [List.length_cons] at h; omega)]
    exact List.getElem?_set_ne (by simp only [List.length_cons] at h; omega)

theorem snprintf_untouched (o : Out) (e : Nat) (s : List Char) (i : Nat) (h : e ≤ i) :
    (o.snprintf e s).mem[i]? = o.mem[i]? := by
  simp only [Out.snprintf, buflen]
  by_cases hp : o.p < e
  · simp only [hp, if_true]
    split
    · rfl
    · apply writeAt_untouched
      simp only [List.length_append, List.length_take, List.length_singleton]
      omega
  · simp only [hp, if_false, if_true]

theorem putc_untouched (o : Out) (e : Nat) (c : Char) (i : Nat) (h : e ≤ i) :
    (o.putc e c).mem[i]? = o.mem[i]? := by
  simp only [Out.putc]
  split
  · exact List.getElem?_set_ne (by omega)
  · rfl

/-- The function `detail::format_iso8601` leaves every byte at an index behind the capacity as it
was. -/
theorem format_iso8601_untouched (buf : List Char) (maxlen : Nat)
    (format_ : ISO8601Format) (precision_ : Precision) (lt_ gmt_offset_ : Int) (i : Nat)
    (hi : maxlen ≤ i) :
    (detail.format_iso8601 (some buf) maxlen format_ precision_ lt_ gmt_offset_).2[i]? =
      buf[i]? := by
  have h0 : (if 0 < maxlen then buf.set 0 NUL else buf)[i]? = buf[i]? := by
    split
    · exact List.getElem?_set_ne (by omega)
    · rfl
  unfold detail.format_iso8601
  simp only [Option.isNone_some, Bool.false_eq_true, if_false, Option.getD_some]
  generalize (if format_._offset = Offset.zulu then lt_ - gmt_offset_ * 1000000000 else lt_) = lt
  generalize (formatHelper format_._datetime) = fh
  generalize offsetText format_ gmt_offset_ = O
  generalize dateText format_ fh._date (lt / 86400000000000) = D
  generalize timeText format_ fh._time (lt - lt / 86400000000000 * 86400000000000) = T
  generalize fraction fh._time precision_ lt (lt - lt / 86400000000000 * 86400000000000) = F
  generalize (if 0 < maxlen then buf.set 0 NUL else buf) = m at h0 ⊢
  by_cases hv : format_._datetime.toNat ≥ DateTime.Invalid.toNat
  · simp only [hv, if_true, h0]
  · simp only [hv, if_false]
    by_cases hd : fh._date ≠ DateTime.Invalid <;> by_cases ht : fh._time ≠ DateTime.Invalid <;>
      cases O <;> cases hT : format_._extra._omitT <;> by_cases hF : F.1 ≠ 0 <;>
      simp [hd, ht, hT, hF, snprintf_untouched _ _ _ _ hi, putc_untouched _ _ _ _ hi, h0]

/-- The offset suffix of the kind Zulu is `Z` for every offset. -/
theorem offsetText_zulu (fmt : ISO8601Format) (g : Int) (hz : fmt._offset = Offset.zulu) :
    offsetText fmt g = some ['Z'] := by
  simp only [offsetText, hz, ite_self]

theorem detect_ym (Y M : Nat) (tail : List Char)
    (htail : ∀ c, tail.head? = some c → isdigit c = false ∧ c ≠ '-') (pt : ParseType)
    (hpt : pt ≠ ParseType.TimeOnly) :
    detectDateOrTimeFormat (ymText Y M ++ tail) 0 (7 + tail.length) pt =
      some { _datetime := DateTime.ym, _offset := Offset.none,
             _extra := { _useComma := false, _omitT := false, _basicDatetime := false,
                         _basicOffset := false } } := by
  have hl : (ymText Y M ++ tail).length ≤ 7 + tail.length := by
    simp [ymText, numeral_length]; omega
  simp only [ymText, numeral, List.cons_append, List.nil_append, List.append_assoc] at hl ⊢
  simp only [detectDateOrTimeFormat, digits_of_le _ _ _ hl]
  cases tail with
  | nil =>
    cases pt <;>
      simp [digitsRun, charAt, RET_FMT] at hpt ⊢
  | cons c t =>
    have h1 := (htail c rfl).1
    have h2 := (htail c rfl).2
    cases pt <;>
      simp [digitsRun, charAt, RET_FMT, h1, h2] at hpt ⊢ <;> omega

theorem parseDate_ym (Y M : Nat) (hY : Y < 10000) (hM : M < 100)
    (rest : List Char) (o : Offset) (a b c : Bool) (ld0 : Int) :
    parseDate (ymText Y M ++ rest) 0
      { _datetime := DateTime.ym, _offset := o,
        _extra := { _useComma := a, _omitT := b, _basicDatetime := false, _basicOffset := c } } ld0 =
      if 1 ≤ M ∧ M ≤ 12 then (7, dayCountOf Y M 1) else (0, ld0) := by
  simp only [ymText, numeral, List.cons_append, List.nil_append, List.append_assoc]
  simp [parseDate, num_eq, Nat.mod_eq_of_lt hY, Nat.mod_eq_of_lt hM, i16_natCast Y (by omega),
    u8_natCast M (by omega), validDate, lastDayOf]
  split_ifs <;> first | rfl | (exfalso; simp_all; omega) | (exfalso; simp_all)

/-! ## Lemmas: digit runs of any length -/

theorem decimalFold_acc (cs : List Char) (acc : Nat) :
    cs.foldl (fun a c => a * 10 + (c.toNat - 48)) acc =
      acc * 10 ^ cs.length + decimalValue cs := by
  induction cs generalizing acc with
  | nil => simp [decimalValue]
  | cons c cs ih =>
    simp only [List.foldl_cons, List.length_cons, decimalValue]
    rw [ih, ih (0 * 10 + (c.toNat - 48))]
    ring

theorem decimalValue_cons (c : Char) (cs : List Char) :
    decimalValue (c :: cs) = (c.toNat - 48) * 10 ^ cs.length + decimalValue cs := by
  simp only [decimalValue, List.foldl_cons]
  rw [decimalFold_acc]
  simp [decimalValue]

theorem isdigit_toNat (c : Char) (h : isdigit c = true) : 48 ≤ c.toNat ∧ c.toNat ≤ 57 := by
  simpa [isdigit] using h

theorem decimalValue_lt (cs : List Char) (h : ∀ c ∈ cs, isdigit c = true) :
    decimalValue cs < 10 ^ cs.length := by
  induction cs with
  | nil => simp [decimalValue]
  | cons c cs ih =>
    have hc := isdigit_toNat c (h c (List.mem_cons_self _ _))
    have h2 := ih (fun x hx => h x (List.mem_cons_of_mem _ hx))
    rw [decimalValue_cons, List.length_cons, pow_succ]
    have h3 : (c.toNat - 48) * 10 ^ cs.length ≤ 9 * 10 ^ cs.length :=
      Nat.mul_le_mul_right _ (by omega)
    omega

theorem digitsRun_run (run tail : List Char) (h : ∀ c ∈ run, isdigit c = true) :
    digitsRun (run ++ tail) = run.length + digitsRun tail := by
  induction run with
  | nil => simp
  | cons c cs ih =>
    have hc := h c (List.mem_cons_self _ _)
    simp only [List.cons_append, digitsRun, hc, if_true, List.length_cons]
    have e := ih (fun x hx => h x (List.mem_cons_of_mem _ hx))
    simp only [List.append_eq] at e ⊢
    omega

/-- The loop of `num` over the first `n` characters of a run of digits. -/
theorem numLoop_run (run tail : List Char) (h : ∀ c ∈ run, isdigit c = true) (n : Nat)
    (hn : n ≤ run.length) (tv : Int) :
    numLoop (run ++ tail) n 0 tv = tv * 10 ^ n + (decimalValue (run.take n) : Int) := by
  induction n generalizing run tv with
  | zero => simp [numLoop, decimalValue]
  | succ n ih =>
    cases run with
    | nil => simp at hn
    | cons c cs =>
      have hc := isdigit_toNat c (h c (List.mem_cons_self _ _))
      have hcs : ∀ x ∈ cs, isdigit x = true := fun x hx => h x (List.mem_cons_of_mem _ hx)
      have hn2 : n ≤ cs.length := by simpa using hn
      simp only [numLoop, List.cons_append]
      rw [numLoop_drop, Nat.zero_add]
      simp only [List.drop_succ_cons, List.drop_zero, charAt, List.getD_cons_zero]
      rw [ih cs hcs hn2, List.take_succ_cons, decimalValue_cons, List.length_take,
        Nat.min_eq_left hn2]
      have e : ((c.toNat - 48 : Nat) : Int) = (c.toNat : Int) - 48 := by omega
      push_cast
      rw [e]
      ring

theorem digitsRun_take (l : List Char) :
    (∀ c ∈ l.take (digitsRun l), isdigit c = true) ∧ digitsRun l ≤ l.length := by
  induction l with
  | nil => simp [digitsRun]
  | cons c cs ih =>
    cases hc : isdigit c
    · simp [digitsRun, hc]
    · simp only [digitsRun, hc, if_true, List.take_succ_cons, List.length_cons]
      refine ⟨?_, by omega⟩
      intro x hx
      rcases List.mem_cons.mp hx with rfl | hx
      · exact hc
      · exact ih.1 x hx

theorem drop_take_prefix (s : List Char) (p e : Nat) :
    ∃ X, s.drop p = (s.take e).drop p ++ X := by
  refine ⟨(s.drop e).drop (p - (s.take e).length), ?_⟩
  rw [← List.drop_append_eq_append_drop, List.take_append_drop]

/-- The value `num` reads over the first `n` characters of the digit run counted by `digits`. -/
theorem num_digits (s : List Char) (p e n : Nat) (hn : n ≤ digits s p e) :
    (num s p n).1 = (decimalValue ((((s.take e).drop p).take (digits s p e)).take n) : Int) ∧
    decimalValue ((((s.take e).drop p).take (digits s p e)).take n) < 10 ^ n := by
  obtain ⟨X, hX⟩ := drop_take_prefix s p e
  have hr := digitsRun_take ((s.take e).drop p)
  have hd : digits s p e = digitsRun ((s.take e).drop p) := rfl
  rw [← hd] at hr
  have hlen : (((s.take e).drop p).take (digits s p e)).length = digits s p e := by
    rw [List.length_take]; omega
  have hsplit : s.drop p = ((s.take e).drop p).take (digits s p e) ++
      (((s.take e).drop p).drop (digits s p e) ++ X) := by
    rw [← List.append_assoc, List.take_append_drop]; exact hX
  refine ⟨?_, ?_⟩
  · rw [num_eq, hsplit, numLoop_run _ _ hr.1 n (by omega)]
    simp
  · have h1 := decimalValue_lt ((((s.take e).drop p).take (digits s p e)).take n)
      (fun c hc => hr.1 c (List.mem_of_mem_take hc))
    rw [List.length_take, hlen, Nat.min_eq_left hn] at h1
    exact h1

/-- The value computed by `frac` lies in `[0, 10^15)`. -/
theorem frac_value_bounds (s : List Char) (p e : Nat) :
    0 ≤ (frac s p e).1 ∧ (frac s p e).1 < 10 ^ 15 := by
  unfold frac
  by_cases hd : digits s p e > 0
  · simp only [hd, if_true]
    by_cases h15 : digits s p e > 15
    · simp only [h15, if_true]
      have h := num_digits s p e 15 (by omega)
      rw [h.1]
      have e1 : frac_to_nano.getD (15 - 1) 0 = 1 := rfl
      rw [e1]
      constructor
      · positivity
      · have := h.2
        rw [mul_one]
        exact_mod_cast this
    · simp only [h15, if_false]
      have h := num_digits s p e (digits s p e) (le_refl _)
      rw [h.1, frac_to_nano_getD _ (by omega) (by omega)]
      generalize decimalValue _ = v at h ⊢
      constructor
      · positivity
      · have h2 : (v : Int) < 10 ^ digits s p e := by exact_mod_cast h.2
        have h3 : (10 : Int) ^ digits s p e * 10 ^ (15 - digits s p e) = 10 ^ 15 := by
          rw [← pow_add]; congr 1; omega
        have h4 : (0 : Int) < 10 ^ (15 - digits s p e) := by positivity
        calc (v : Int) * 10 ^ (15 - digits s p e)
            < 10 ^ digits s p e * 10 ^ (15 - digits s p e) := by
              exact mul_lt_mul_of_pos_right h2 h4
          _ = 10 ^ 15 := h3
  · simp only [hd, if_false]
    constructor <;> norm_num

theorem wrap64_eq (x : Int) (h1 : -(2 ^ 63) ≤ x) (h2 : x < 2 ^ 63) : wrap64 x = x := by
  unfold wrap64
  norm_num at h1 h2 ⊢
  omega

theorem fsecOf_cases (time : DateTime) : fsecOf time = 1 ∨ fsecOf time = 60 ∨ fsecOf time = 3600 := by
  cases time <;> simp [fsecOf]

/-- The fields block of `parseTime` leaves `fsecOf` of the time variant in `fsec`. -/
theorem parseTimeFields_fsec (s : List Char) (p : Nat) (fmt : ISO8601Format) :
    (parseTimeFields s p fmt).all (fun r => decide (r.2.2 = fsecOf fmt._datetime)) = true := by
  obtain ⟨dt, o, ex⟩ := fmt
  cases dt <;> simp [parseTimeFields, fsecOf]

theorem fracNanos_bounds (lt tod : Int) :
    (0 ≤ fracNanos DateTime.hms lt tod ∧ fracNanos DateTime.hms lt tod < 1000000000) ∧
    (0 ≤ fracNanos DateTime.hm lt tod ∧ fracNanos DateTime.hm lt tod < 60000000000) ∧
    (0 ≤ fracNanos DateTime.h lt tod ∧ fracNanos DateTime.h lt tod < 3600000000000) := by
  simp only [fracNanos]
  omega

/-- The function `frac` on a run of digits of any length that is not followed by a digit: the
first 15 digits are read, all digits are counted. -/
theorem frac_run (run tail : List Char) (hrun : ∀ c ∈ run, isdigit c = true)
    (hne : run ≠ []) (htail : ∀ c, tail.head? = some c → isdigit c = false) :
    frac (run ++ tail) 0 (run.length + tail.length) =
      ((decimalValue (run.take 15) : Int) * 10 ^ (15 - min run.length 15), run.length) := by
  have hl : (run ++ tail).length ≤ run.length + tail.length := by simp
  have hd : digits (run ++ tail) 0 (run.length + tail.length) = run.length := by
    rw [digits_of_le _ _ _ hl, List.drop_zero, digitsRun_run run tail hrun,
      digitsRun_nondigit tail htail]
    rfl
  have hk0 : run.length > 0 := List.length_pos.mpr hne
  simp only [frac, hd, hk0, if_true]
  by_cases h15 : run.length > 15
  · simp only [h15, if_true, num_eq, List.drop_zero]
    rw [numLoop_run run tail hrun 15 (by omega), Nat.min_eq_right (by omega)]
    simp [frac_to_nano]
  · simp only [h15, if_false, num_eq, List.drop_zero]
    rw [numLoop_run run tail hrun run.length (le_refl _), Nat.min_eq_left (by omega),
      frac_to_nano_getD _ (by omega) (by omega), List.take_of_length_le (le_refl _),
      List.take_of_length_le (by omega)]
    simp

/-- The fraction block on a decimal mark followed by a run of digits of any length. -/
theorem parseTimeFraction_run (comma : Bool) (run tail : List Char)
    (hrun : ∀ c ∈ run, isdigit c = true) (hne : run ≠ [])
    (htail : ∀ c, tail.head? = some c → isdigit c = false)
    (fmt : ISO8601Format) (fsec : Int) :
    parseTimeFraction ((if comma then ',' else '.') :: (run ++ tail)) 0
        (1 + (run.length + tail.length)) fmt fsec =
      { failed := false, p := 1 + run.length,
        fmt := { fmt with _extra := { fmt._extra with _useComma := comma } },
        ns := Int.tdiv ((decimalValue (run.take 15) : Int) * 10 ^ (15 - min run.length 15) * fsec)
          1000000 } := by
  have hk : run.length ≠ 0 := fun h => hne (List.length_eq_zero.mp h)
  have hf : ∀ c : Char, frac (c :: (run ++ tail)) 1 (1 + (run.length + tail.length)) =
      ((decimalValue (run.take 15) : Int) * 10 ^ (15 - min run.length 15), run.length) := by
    intro c
    have := frac_shift [c] (run ++ tail) 0 (run.length + tail.length)
    simp only [List.singleton_append, List.length_singleton, Nat.add_zero] at this
    rw [this, frac_run run tail hrun hne htail]
  cases comma <;> simp [parseTimeFraction, charAt, hf, hk]

/-- The fraction block on a decimal mark that is not followed by a digit: failure. -/
theorem parseTimeFraction_nodigit (comma : Bool) (tail : List Char)
    (htail : ∀ c, tail.head? = some c → isdigit c = false)
    (fmt : ISO8601Format) (fsec : Int) :
    parseTimeFraction ((if comma then ',' else '.') :: tail) 0 (1 + tail.length) fmt fsec =
      { failed := true, p := 1,
        fmt := { fmt with _extra := { fmt._extra with _useComma := comma } }, ns := 0 } := by
  have hd : ∀ c : Char, digits (c :: tail) 1 (1 + tail.length) = 0 := by
    intro c
    rw [digits_of_le _ _ _ (by simp; omega)]
    simpa using digitsRun_nondigit tail htail
  cases comma <;> simp [parseTimeFraction, charAt, frac, hd]

/-- The rescaling of `parseTime`: scaling `f` to 15 places, multiplying by `U` and dividing by
10⁶ is the floor of `f · U · 10⁹ / 10^j`. -/
theorem fraction_scale (f : Nat) (U : Int) (hU : 0 ≤ U) (j : Nat) (h1 : 1 ≤ j) (h2 : j ≤ 15) :
    Int.tdiv ((f : Int) * 10 ^ (15 - j) * U) 1000000 = ((f : Int) * U * 10 ^ 9) / 10 ^ j := by
  have hx : (0 : Int) ≤ (f : Int) * U := mul_nonneg (Int.ofNat_nonneg f) hU
  have e : (f : Int) * 10 ^ (15 - j) * U = ((f : Int) * U) * 10 ^ (15 - j) := by ring
  rw [e]
  generalize (f : Int) * U = x at hx
  have hn : 0 ≤ x * 10 ^ (15 - j) := mul_nonneg hx (by positivity)
  rw [tdiv_of_nonneg _ _ hn (by norm_num)]
  interval_cases j <;> norm_num <;> omega

theorem parseTimeFields_fsec_eq (s : List Char) (p q : Nat) (fmt : ISO8601Format)
    (sm fsec : Int) (h : parseTimeFields s p fmt = some (q, sm, fsec)) :
    fsec = fsecOf fmt._datetime := by
  have := parseTimeFields_fsec s p fmt
  rw [h] at this
  simpa using this

theorem parseTimeFields_kind (s : List Char) (p q : Nat) (fmt : ISO8601Format)
    (sm fsec : Int) (h : parseTimeFields s p fmt = some (q, sm, fsec)) :
    (fmt._datetime = DateTime.hms ∧ fsec = 1) ∨ (fmt._datetime = DateTime.hm ∧ fsec = 60) ∨
      (fmt._datetime = DateTime.h ∧ fsec = 3600) := by
  obtain ⟨dt, o, ex⟩ := fmt
  cases dt <;> simp [parseTimeFields] at h ⊢ <;> omega

/-- The function `parseTime` on a text whose fields end at the end of `pre` and are followed by
a decimal mark, a run of digits and an offset suffix. -/
theorem parseTime_fractionRun (pre run tail : List Char) (comma : Bool) (O : OffsetSuffix)
    (p : Nat) (fmt : ISO8601Format) (sm fsec g0 : Int)
    (hrun : ∀ c ∈ run, isdigit c = true) (hwf : O.wf) (htail : O.tailOk tail)
    (hnd : ∀ c, (O.text ++ tail).head? = some c → isdigit c = false)
    (hF : parseTimeFields ((pre ++ (if comma then ',' else '.') :: run) ++ (O.text ++ tail))
      (if !fmt._extra._omitT then p + 1 else p) fmt = some (pre.length, sm, fsec)) :
    parseTime ((pre ++ (if comma then ',' else '.') :: run) ++ (O.text ++ tail)) p
        ((pre ++ (if comma then ',' else '.') :: run).length + (O.text.length + tail.length))
        fmt g0 =
      if run = [] then
        { p := p, fmt := { fmt with _extra := { fmt._extra with _useComma := comma } },
          since_midnight := sm, gmt_offset := g0 }
      else
        { p := (pre ++ (if comma then ',' else '.') :: run).length + O.text.length,
          fmt := O.apply { fmt with _extra := { fmt._extra with _useComma := comma } },
          since_midnight := sm +
            Int.tdiv ((decimalValue (run.take 15) : Int) * 10 ^ (15 - min run.length 15) * fsec)
              1000000,
          gmt_offset := O.value } := by
  have hs : (pre ++ (if comma then ',' else '.') :: run) ++ (O.text ++ tail) =
      pre ++ ((if comma then ',' else '.') :: (run ++ (O.text ++ tail))) := by simp
  have he : (pre ++ (if comma then ',' else '.') :: run).length +
      (O.text.length + tail.length) =
      pre.length + (1 + (run.length + (O.text ++ tail).length)) := by
    simp only [List.length_append, List.length_cons]; omega
  have hsh := parseTimeFraction_shift pre
    ((if comma then ',' else '.') :: (run ++ (O.text ++ tail))) 0
    (1 + (run.length + (O.text ++ tail).length)) fmt fsec
  rw [Nat.add_zero, ← hs, ← he] at hsh
  by_cases hne : run = []
  · subst hne
    rw [if_pos rfl]
    have hR := parseTimeFraction_nodigit comma (O.text ++ tail) hnd fmt fsec
    simp only [List.nil_append, List.length_nil, Nat.zero_add] at hsh
    rw [hR] at hsh
    unfold parseTime
    simp only [hF]
    rw [hsh]
    rfl
  · rw [if_neg hne]
    have hR := parseTimeFraction_run comma run (O.text ++ tail) hrun hne hnd fmt fsec
    rw [hR] at hsh
    have hp : pre.length + (1 + run.length) =
        (pre ++ (if comma then ',' else '.') :: run).length := by
      simp only [List.length_append, List.length_cons]; omega
    rw [hp] at hsh
    exact parseTime_offsetSuffix _ tail O p pre.length fmt _ sm fsec _ g0 hwf htail hF hsh

/-! ## Lemmas: compact times without the letter `T` -/

/-- The format that the detector reports in TimeOnly mode for a compact time without `T` that
ends the text: a bare hour does not get the flag `_basicDatetime`. -/
theorem detect_compactTime (time : DateTime)
    (ht : time = DateTime.hms ∨ time = DateTime.hm ∨ time = DateTime.h) (h m s : Nat) :
    detectDateOrTimeFormat (compactTimeText time h m s) 0 (compactTimeText time h m s).length
        ParseType.TimeOnly =
      some { _datetime := time, _offset := Offset.none,
             _extra := { _useComma := false, _omitT := true,
                         _basicDatetime := decide (time ≠ DateTime.h), _basicOffset := false } } := by
  rcases ht with rfl | rfl | rfl <;>
    simp only [compactTimeText, hmsText, hmText, numeral, List.cons_append, List.nil_append,
      List.append_assoc, if_true, List.length_cons, List.length_nil] <;>
    simp [detectDateOrTimeFormat, digits, digitsRun, charAt, RET_FMT]

theorem parseTime_compactTime (time : DateTime)
    (ht : time = DateTime.hms ∨ time = DateTime.hm ∨ time = DateTime.h) (h m s : Nat)
    (hh : h < 100) (hm : m < 100) (hs : s < 100) (b : Bool) :
    parseTime (compactTimeText time h m s) 0 (compactTimeText time h m s).length
        { _datetime := time, _offset := Offset.none,
          _extra := { _useComma := false, _omitT := true,
                      _basicDatetime := decide (time ≠ DateTime.h), _basicOffset := b } } 0 =
      { p := (compactTimeText time h m s).length,
        fmt := { _datetime := time, _offset := Offset.none,
                 _extra := { _useComma := false, _omitT := true,
                             _basicDatetime := decide (time ≠ DateTime.h), _basicOffset := b } },
        since_midnight := timeFieldsNanos time h m s, gmt_offset := 0 } := by
  rcases ht with rfl | rfl | rfl <;>
    simp only [compactTimeText, hmsText, hmText, numeral, List.cons_append, List.nil_append,
      List.append_assoc, if_true, List.length_cons, List.length_nil] <;>
    simp [parseTime, parseTimeFields, parseTimeFraction, parseTimeOffset, num_eq, charAt,
      timeFieldsNanos, Nat.mod_eq_of_lt hh, Nat.mod_eq_of_lt hm, Nat.mod_eq_of_lt hs]

theorem digitsRun_compactTime (time : DateTime)
    (ht : time = DateTime.hms ∨ time = DateTime.hm ∨ time = DateTime.h) (h m s : Nat) :
    digitsRun (compactTimeText time h m s) = (compactTimeText time h m s).length ∧
    ((compactTimeText time h m s).length = 6 ∧ time = DateTime.hms ∨
     (compactTimeText time h m s).length = 4 ∧ time = DateTime.hm ∨
     (compactTimeText time h m s).length = 2 ∧ time = DateTime.h) := by
  rcases ht with rfl | rfl | rfl <;>
    simp [compactTimeText, hmsText, hmText, numeral, digitsRun]

theorem withTime_eq (d : CompleteDate) (time : DateTime)
    (ht : time = DateTime.hms ∨ time = DateTime.hm ∨ time = DateTime.h) :
    (combine_formats.getD (d.part.toNat - 12) []).getD (time.toNat - 9) DateTime.Invalid =
      d.withTime time := by
  rcases ht with rfl | rfl | rfl <;> cases d <;> rfl

/-- In TimeOnly mode the detector rejects a text that starts with a run of more than 8
digits. -/
theorem detect_long_run (s : List Char) (e : Nat) (h8 : 8 < digits s 0 e) :
    detectDateOrTimeFormat s 0 e ParseType.TimeOnly = none := by
  have hT : (decide (0 < e) && (charAt s 0 == 'T' || charAt s 0 == 't')) = false := by
    cases s with
    | nil => simp [digits, digitsRun] at h8
    | cons c t =>
      cases e with
      | zero => simp [digits, digitsRun] at h8
      | succ e =>
        have hc : isdigit c = true := by
          by_contra hc
          simp [digits, digitsRun, hc] at h8
        have h1 : c ≠ 'T' := by
          rintro rfl
          exact absurd hc (by decide)
        have h2 : c ≠ 't' := by
          rintro rfl
          exact absurd hc (by decide)
        simp [charAt, h1, h2]
  have h2 : digits s 0 e ≠ 2 := by omega
  have h4 : digits s 0 e ≠ 4 := by omega
  have h6 : digits s 0 e ≠ 6 := by omega
  have h7 : digits s 0 e ≠ 7 := by omega
  have h8b : digits s 0 e ≠ 8 := by omega
  simp only [detectDateOrTimeFormat, hT]
  simp [h2, h4, h6, h7, h8b]

theorem digitsRun_compactDate (d : CompleteDate)
    (hd : d.part = DateTime.ymd ∨ d.part = DateTime.yd) (rest : List Char) :
    digitsRun (d.text true ++ rest) = (d.text true).length + digitsRun rest ∧
    ((d.text true).length = 8 ∧ d.part = DateTime.ymd ∨
     (d.text true).length = 7 ∧ d.part = DateTime.yd) := by
  cases d with
  | ymd Y M D =>
    refine ⟨?_, Or.inl ⟨by simp [CompleteDate.text, ymdText, numeral_length], rfl⟩⟩
    simp only [CompleteDate.text, ymdText, if_true, List.append_assoc, digitsRun_numeral,
      List.length_append, numeral_length]
    omega
  | ywd Y W D => rcases hd with h | h <;> cases h
  | yd Y N =>
    refine ⟨?_, Or.inr ⟨by simp [CompleteDate.text, ydText, numeral_length], rfl⟩⟩
    simp only [CompleteDate.text, ydText, if_true, List.append_assoc, digitsRun_numeral,
      List.length_append, numeral_length]
    omega

/-! ## Lemmas: the time read by `parseTime` is bounded -/

theorem digitsRun_drop (l : List Char) (k : Nat) (hk : k ≤ digitsRun l) :
    digitsRun (l.drop k) = digitsRun l - k := by
  induction k generalizing l with
  | zero => simp
  | succ k ih =>
    cases l with
    | nil => simp [digitsRun] at hk
    | cons c t =>
      cases hc : isdigit c
      · simp [digitsRun, hc] at hk
      · simp only [digitsRun, hc, if_true] at hk ⊢
        rw [List.drop_succ_cons, ih t (by omega)]
        omega

theorem digits_advance (s : List Char) (p e k : Nat) (hk : k ≤ digits s p e) :
    digits s (p + k) e = digits s p e - k := by
  unfold digits at hk ⊢
  rw [← digitsRun_drop _ k hk, List.drop_drop, Nat.add_comm]

theorem digits_eq_zero_of_ge (s : List Char) (p e : Nat) (h : e ≤ p) : digits s p e = 0 := by
  unfold digits
  rw [List.drop_eq_nil_of_le (by rw [List.length_take]; omega)]
  rfl

/-- A two-digit field that lies in a digit run has a value in 0..99. -/
theorem num2_bounds (s : List Char) (p e : Nat) (h : 2 ≤ digits s p e) :
    0 ≤ (num s p 2).1 ∧ (num s p 2).1 ≤ 99 := by
  have h1 := num_digits s p e 2 h
  rw [h1.1]
  have h2 := h1.2
  generalize decimalValue _ = v at h2 ⊢
  omega

/-- The fields block of `parseTime` on two-digit fields that lie in digit runs: the time is at
most 99:99:99 and a unit of the last field is left below the bound. -/
theorem fields_bounds (s : List Char) (p e : Nat) (fmt : ISO8601Format) (q : Nat)
    (sm fsec : Int) (hF : parseTimeFields s p fmt = some (q, sm, fsec))
    (hshape :
      (fmt._datetime = DateTime.h ∧ 2 ≤ digits s p e) ∨
      (fmt._datetime = DateTime.hm ∧ fmt._extra._basicDatetime = false ∧
        2 ≤ digits s p e ∧ 2 ≤ digits s (p + 3) e) ∨
      (fmt._datetime = DateTime.hms ∧ fmt._extra._basicDatetime = false ∧
        2 ≤ digits s p e ∧ 2 ≤ digits s (p + 3) e ∧ 2 ≤ digits s (p + 6) e) ∨
      (fmt._datetime = DateTime.hm ∧ fmt._extra._basicDatetime = true ∧ 4 ≤ digits s p e) ∨
      (fmt._datetime = DateTime.hms ∧ fmt._extra._basicDatetime = true ∧
        6 ≤ digits s p e)) :
    0 ≤ sm ∧ sm + fsec * 1000000000 ≤ 362440000000000 ∧ 0 < fsec ∧ fsec ≤ 3600 := by
  obtain ⟨dt, o, ⟨a, b, c, d⟩⟩ := fmt
  rcases hshape with ⟨hk, h2⟩ | ⟨hk, hb, h2, h3⟩ | ⟨hk, hb, h2, h3, h6⟩ | ⟨hk, hb, h4⟩ |
    ⟨hk, hb, h6⟩ <;> simp only at hk <;> subst hk <;> (try simp only at hb) <;> (try subst hb)
  · have b0 := num2_bounds s p e h2
    simp [parseTimeFields, Nat.add_assoc] at hF
    obtain ⟨-, rfl, rfl⟩ := hF
    omega
  · have b0 := num2_bounds s p e h2
    have b1 := num2_bounds s (p + 3) e h3
    simp [parseTimeFields, Nat.add_assoc] at hF
    obtain ⟨-, rfl, rfl⟩ := hF
    omega
  · have b0 := num2_bounds s p e h2
    have b1 := num2_bounds s (p + 3) e h3
    have b2 := num2_bounds s (p + 6) e h6
    simp [parseTimeFields, Nat.add_assoc] at hF
    obtain ⟨-, rfl, rfl⟩ := hF
    omega
  · have b0 := num2_bounds s p e (by omega)
    have b1 := num2_bounds s (p + 2) e (by rw [digits_advance s p e 2 (by omega)]; omega)
    simp [parseTimeFields, Nat.add_assoc] at hF
    obtain ⟨-, rfl, rfl⟩ := hF
    omega
  · have b0 := num2_bounds s p e (by omega)
    have b1 := num2_bounds s (p + 2) e (by rw [digits_advance s p e 2 (by omega)]; omega)
    have b2 := num2_bounds s (p + 4) e (by rw [digits_advance s p e 4 (by omega)]; omega)
    simp [parseTimeFields, Nat.add_assoc] at hF
    obtain ⟨-, rfl, rfl⟩ := hF
    omega

theorem detect_none_of_ge (s : List Char) (p e : Nat) (pt : ParseType) (h : e ≤ p) :
    detectDateOrTimeFormat s p e pt = none := by
  have hpe : ¬ p < e := by omega
  have hd := digits_eq_zero_of_ge s p e h
  unfold detectDateOrTimeFormat
  simp [hpe, hd]

set_option maxHeartbeats 2000000 in
/-- When the detector reports a time variant, the two-digit fields that `parseTime` will read
lie in digit runs. -/
theorem detect_shape (s : List Char) (p e : Nat) (pt : ParseType) (fmt : ISO8601Format)
    (h : detectDateOrTimeFormat s p e pt = some fmt)
    (hk : fmt._datetime = DateTime.h ∨ fmt._datetime = DateTime.hm ∨
      fmt._datetime = DateTime.hms) :
    (fmt._datetime = DateTime.h ∧
      2 ≤ digits s (if !fmt._extra._omitT then p + 1 else p) e) ∨
    (fmt._datetime = DateTime.hm ∧ fmt._extra._basicDatetime = false ∧
      2 ≤ digits s (if !fmt._extra._omitT then p + 1 else p) e ∧
      2 ≤ digits s ((if !fmt._extra._omitT then p + 1 else p) + 3) e) ∨
    (fmt._datetime = DateTime.hms ∧ fmt._extra._basicDatetime = false ∧
      2 ≤ digits s (if !fmt._extra._omitT then p + 1 else p) e ∧
      2 ≤ digits s ((if !fmt._extra._omitT then p + 1 else p) + 3) e ∧
      2 ≤ digits s ((if !fmt._extra._omitT then p + 1 else p) + 6) e) ∨
    (fmt._datetime = DateTime.hm ∧ fmt._extra._basicDatetime = true ∧
      4 ≤ digits s (if !fmt._extra._omitT then p + 1 else p) e) ∨
    (fmt._datetime = DateTime.hms ∧ fmt._extra._basicDatetime = true ∧
      6 ≤ digits s (if !fmt._extra._omitT then p + 1 else p) e) := by
  by_cases hpe : p < e
  swap
  · rw [detect_none_of_ge s p e pt (by omega)] at h
    cases h
  unfold detectDateOrTimeFormat at h
  simp only [hpe, decide_True, Bool.true_and, RET_FMT] at h
  cases hb : (charAt s p == 'T' || charAt s p == 't')
  · simp only [hb, Bool.false_and, Bool.not_false, if_true, Bool.false_eq_true, if_false] at h
    by_cases h2 : digits s p e = 2
    · simp only [h2] at h
      split_ifs at h <;> cases h <;>
        simp_all [Nat.add_assoc]
    · by_cases h4 : digits s p e = 4
      · simp only [h4] at h
        generalize (decide (p + 4 < e) && charAt s (p + 4) == '-') = c1 at h
        generalize (decide (p + 4 < e) && (charAt s (p + 4) == 'W' || charAt s (p + 4) == 'w'))
          = c2 at h
        split_ifs at h <;> cases h <;> simp_all
      · by_cases h6 : digits s p e = 6
        · simp only [h6] at h
          split_ifs at h <;> cases h <;> simp_all
        · simp only [h2, h4, h6, if_false] at h
          split_ifs at h <;> cases h <;> simp_all
  · simp only [hb, Bool.true_and, Bool.not_true, if_true, Bool.false_eq_true, if_false] at h
    by_cases h2 : digits s (p + 1) e = 2
    · simp only [h2] at h
      split_ifs at h <;> cases h <;>
        simp_all [Nat.add_assoc]
    · by_cases h4 : digits s (p + 1) e = 4
      · simp only [h4] at h
        split_ifs at h <;> cases h <;> simp_all
      · by_cases h6 : digits s (p + 1) e = 6
        · simp only [h6] at h
          split_ifs at h <;> cases h <;> simp_all
        · simp only [h2, h4, h6, if_false] at h
          split_ifs at h

theorem parseTimeFraction_ns_bounds (s : List Char) (p e : Nat) (fmt : ISO8601Format)
    (fsec : Int) (hf : fsec = 1 ∨ fsec = 60 ∨ fsec = 3600) :
    0 ≤ (parseTimeFraction s p e fmt fsec).ns ∧
    (parseTimeFraction s p e fmt fsec).ns < fsec * 1000000000 := by
  have hv := frac_value_bounds s (p + 1) e
  have hn : 0 ≤ (frac s (p + 1) e).1 * fsec := by
    rcases hf with h | h | h <;> rw [h] <;> omega
  unfold parseTimeFraction
  simp only []
  split_ifs
  · simp only []
    rcases hf with h | h | h <;> rw [h] <;> omega
  · simp only []
    rw [tdiv_of_nonneg _ _ hn (by norm_num)]
    norm_num at hv
    rcases hf with h | h | h <;> rw [h] <;> omega
  · simp only []
    rcases hf with h | h | h <;> rw [h] <;> omega

/-- The time that `parseTime` stores for a format reported by the detector is nonnegative and
below 99:99:100. -/
theorem parseTime_since_midnight_bounds (s : List Char) (p e : Nat) (pt : ParseType)
    (fmt : ISO8601Format) (g : Int) (h : detectDateOrTimeFormat s p e pt = some fmt) :
    0 ≤ (parseTime s p e fmt g).since_midnight ∧
    (parseTime s p e fmt g).since_midnight < 362440000000000 := by
  unfold parseTime
  simp only []
  cases hF : parseTimeFields s (if (!fmt._extra._omitT) = true then p + 1 else p) fmt with
  | none => simp
  | some r =>
    obtain ⟨q, sm, fsec⟩ := r
    have hk := parseTimeFields_kind _ _ _ _ _ _ hF
    have hk2 : fmt._datetime = DateTime.h ∨ fmt._datetime = DateTime.hm ∨
        fmt._datetime = DateTime.hms := by
      rcases hk with h1 | h1 | h1
      · exact Or.inr (Or.inr h1.1)
      · exact Or.inr (Or.inl h1.1)
      · exact Or.inl h1.1
    have hf : fsec = 1 ∨ fsec = 60 ∨ fsec = 3600 := by
      rcases hk with h1 | h1 | h1
      · exact Or.inl h1.2
      · exact Or.inr (Or.inl h1.2)
      · exact Or.inr (Or.inr h1.2)
    have hb := fields_bounds s _ e fmt q sm fsec hF (detect_shape s p e pt fmt h hk2)
    have hn := parseTimeFraction_ns_bounds s q e fmt fsec hf
    simp only []
    split_ifs <;> simp only [] <;> omega

/-- The time that `detail::parse_iso8601` returns is nonnegative and below 99:99:100. -/
theorem parse_since_midnight_bounds (s : List Char) (len_ : Nat) (ld_ today : Int)
    (pt_ : ParseType) :
    0 ≤ (detail.parse_iso8601 s len_ ld_ today pt_).since_midnight ∧
    (detail.parse_iso8601 s len_ ld_ today pt_).since_midnight < 362440000000000 := by
  unfold detail.parse_iso8601
  cases pt_
  · simp only []
    cases detectDateOrTimeFormat s 0 len_ ParseType.DateOnly <;> simp
  · simp only []
    cases hd : detectDateOrTimeFormat s 0 len_ ParseType.TimeOnly with
    | none => simp
    | some f => exact parseTime_since_midnight_bounds s 0 len_ ParseType.TimeOnly f 0 hd
  · simp only []
    cases hd : detectDateOrTimeFormat s 0 len_ ParseType.DateTime with
    | none => simp
    | some f =>
      simp only []
      split_ifs with h1 h2 h3
      · exact parseTime_since_midnight_bounds s 0 len_ ParseType.DateTime f 0 hd
      · simp
      · cases hd2 : detectDateOrTimeFormat s (parseDate s 0 f ld_).1 len_ ParseType.TimeOnly with
        | none => simp
        | some f2 =>
          have hb := parseTime_since_midnight_bounds s (parseDate s 0 f ld_).1 len_
            ParseType.TimeOnly f2 0 hd2
          simp only []
          split_ifs <;> exact hb
      · simp

/-- C1: time round trip (HourMinuteSecond).  For every time of day `n` with
`0 ≤ n < 86400·10⁹` ns (on any day `day`) and every offset `o` of whole minutes with
`|o| < 100` hours: formatting with the time-only format `hms`, offset kind `hm`, extended form,
leading `T`, either decimal mark (`useComma`) and either `basicOffset` value, at nanosecond
precision into any 64-byte buffer, and parsing the produced text in DateTime mode consumes the
whole text and returns `since_midnight = n` and `gmt_offset = o`. -/
theorem C1_time_round_trip (useComma basicOffset : Bool) (buf : List Char)
    (hbuf : buf.length = 64) (day n o : Int) (hn0 : 0 ≤ n) (hn1 : n < 86400000000000)
    (ho : o % 60 = 0) (ho1 : -360000 < o) (ho2 : o < 360000) (ld0 today : Int) :
    (detail.parse_iso8601
        (format_iso8601 buf Precision.NanoSecond (day * 86400000000000 + n) o
          { _datetime := DateTime.hms, _offset := Offset.hm,
            _extra := { _useComma := useComma, _omitT := false, _basicDatetime := false,
                        _basicOffset := basicOffset } })
        (format_iso8601 buf Precision.NanoSecond (day * 86400000000000 + n) o
          { _datetime := DateTime.hms, _offset := Offset.hm,
            _extra := { _useComma := useComma, _omitT := false, _basicDatetime := false,
                        _basicOffset := basicOffset } }).length
        ld0 today ParseType.DateTime).consumed =
      (format_iso8601 buf Precision.NanoSecond (day * 86400000000000 + n) o
          { _datetime := DateTime.hms, _offset := Offset.hm,
            _extra := { _useComma := useComma, _omitT := false, _basicDatetime := false,
                        _basicOffset := basicOffset } }).length ∧
    (detail.parse_iso8601
        (format_iso8601 buf Precision.NanoSecond (day * 86400000000000 + n) o
          { _datetime := DateTime.hms, _offset := Offset.hm,
            _extra := { _useComma := useComma, _omitT := false, _basicDatetime := false,
                        _basicOffset := basicOffset } })
        (format_iso8601 buf Precision.NanoSecond (day * 86400000000000 + n) o
          { _datetime := DateTime.hms, _offset := Offset.hm,
            _extra := { _useComma := useComma, _omitT := false, _basicDatetime := false,
                        _basicOffset := basicOffset } }).length
        ld0 today ParseType.DateTime).since_midnight = n ∧
    (detail.parse_iso8601
        (format_iso8601 buf Precision.NanoSecond (day * 86400000000000 + n) o
          { _datetime := DateTime.hms, _offset := Offset.hm,
            _extra := { _useComma := useComma, _omitT := false, _basicDatetime := false,
                        _basicOffset := basicOffset } })
        (format_iso8601 buf Precision.NanoSecond (day * 86400000000000 + n) o
          { _datetime := DateTime.hms, _offset := Offset.hm,
            _extra := { _useComma := useComma, _omitT := false, _basicDatetime := false,
                        _basicOffset := basicOffset } }).length
        ld0 today ParseType.DateTime).gmt_offset = o := by
  obtain ⟨h1, h2, h3⟩ := parse_format_tTime DateTime.hms (Or.inl rfl)
    { _datetime := DateTime.hms, _offset := Offset.hm,
      _extra := { _useComma := useComma, _omitT := false, _basicDatetime := false,
                  _basicOffset := basicOffset } }
    rfl rfl rfl (by intro h; cases h) buf hbuf day n o hn0 hn1 ho1 ho2 ld0 today
  refine ⟨h1, ?_, h3 rfl ho⟩
  rw [h2, fraction_nano DateTime.hms (Or.inl rfl) day n]
  simp only [fsecOf, fieldsNanos, tdiv_cases _ 1000000 (by decide)]
  have hx : 0 ≤ n % 1000000000 * 10 ^ (15 - 9) * 1 := by norm_num; omega
  rw [if_pos hx]
  norm_num

/-- Witness of C1: 13:45:30.123456789 at offset -03:30, formatted with decimal comma and
compact offset into a buffer of 64 blanks. -/
theorem C1_time_round_trip_witness :
    (detail.parse_iso8601
        (format_iso8601 (List.replicate 64 ' ') Precision.NanoSecond
          (19787 * 86400000000000 + 49530123456789) (-12600)
          { _datetime := DateTime.hms, _offset := Offset.hm,
            _extra := { _useComma := true, _omitT := false, _basicDatetime := false,
                        _basicOffset := true } })
        (format_iso8601 (List.replicate 64 ' ') Precision.NanoSecond
          (19787 * 86400000000000 + 49530123456789) (-12600)
          { _datetime := DateTime.hms, _offset := Offset.hm,
            _extra := { _useComma := true, _omitT := false, _basicDatetime := false,
                        _basicOffset := true } }).length
        0 0 ParseType.DateTime).since_midnight = 49530123456789 :=
  (C1_time_round_trip true true (List.replicate 64 ' ') (by decide) 19787 49530123456789
    (-12600) (by decide) (by decide) (by decide) (by decide) (by decide) 0 0).2.1

/-- Counterexample to C3 as stated: with the date-only format `ymd` and the offset kind Zulu, the
time 00:30 of 2024-03-05 (day count 19787) at the offset +05:30 is rendered as "2024-03-04",
because the formatter shifts the time to UTC before it takes the day, also for a format without
time part; parsing this text in DateOnly mode consumes it in full and returns the day count
19786, not 19787. -/
theorem C3_counterexample :
    (1709598600000000000 : Int) / 86400000000000 = 19787 ∧
    format_iso8601 (List.replicate 64 ' ') Precision.Second 1709598600000000000 19800
        { _datetime := DateTime.ymd, _offset := Offset.zulu } = "2024-03-04".toList ∧
    (detail.parse_iso8601 "2024-03-04".toList 10 0 0 ParseType.DateOnly).consumed = 10 ∧
    (detail.parse_iso8601 "2024-03-04".toList 10 0 0 ParseType.DateOnly).ld = 19786 := by
  refine ⟨by decide, by decide, by decide, by decide⟩

/-- C3 (amended): date round trip.  For a date-only format `fmt` (YearMonthDay, YearOrdinalDay
or YearWeekDay, extended or compact, any other flags), any 64-byte buffer and any time point,
let `z` be the day count that the formatter renders: the day count of the local time when the
offset kind is not Zulu, and the day count of the local time minus the offset when it is Zulu.
If the printed year of `z` (ISO week-year for YearWeekDay, calendar year otherwise) lies in
0..9999, parsing the text returned by `format_iso8601` in DateOnly mode consumes the whole text
and returns the day count `z`, the same date variant and the same compact flag. -/
theorem C3_date_round_trip (fmt : ISO8601Format) (precision_ : Precision)
    (buf : List Char) (hbuf : buf.length = 64) (lt_ gmt_offset_ ld0 today : Int)
    (hdate : fmt._datetime = DateTime.ymd ∨ fmt._datetime = DateTime.yd ∨
      fmt._datetime = DateTime.ywd)
    (hy0 : 0 ≤ printedYear fmt._datetime (localDay fmt lt_ gmt_offset_))
    (hy1 : printedYear fmt._datetime (localDay fmt lt_ gmt_offset_) ≤ 9999) :
    detail.parse_iso8601 (format_iso8601 buf precision_ lt_ gmt_offset_ fmt)
        (format_iso8601 buf precision_ lt_ gmt_offset_ fmt).length ld0 today ParseType.DateOnly =
      { consumed := (format_iso8601 buf precision_ lt_ gmt_offset_ fmt).length,
        format := { _datetime := fmt._datetime, _offset := Offset.none,
                    _extra := { _useComma := false, _omitT := false,
                                _basicDatetime := fmt._extra._basicDatetime,
                                _basicOffset := false } },
        ld := localDay fmt lt_ gmt_offset_, since_midnight := 0, gmt_offset := 0 } ∧
    (fmt._offset ≠ Offset.zulu → localDay fmt lt_ gmt_offset_ = lt_ / 86400000000000) ∧
    (fmt._offset = Offset.zulu →
      localDay fmt lt_ gmt_offset_ = (lt_ - gmt_offset_ * 1000000000) / 86400000000000) := by
  refine ⟨?_, fun h => by simp only [localDay, h, if_false],
    fun h => by simp only [localDay, h, if_true]⟩
  rw [format_iso8601_date buf hbuf fmt precision_ lt_ gmt_offset_ hdate hy0 hy1]
  generalize localDay fmt lt_ gmt_offset_ = z at *
  rcases hdate with h | h | h <;> rw [h] at hy0 hy1 ⊢ <;> simp only [printedYear] at hy0 hy1
  · have hv := validDate_civilOf z
    have hb := validDate_bounds _ _ _ hv
    have hz := dayCountOf_civilOf z
    have hc : (((civilOf z).1.toNat : Nat) : Int) = (civilOf z).1 := Int.toNat_of_nonneg hy0
    rw [dateText_ymd fmt _ hy0 hy1,
      parse_ymd _ _ _ _ (by omega) hb.1 hb.2 ld0 today, hc, if_pos hv, hz]
  · have hb := ordinal_bounds z
    have hc : (((civilOf z).1.toNat : Nat) : Int) = (civilOf z).1 := Int.toNat_of_nonneg hy0
    have hn : (((z - dayCountOf (civilOf z).1 1 1 + 1).toNat : Nat) : Int) =
        z - dayCountOf (civilOf z).1 1 1 + 1 := Int.toNat_of_nonneg (by omega)
    have hv : validOrdinal (civilOf z).1.toNat (z - dayCountOf (civilOf z).1 1 1 + 1).toNat
        = true := by
      simp only [validOrdinal, Bool.and_eq_true, decide_eq_true_eq, hc]
      split_ifs at hb ⊢ <;> omega
    rw [dateText_yd fmt _ hy0 hy1,
      parse_yd _ _ _ (by omega) (by split_ifs at hb <;> omega) ld0 today, if_pos hv, hc, hn]
    congr 1
    omega
  · have hv := validWeekDate_weekOf z
    have hz := weekDateOf_weekOf z
    have hw := weeksInYear_bounds (weekOf z).1
    have hc : (((weekOf z).1.toNat : Nat) : Int) = (weekOf z).1 := Int.toNat_of_nonneg hy0
    have hv2 := hv
    simp only [validWeekDate, Bool.and_eq_true, decide_eq_true_eq] at hv2
    rw [dateText_ywd fmt _ hy0 hy1,
      parse_ywd _ _ _ _ (by omega) (by omega) (by omega) ld0 today, hc, if_pos hv, hz]

/-- Witness of C3 (amended): the week-date format in compact form on 2024-03-05 12:00 (day count 19787),
formatted into a buffer of 64 blanks. -/
theorem C3_date_round_trip_witness :
    (List.replicate 64 ' ').length = 64 ∧
    detail.parse_iso8601
        (format_iso8601 (List.replicate 64 ' ') Precision.Second 1709640000000000000 0
          { _datetime := DateTime.ywd, _offset := Offset.hm,
            _extra := { _useComma := false, _omitT := false, _basicDatetime := true,
                        _basicOffset := false } })
        (format_iso8601 (List.replicate 64 ' ') Precision.Second 1709640000000000000 0
          { _datetime := DateTime.ywd, _offset := Offset.hm,
            _extra := { _useComma := false, _omitT := false, _basicDatetime := true,
                        _basicOffset := false } }).length 0 0 ParseType.DateOnly =
      { consumed := (format_iso8601 (List.replicate 64 ' ') Precision.Second 1709640000000000000 0
          { _datetime := DateTime.ywd, _offset := Offset.hm,
            _extra := { _useComma := false, _omitT := false, _basicDatetime := true,
                        _basicOffset := false } }).length,
        format := { _datetime := DateTime.ywd, _offset := Offset.none,
                    _extra := { _useComma := false, _omitT := false, _basicDatetime := true,
                                _basicOffset := false } },
        ld := 19787, since_midnight := 0, gmt_offset := 0 } :=
  ⟨by decide,
   (C3_date_round_trip
    { _datetime := DateTime.ywd, _offset := Offset.hm,
      _extra := { _useComma := false, _omitT := false, _basicDatetime := true,
                  _basicOffset := false } }
    Precision.Second (List.replicate 64 ' ') (by decide) 1709640000000000000 0 0 0
    (Or.inr (Or.inr rfl)) (by decide) (by decide)).1⟩

/-- Counterexample to C4 as stated: one nanosecond after midnight, formatted with the time-only
formats `hm` and `h` (leading `T`, extended form, no offset) at nanosecond precision, gives the
texts "T00:00.000000000016" and "T00.000000000000277"; both parse completely, but the time
read back is 0 ns, not 1 ns. -/
theorem C4_counterexample :
    format_iso8601 (List.replicate 64 ' ') Precision.NanoSecond 1 0
        { _datetime := DateTime.hm, _offset := Offset.none } = "T00:00.000000000016".toList ∧
    detail.parse_iso8601 "T00:00.000000000016".toList 19 0 0 ParseType.DateTime =
      { consumed := 19, format := { _datetime := DateTime.hm, _offset := Offset.none },
        ld := 0, since_midnight := 0, gmt_offset := 0 } ∧
    format_iso8601 (List.replicate 64 ' ') Precision.NanoSecond 1 0
        { _datetime := DateTime.h, _offset := Offset.none } = "T00.000000000000277".toList ∧
    detail.parse_iso8601 "T00.000000000000277".toList 19 0 0 ParseType.DateTime =
      { consumed := 19, format := { _datetime := DateTime.h, _offset := Offset.none },
        ld := 0, since_midnight := 0, gmt_offset := 0 } := by
  refine ⟨by decide, by decide, by decide, by decide⟩

/-- C4 (amended): for a time-only format `hm` or `h` (leading `T`, extended form, any decimal
mark, any offset kind but Zulu) at nanosecond precision, every day, every time of day `n` with
`0 ≤ n < 86400·10⁹` ns and every offset `g` with `-360000 < g < 360000` seconds (less than 100
hours, so that the offset suffix has two-digit hours): parsing the formatted text in DateTime
mode consumes the whole text, and the time read back is `n` exactly when `n` is a multiple of
3 ns (for `hm`) or of 9 ns (for `h`); otherwise it is `n - 1`, because the formatter and the
parser both truncate when they rescale the fraction. -/
theorem C4_fraction_rescaling (fmt : ISO8601Format)
    (hf : fmt._datetime = DateTime.hm ∨ fmt._datetime = DateTime.h)
    (hT : fmt._extra._omitT = false) (hb : fmt._extra._basicDatetime = false)
    (hz : fmt._offset ≠ Offset.zulu) (buf : List Char) (hbuf : buf.length = 64)
    (day n g : Int) (hn0 : 0 ≤ n) (hn1 : n < 86400000000000)
    (hg1 : -360000 < g) (hg2 : g < 360000) (ld0 today : Int) :
    (detail.parse_iso8601
        (format_iso8601 buf Precision.NanoSecond (day * 86400000000000 + n) g fmt)
        (format_iso8601 buf Precision.NanoSecond (day * 86400000000000 + n) g fmt).length
        ld0 today ParseType.DateTime).consumed =
      (format_iso8601 buf Precision.NanoSecond (day * 86400000000000 + n) g fmt).length ∧
    (detail.parse_iso8601
        (format_iso8601 buf Precision.NanoSecond (day * 86400000000000 + n) g fmt)
        (format_iso8601 buf Precision.NanoSecond (day * 86400000000000 + n) g fmt).length
        ld0 today ParseType.DateTime).since_midnight =
      if n % (if fmt._datetime = DateTime.hm then 3 else 9) = 0 then n else n - 1 := by
  rcases hf with hf | hf
  · obtain ⟨h1, h2, _⟩ := parse_format_tTime DateTime.hm (Or.inr (Or.inl rfl)) fmt hf hT hb hz
      buf hbuf day n g hn0 hn1 hg1 hg2 ld0 today
    refine ⟨h1, ?_⟩
    rw [h2, fraction_nano DateTime.hm (Or.inr (Or.inl rfl)) day n, hf]
    simp only [fsecOf, fieldsNanos, tdiv_cases _ 1000000 (by decide), if_true]
    have hx : 0 ≤ n % 60000000000 * 1000 / 60 * 10 ^ (15 - 12) * 60 := by norm_num; omega
    have e : (10 : Int) ^ (15 - 12) = 1000 := by norm_num
    rw [if_pos hx, e]
    have h3 : n % 3 = 0 ∨ n % 3 = 1 ∨ n % 3 = 2 := by omega
    rcases h3 with h | h | h <;> omega
  · obtain ⟨h1, h2, _⟩ := parse_format_tTime DateTime.h (Or.inr (Or.inr rfl)) fmt hf hT hb hz
      buf hbuf day n g hn0 hn1 hg1 hg2 ld0 today
    refine ⟨h1, ?_⟩
    have hne : ¬ (DateTime.h = DateTime.hm) := by decide
    rw [h2, fraction_nano DateTime.h (Or.inr (Or.inr rfl)) day n, hf]
    simp only [fsecOf, fieldsNanos, tdiv_cases _ 1000000 (by decide), hne, if_false]
    have hx : 0 ≤ n % 3600000000000 * 1000000 / 3600 * 10 ^ (15 - 15) * 3600 := by
      norm_num; omega
    have e : (10 : Int) ^ (15 - 15) = 1 := by norm_num
    rw [if_pos hx, e]
    have h9 : n % 9 = 0 ∨ n % 9 = 1 ∨ n % 9 = 2 ∨ n % 9 = 3 ∨ n % 9 = 4 ∨ n % 9 = 5 ∨
        n % 9 = 6 ∨ n % 9 = 7 ∨ n % 9 = 8 := by omega
    rcases h9 with h | h | h | h | h | h | h | h | h <;> omega

/-- Witness of C4 (amended): 13:45:30.000000002 with the format `hm` reads back one nanosecond
less. -/
theorem C4_fraction_rescaling_witness :
    (detail.parse_iso8601
        (format_iso8601 (List.replicate 64 ' ') Precision.NanoSecond
          (0 * 86400000000000 + 49530000000002) 0
          { _datetime := DateTime.hm, _offset := Offset.none })
        (format_iso8601 (List.replicate 64 ' ') Precision.NanoSecond
          (0 * 86400000000000 + 49530000000002) 0
          { _datetime := DateTime.hm, _offset := Offset.none }).length
        0 0 ParseType.DateTime).since_midnight = 49530000000001 :=
  (C4_fraction_rescaling { _datetime := DateTime.hm, _offset := Offset.none } (Or.inl rfl) rfl rfl
    (by decide) (List.replicate 64 ' ') (by decide) 0 49530000000002 0 (by decide) (by decide)
    (by decide) (by decide) 0 0).2

/-! ## Claims -/

/-- C5: a text of exactly four decimal digits (the numeral of `Y < 10000`) parses in DateTime
mode and in DateOnly mode as the date-only variant `y` (Year) with no flag set, consuming 4
characters and returning the day count of 1 January of year `Y`; in TimeOnly mode it parses as
the compact time-only variant `hm` with `(Y / 100) * 60 + Y % 100` minutes since midnight. -/
theorem C5_four_digit_ambiguity (Y : Nat) (hY : Y < 10000) (ld0 today : Int) :
    detail.parse_iso8601 (numeral 4 Y) 4 ld0 today ParseType.DateTime =
      { consumed := 4,
        format := { _datetime := DateTime.y, _offset := Offset.none,
                    _extra := { _omitT := false, _basicDatetime := false } },
        ld := dayCountOf Y 1 1, since_midnight := 0, gmt_offset := 0 } ∧
    detail.parse_iso8601 (numeral 4 Y) 4 ld0 today ParseType.DateOnly =
      { consumed := 4,
        format := { _datetime := DateTime.y, _offset := Offset.none,
                    _extra := { _omitT := false, _basicDatetime := false } },
        ld := dayCountOf Y 1 1, since_midnight := 0, gmt_offset := 0 } ∧
    detail.parse_iso8601 (numeral 4 Y) 4 ld0 today ParseType.TimeOnly =
      { consumed := 4,
        format := { _datetime := DateTime.hm, _offset := Offset.none,
                    _extra := { _omitT := true, _basicDatetime := true } },
        ld := today,
        since_midnight := (((Y / 100 : Nat) : Int) * 60 + ((Y % 100 : Nat) : Int)) * 60000000000,
        gmt_offset := 0 } := by
  refine ⟨?_, ?_, ?_⟩
  · simp [numeral, detail.parse_iso8601, detectDateOrTimeFormat, digits, digitsRun, charAt,
      RET_FMT, parseDate, num_eq, numLoop_4, DateTime.toNat, Nat.mod_eq_of_lt hY,
      i16_natCast Y (by omega)]
  · simp [numeral, detail.parse_iso8601, detectDateOrTimeFormat, digits, digitsRun, charAt,
      RET_FMT, parseDate, num_eq, numLoop_4, DateTime.toNat, Nat.mod_eq_of_lt hY,
      i16_natCast Y (by omega)]
  · simp [numeral, detail.parse_iso8601, detectDateOrTimeFormat, digits, digitsRun, charAt,
      RET_FMT, parseTime, parseTimeFields, parseTimeFraction, parseTimeOffset, num_eq,
      DateTime.toNat]
    omega

/-- Witness of C5: the text "2024". -/
theorem C5_four_digit_ambiguity_witness :
    2024 < 10000 ∧
    (detail.parse_iso8601 ['2', '0', '2', '4'] 4 0 0 ParseType.DateTime).format._datetime
      = DateTime.y ∧
    (detail.parse_iso8601 ['2', '0', '2', '4'] 4 0 0 ParseType.TimeOnly).since_midnight
      = 73440000000000 :=
  ⟨by decide,
   by rw [show ['2', '0', '2', '4'] = numeral 4 2024 from rfl,
        (C5_four_digit_ambiguity 2024 (by decide) 0 0).1],
   by rw [show ['2', '0', '2', '4'] = numeral 4 2024 from rfl,
        (C5_four_digit_ambiguity 2024 (by decide) 0 0).2.2]; rfl⟩

/-- C6: a valid complete date followed by a time part with minutes (`hh:mm`, `hh:mm:ss`, `hhmm`
or `hhmmss`, with or without the letter `T`), where exactly one of the two parts is in compact
form, and then by any text that does not continue the last field, parses in DateTime mode with
consumedLength 0. -/
theorem C6_style_mismatch_fails (d : CompleteDate) (compact withT withSeconds : Bool)
    (h m s : Nat) (tail : List Char) (hv : d.valid = true) (htail : endsField tail)
    (ld0 today : Int) :
    (detail.parse_iso8601
      (d.text compact ++ (timeFieldsText withT withSeconds (!compact) h m s ++ tail))
      (d.text compact ++ (timeFieldsText withT withSeconds (!compact) h m s ++ tail)).length
      ld0 today ParseType.DateTime).consumed = 0 := by
  obtain ⟨hdet, heven⟩ := detect_time withT withSeconds (!compact) h m s tail htail
  have hp := parse_complete d compact (timeFieldsText withT withSeconds (!compact) h m s ++ tail)
    hv heven ld0 today
  simp only [List.length_append] at hp hdet ⊢
  rw [hp, hdet]
  cases withSeconds <;> cases compact <;> simp

/-- Witness of C6: the text "2024-03-05T134530" (extended date, compact time). -/
theorem C6_style_mismatch_fails_witness :
    (detail.parse_iso8601 "2024-03-05T134530".toList 17 0 0 ParseType.DateTime).consumed = 0 :=
  C6_style_mismatch_fails (CompleteDate.ymd 2024 3 5) false true true 13 45 30 []
    (by decide) (by intro c hc; cases hc) 0 0

/-- C7: a valid complete date in extended or compact form followed by `T` and exactly two
digits `hh` parses in DateTime mode as the combined variant of that date with a bare hour,
consuming the whole text; the compactness flag is that of the date part, the time is `hh` hours
and the offset is 0. -/
theorem C7_bare_hour_tolerated (d : CompleteDate) (compact : Bool) (hh : Nat)
    (hv : d.valid = true) (hhh : hh < 100) (ld0 today : Int) :
    detail.parse_iso8601 (d.text compact ++ 'T' :: numeral 2 hh)
        (d.text compact ++ 'T' :: numeral 2 hh).length ld0 today ParseType.DateTime =
      { consumed := (d.text compact ++ 'T' :: numeral 2 hh).length,
        format := { _datetime := d.withHour, _offset := Offset.none,
                    _extra := { _useComma := false, _omitT := false,
                                _basicDatetime := compact, _basicOffset := false } },
        ld := d.dayCount, since_midnight := (hh : Int) * 3600000000000, gmt_offset := 0 } := by
  have heven : digitsRun ('T' :: numeral 2 hh) % 2 = 0 := by simp [digitsRun]
  have hdet : detectDateOrTimeFormat ('T' :: numeral 2 hh) 0 3 ParseType.TimeOnly =
      some { _datetime := DateTime.h, _offset := Offset.none,
             _extra := { _useComma := false, _omitT := false, _basicDatetime := false,
                         _basicOffset := false } } := by
    simp [numeral, detectDateOrTimeFormat, digits, digitsRun, charAt, RET_FMT]
  have hpt : parseTime ('T' :: numeral 2 hh) 0 3
      { _datetime := DateTime.h, _offset := Offset.none,
        _extra := { _useComma := false, _omitT := false, _basicDatetime := false,
                    _basicOffset := false } } 0 =
      { p := 3,
        fmt := { _datetime := DateTime.h, _offset := Offset.none,
                 _extra := { _useComma := false, _omitT := false, _basicDatetime := false,
                             _basicOffset := false } },
        since_midnight := (hh : Int) * 3600000000000, gmt_offset := 0 } := by
    simp [numeral, parseTime, parseTimeFields, parseTimeFraction, parseTimeOffset, num_eq,
      charAt, Nat.mod_eq_of_lt hhh]
  have hp := parse_complete d compact ('T' :: numeral 2 hh) hv heven ld0 today
  have hl : ('T' :: numeral 2 hh).length = 3 := by simp [numeral_length]
  simp only [List.length_append, hl] at hp ⊢
  rw [hp, hdet]
  simp only [hpt, if_true, withHour_eq]

/-- Witness of C7: the text "2024-W10-2T13". -/
theorem C7_bare_hour_tolerated_witness :
    (detail.parse_iso8601 "2024-W10-2T13".toList 13 0 0 ParseType.DateTime) =
      { consumed := 13,
        format := { _datetime := DateTime.ywd_h, _offset := Offset.none,
                    _extra := { _useComma := false, _omitT := false,
                                _basicDatetime := false, _basicOffset := false } },
        ld := 19787, since_midnight := 46800000000000, gmt_offset := 0 } :=
  C7_bare_hour_tolerated (CompleteDate.ywd 2024 10 2) false 13 (by decide) (by decide) 0 0

/-- C8 (code at the failing inputs): after the valid date and time "2024-03-05T13:45:30", an
offset sign followed by one digit, an offset `+01:` followed by one digit, and a decimal mark
followed by no digit each make `detail::parse_iso8601` return the length of the date part (10)
together with the combined variant `ymd_hms` and the time 13:45:30, not consumedLength 0;
the same suffixes after the time alone give consumedLength 0. -/
theorem C8_time_suffix_violation_returns_date_length :
    detail.parse_iso8601 "2024-03-05T13:45:30+1".toList 21 0 0 ParseType.DateTime =
      { consumed := 10,
        format := { _datetime := DateTime.ymd_hms, _offset := Offset.none,
                    _extra := { _useComma := false, _omitT := false,
                                _basicDatetime := false, _basicOffset := false } },
        ld := 19787, since_midnight := 49530000000000, gmt_offset := 0 } ∧
    (detail.parse_iso8601 "2024-03-05T13:45:30+01:3".toList 24 0 0 ParseType.DateTime).consumed
      = 10 ∧
    (detail.parse_iso8601 "2024-03-05T13:45:30.".toList 20 0 0 ParseType.DateTime).consumed
      = 10 ∧
    (detail.parse_iso8601 "T13:45:30+1".toList 11 0 0 ParseType.DateTime).consumed = 0 ∧
    (detail.parse_iso8601 "T13:45:30+01:3".toList 14 0 0 ParseType.DateTime).consumed = 0 ∧
    (detail.parse_iso8601 "T13:45:30.".toList 10 0 0 ParseType.DateTime).consumed = 0 := by
  refine ⟨by decide, by decide, by decide, by decide, by decide, by decide⟩

/-- C9: the texts `YYYY-MM-DD` and `YYYYMMDD` parse in DateOnly mode, consuming 10 resp. 8
characters and returning the day count of the date, if and only if `1 ≤ MM ≤ 12` and
`1 ≤ DD ≤` the number of days of month `MM` in year `YYYY`; otherwise consumedLength is 0. -/
theorem C9_ymd_calendar_validity (compact : Bool) (Y M D : Nat) (hY : Y < 10000)
    (hM : M < 100) (hD : D < 100) (ld0 today : Int) :
    (ymdText compact Y M D).length = (if compact then 8 else 10) ∧
    ((1 ≤ M ∧ M ≤ 12 ∧ 1 ≤ D ∧ D ≤ lastDayOf Y M) →
      detail.parse_iso8601 (ymdText compact Y M D) (ymdText compact Y M D).length ld0 today
        ParseType.DateOnly =
        { consumed := (ymdText compact Y M D).length,
          format := { _datetime := DateTime.ymd, _offset := Offset.none,
                      _extra := { _useComma := false, _omitT := false,
                                  _basicDatetime := compact, _basicOffset := false } },
          ld := dayCountOf Y M D, since_midnight := 0, gmt_offset := 0 }) ∧
    (¬ (1 ≤ M ∧ M ≤ 12 ∧ 1 ≤ D ∧ D ≤ lastDayOf Y M) →
      (detail.parse_iso8601 (ymdText compact Y M D) (ymdText compact Y M D).length ld0 today
        ParseType.DateOnly).consumed = 0) := by
  have hv : validDate Y M D = true ↔ (1 ≤ M ∧ M ≤ 12 ∧ 1 ≤ D ∧ D ≤ lastDayOf Y M) := by
    simp [validDate, and_assoc]
  rw [← hv]
  cases compact
  · have hl : (ymdText false Y M D).length = 10 := by simp [ymdText, numeral_length]
    have hdet := detect_ymd_ext Y M D [] ParseType.DateOnly (by decide)
    have hpd := parseDate_ymd_ext Y M D hY hM hD [] Offset.none false false false ld0
    simp only [List.append_nil, List.length_nil, Nat.add_zero] at hdet
    rw [hl]
    unfold detail.parse_iso8601
    simp only [hdet]
    simp only [ymdText, numeral, List.cons_append, List.nil_append, List.append_assoc,
      Bool.false_eq_true, if_false]
    rw [hpd]
    refine ⟨by simp, ?_, ?_⟩
    · intro h; simp [h]
    · intro h; simp [h]
  · have hl : (ymdText true Y M D).length = 8 := by simp [ymdText, numeral_length]
    have hdet := detect_ymd_compact Y M D [] ParseType.DateOnly (by decide) (by simp [digitsRun])
    have hpd := parseDate_ymd_compact Y M D hY hM hD [] Offset.none false false false ld0
    simp only [List.append_nil, List.length_nil, Nat.add_zero, digitsRun] at hdet
    rw [hl]
    unfold detail.parse_iso8601
    simp only [hdet]
    simp only [ymdText, numeral, List.cons_append, List.nil_append, List.append_assoc, if_true]
    simp only [Nat.lt_irrefl, decide_False]
    rw [hpd]
    refine ⟨by simp, ?_, ?_⟩
    · intro h; simp [h]
    · intro h; simp [h]

/-- Witness of C9: "2024-02-29" is accepted (leap year), "2023-02-29" and "2024-13-01" are
rejected. -/
theorem C9_ymd_calendar_validity_witness :
    (detail.parse_iso8601 "2024-02-29".toList 10 0 0 ParseType.DateOnly).consumed = 10 ∧
    (detail.parse_iso8601 "2023-02-29".toList 10 0 0 ParseType.DateOnly).consumed = 0 ∧
    (detail.parse_iso8601 "2024-13-01".toList 10 0 0 ParseType.DateOnly).consumed = 0 :=
  ⟨by rw [show "2024-02-29".toList = ymdText false 2024 2 29 from rfl,
          show (10 : Nat) = (ymdText false 2024 2 29).length from rfl,
          (C9_ymd_calendar_validity false 2024 2 29 (by decide) (by decide) (by decide) 0 0).2.1
            (by decide)],
   (C9_ymd_calendar_validity false 2023 2 29 (by decide) (by decide) (by decide) 0 0).2.2
     (by decide),
   (C9_ymd_calendar_validity false 2024 13 1 (by decide) (by decide) (by decide) 0 0).2.2
     (by decide)⟩
/-- C10 fails on the code for YearWeek texts: 2024 is an ISO week-year with 52 weeks, yet the
texts "2024-W53" and "2024W53" are accepted in DateOnly mode (consumed lengths 8 and 7), because
the `yw` branch of `parseDate` only checks that the week number lies in 1..53 and never asks the
calendar whether the week exists.  The day returned is 2024-12-30, which is Monday of week 1 of
2025.  The sibling `ywd` branch does ask the calendar: "2024-W53-1" and "2024W531" are rejected
(consumed length 0). -/
theorem C10_week_53_accepted_in_52_week_year :
    weeksInYear 2024 = 52 ∧
    (detail.parse_iso8601 "2024-W53".toList 8 0 0 ParseType.DateOnly).consumed = 8 ∧
    (detail.parse_iso8601 "2024W53".toList 7 0 0 ParseType.DateOnly).consumed = 7 ∧
    (detail.parse_iso8601 "2024-W53".toList 8 0 0 ParseType.DateOnly).ld =
      dayCountOf 2024 12 30 ∧
    weekOf (dayCountOf 2024 12 30) = (2025, 1, 1) ∧
    (detail.parse_iso8601 "2024-W53-1".toList 10 0 0 ParseType.DateOnly).consumed = 0 ∧
    (detail.parse_iso8601 "2024W531".toList 8 0 0 ParseType.DateOnly).consumed = 0 := by
  decide

/-- Week numbers as the code checks them (C10 holds for YearWeekDay texts and fails for YearWeek
texts): for four-digit `Y`, two-digit `W` and one-digit `D`, in extended and in compact form and
in DateOnly mode: an ISO week-year has 52 or 53 weeks; a YearWeekDay text is rejected (consumed
length 0) whenever `W` is not a week of ISO week-year `Y`, that is when `W = 0`, when `W > 53`,
and when `W = 53` in a year of 52 weeks; a YearWeek text is rejected when `W = 0` or `W > 53`,
but it is accepted for every `W` in 1..53, whether or not week 53 exists in year `Y`, and then
yields the Monday of that week counted from week 1 of `Y`. -/
theorem C10_week_number_validity (compact : Bool) (Y W D : Nat) (hY : Y < 10000) (hW : W < 100)
    (hD : D < 10) (ld0 today : Int) :
    (weeksInYear Y = 52 ∨ weeksInYear Y = 53) ∧
    (¬ (1 ≤ W ∧ W ≤ weeksInYear Y) →
      (detail.parse_iso8601 (ywdText compact Y W D) (ywdText compact Y W D).length ld0 today
        ParseType.DateOnly).consumed = 0) ∧
    (W = 0 ∨ 53 < W →
      (detail.parse_iso8601 (ywText compact Y W) (ywText compact Y W).length ld0 today
        ParseType.DateOnly).consumed = 0) ∧
    (1 ≤ W ∧ W ≤ 53 →
      (detail.parse_iso8601 (ywText compact Y W) (ywText compact Y W).length ld0 today
        ParseType.DateOnly).consumed = (ywText compact Y W).length ∧
      (detail.parse_iso8601 (ywText compact Y W) (ywText compact Y W).length ld0 today
        ParseType.DateOnly).ld = week1Start Y + 7 * ((W : Int) - 1)) := by
  refine ⟨weeksInYear_bounds Y, ?_, ?_, ?_⟩
  · intro h
    rw [parse_ywd compact Y W D hY hW hD ld0 today]
    have hv : ¬ validWeekDate Y W D = true := by
      simp only [validWeekDate, Bool.and_eq_true, decide_eq_true_eq]
      intro hh
      exact h ⟨hh.1.2, hh.2⟩
    rw [if_neg hv]
  · intro h
    rw [parse_yw compact Y W hY hW ld0 today]
    have hv : ¬ (1 ≤ W ∧ W ≤ 53) := by omega
    rw [if_neg hv]
  · intro h
    rw [parse_yw compact Y W hY hW ld0 today, if_pos h]
    refine ⟨rfl, ?_⟩
    simp [weekDateOf]

/-- Witness of the week-number checks: "2023-W53-1" is rejected (2023 has 52 weeks), "2023-W54" is
rejected, "2023-W53" is accepted with consumed length 8. -/
theorem C10_week_number_validity_witness :
    (detail.parse_iso8601 (ywdText false 2023 53 1) (ywdText false 2023 53 1).length 0 0
      ParseType.DateOnly).consumed = 0 ∧
    (detail.parse_iso8601 (ywText false 2023 54) (ywText false 2023 54).length 0 0
      ParseType.DateOnly).consumed = 0 ∧
    (detail.parse_iso8601 (ywText false 2023 53) (ywText false 2023 53).length 0 0
      ParseType.DateOnly).consumed = (ywText false 2023 53).length :=
  ⟨(C10_week_number_validity false 2023 53 1 (by decide) (by decide) (by decide) 0 0).2.1
     (by decide),
   (C10_week_number_validity false 2023 54 1 (by decide) (by decide) (by decide) 0 0).2.2.1
     (by decide),
   ((C10_week_number_validity false 2023 53 1 (by decide) (by decide) (by decide) 0 0).2.2.2
     (by decide)).1⟩

/-- C11: ordinal dates.  For every four-digit year `Y` and three-digit ordinal `N`, the text
`YYYYDDD` (compact) or `YYYY-DDD` (extended) parsed in DateOnly mode succeeds if and only if
`1 ≤ N ≤ 365`, or `N = 366` and `Y` is a leap year: on success it consumes 7 (resp. 8)
characters and returns the variant `yd`, the compact flag of the text and the day count
`dayCountOf(Y, 1, 1) + N - 1`; otherwise the consumed length is 0. -/
theorem C11_ordinal_dates (compact : Bool) (Y N : Nat) (hY : Y < 10000) (hN : N < 1000)
    (ld0 today : Int) :
    (ydText compact Y N).length = (if compact then 7 else 8) ∧
    ((1 ≤ N ∧ N ≤ 365) ∨ (N = 366 ∧ isLeapYear Y = true) →
      detail.parse_iso8601 (ydText compact Y N) (ydText compact Y N).length ld0 today
          ParseType.DateOnly =
        { consumed := if compact then 7 else 8,
          format := { _datetime := DateTime.yd, _offset := Offset.none,
                      _extra := { _useComma := false, _omitT := false,
                                  _basicDatetime := compact, _basicOffset := false } },
          ld := dayCountOf Y 1 1 + (N : Int) - 1, since_midnight := 0, gmt_offset := 0 }) ∧
    (¬ ((1 ≤ N ∧ N ≤ 365) ∨ (N = 366 ∧ isLeapYear Y = true)) →
      (detail.parse_iso8601 (ydText compact Y N) (ydText compact Y N).length ld0 today
          ParseType.DateOnly).consumed = 0) := by
  have hl : (ydText compact Y N).length = (if compact then 7 else 8) := by
    cases compact <;> simp [ydText, numeral_length]
  have hv : validOrdinal Y N = true ↔
      ((1 ≤ N ∧ N ≤ 365) ∨ (N = 366 ∧ isLeapYear Y = true)) := by
    simp only [validOrdinal, Bool.and_eq_true, decide_eq_true_eq]
    cases isLeapYear (Y : Int) <;> simp <;> omega
  refine ⟨hl, ?_, ?_⟩
  · intro h
    rw [parse_yd compact Y N hY hN ld0 today, if_pos (hv.mpr h), hl]
    congr 1
    omega
  · intro h
    rw [parse_yd compact Y N hY hN ld0 today, if_neg (fun hh => h (hv.mp hh))]

/-- Witness of C11: "2024061" is day 61 of 2024 (1 March 2024, day count 19783), "2024366" is
accepted (leap year) and "2023-366" is rejected. -/
theorem C11_ordinal_dates_witness :
    detail.parse_iso8601 (ydText true 2024 61) (ydText true 2024 61).length 0 0
        ParseType.DateOnly =
      { consumed := 7,
        format := { _datetime := DateTime.yd, _offset := Offset.none,
                    _extra := { _useComma := false, _omitT := false,
                                _basicDatetime := true, _basicOffset := false } },
        ld := dayCountOf 2024 3 1, since_midnight := 0, gmt_offset := 0 } ∧
    (detail.parse_iso8601 (ydText false 2023 366) (ydText false 2023 366).length 0 0
        ParseType.DateOnly).consumed = 0 :=
  ⟨(C11_ordinal_dates true 2024 61 (by decide) (by decide) 0 0).2.1 (by decide),
   (C11_ordinal_dates false 2023 366 (by decide) (by decide) 0 0).2.2 (by decide)⟩

/-- C12: zero offset prefers Z.  For every format whose offset kind is `h`, `hm` or `zulu`, the
offset suffix computed for an offset of 0 seconds is exactly the single character `Z`, and for a
format with a time part the rendered text (any precision, any time point) is the text rendered
without an offset suffix followed by `Z`; when the offset kind is `none`, no offset suffix is
computed for any offset and the rendered text has none. -/
theorem C12_zero_offset_prefers_Z (fmt : ISO8601Format) (precision_ : Precision) (lt_ g : Int)
    (ht : (formatHelper fmt._datetime)._time ≠ DateTime.Invalid) :
    (fmt._offset ≠ Offset.none →
      offsetText fmt 0 = some ['Z'] ∧
      renderText fmt precision_ lt_ 0 =
        renderText { fmt with _offset := Offset.none } precision_ lt_ 0 ++ ['Z']) ∧
    (fmt._offset = Offset.none →
      offsetText fmt g = none ∧
      renderText fmt precision_ lt_ g =
        renderText { fmt with _offset := Offset.none } precision_ lt_ g) := by
  refine ⟨?_, ?_⟩
  · intro h
    refine ⟨offsetText_zero fmt h, ?_⟩
    rw [renderText_offset fmt precision_ lt_ 0 ht, offsetText_zero fmt h]
    simp
  · intro h
    refine ⟨offsetText_none fmt g h, ?_⟩
    have hz : ¬ (fmt._offset = Offset.zulu) := by rw [h]; decide
    rw [renderText_offset fmt precision_ lt_ g ht, offsetText_none fmt g h, if_neg hz]
    simp

/-- Witness of C12: the default format (`ymd_hms`, offset kind `hm`) at offset 0 renders
"2024-03-05T13:45:30Z". -/
theorem C12_zero_offset_prefers_Z_witness :
    renderText {} Precision.Second 1709646330000000000 0 =
      renderText { _offset := Offset.none } Precision.Second 1709646330000000000 0 ++ ['Z'] :=
  ((C12_zero_offset_prefers_Z {} Precision.Second 1709646330000000000 0 (by decide)).1
    (by decide)).2

/-- C13: numeric offset rendering.  For every nonzero offset `o` of whole minutes with
`|o| < 100` hours: with the offset kind `hm` the offset suffix is the sign (`-` if `o < 0`,
`+` if `o > 0`), then `|o| div 3600` as two digits, then `:` unless `basicOffset` is set, then
`(|o| mod 3600) div 60` as two digits; with the offset kind `h` it is the sign followed by
`|o| div 3600` as two digits.  For a format with a time part the rendered text ends with this
suffix. -/
theorem C13_numeric_offset_rendering (fmt : ISO8601Format) (precision_ : Precision)
    (lt_ o : Int) (ht : (formatHelper fmt._datetime)._time ≠ DateTime.Invalid)
    (h0 : o ≠ 0) (hmin : o % 60 = 0) (ho1 : -360000 < o) (ho2 : o < 360000) :
    (fmt._offset = Offset.hm →
      offsetText fmt o =
        some ((if o < 0 then '-' else '+') :: (numeral 2 (o.natAbs / 3600) ++
          ((if fmt._extra._basicOffset then [] else [':']) ++
            numeral 2 (o.natAbs % 3600 / 60))))) ∧
    (fmt._offset = Offset.h →
      offsetText fmt o = some ((if o < 0 then '-' else '+') :: numeral 2 (o.natAbs / 3600))) ∧
    renderText fmt precision_ lt_ o =
      renderText { fmt with _offset := Offset.none } precision_
        (if fmt._offset = Offset.zulu then lt_ - o * 1000000000 else lt_) o ++
      (offsetText fmt o).getD [] := by
  have e1 : o.natAbs / 60 / 60 = o.natAbs / 3600 := by omega
  have e2 : o.natAbs / 60 % 60 = o.natAbs % 3600 / 60 := by omega
  have e3 : (o ≤ -60) ↔ (o < 0) := by omega
  refine ⟨?_, ?_, renderText_offset fmt precision_ lt_ o ht⟩
  · intro h
    rw [offsetText_hm fmt o h h0 ho1 ho2, e1, e2]
    simp only [e3]
  · intro h
    rw [offsetText_h fmt o h h0 ho1 ho2, e1]
    simp only [e3]

/-- Witness of C13: the offset -19800 s is rendered as "-05:30" with the kind `hm`. -/
theorem C13_numeric_offset_rendering_witness :
    offsetText {} (-19800) = some "-05:30".toList :=
  (C13_numeric_offset_rendering {} Precision.Second 0 (-19800) (by decide) (by decide)
    (by decide) (by decide) (by decide)).1 rfl

/-- C14: offset suffix parsing.  Let `s = pre ++ O ++ tail` be a text of which `parseTime`,
started at `p` with the format `fmt`, reads the time fields and the fraction without failure up
to the end of `pre` (a well-formed time text), and let `O` be an offset suffix that `tail` does
not continue.  Then `parseTime` stops behind the suffix, keeps the time it has read and yields:
for `Z` or `z` the offset kind Zulu and offset 0; for a sign and two digits `hh` the kind `h`
and offset `±hh·3600`; for a sign and `hh:mm` the kind `hm` with `_basicOffset = false` and
offset `±(hh·3600 + mm·60)`; for a sign and four digits `hhmm` the kind `hm` with
`_basicOffset = true` and the same value; the sign `-` negates the value; and for no suffix the
kind `none` and offset 0. -/
theorem C14_offset_suffix_parsing (pre tail : List Char) (O : OffsetSuffix) (p q : Nat)
    (fmt fmt1 : ISO8601Format) (sm fsec ns g0 : Int) (hwf : O.wf) (htail : O.tailOk tail)
    (hF : parseTimeFields (pre ++ (O.text ++ tail))
      (if !fmt._extra._omitT then p + 1 else p) fmt = some (q, sm, fsec))
    (hR : parseTimeFraction (pre ++ (O.text ++ tail)) q
      (pre.length + (O.text.length + tail.length)) fmt fsec =
      { failed := false, p := pre.length, fmt := fmt1, ns := ns }) :
    parseTime (pre ++ (O.text ++ tail)) p (pre.length + (O.text.length + tail.length)) fmt g0 =
      { p := pre.length + O.text.length, fmt := O.apply fmt1, since_midnight := sm + ns,
        gmt_offset := O.value } ∧
    (O.apply fmt1)._offset =
      (match O with
        | OffsetSuffix.none => Offset.none
        | OffsetSuffix.zulu _ => Offset.zulu
        | OffsetSuffix.h _ _ => Offset.h
        | OffsetSuffix.hm _ _ _ _ => Offset.hm) := by
  exact ⟨parseTime_offsetSuffix pre tail O p q fmt fmt1 sm fsec ns g0 hwf htail hF hR,
    by cases O <;> rfl⟩

/-- Witness of C14: in "T13:45:30.5-05:30" the fields and the fraction end at position 11 and
the suffix "-05:30" gives the kind `hm`, extended, and the offset -19800 s. -/
theorem C14_offset_suffix_parsing_witness :
    parseTime ("T13:45:30.5".toList ++ ((OffsetSuffix.hm true 5 30 false).text ++ [])) 0
        ("T13:45:30.5".toList.length + ((OffsetSuffix.hm true 5 30 false).text.length + 0))
        { _datetime := DateTime.hms, _offset := Offset.none } 0 =
      { p := 17,
        fmt := { _datetime := DateTime.hms, _offset := Offset.hm },
        since_midnight := 49530500000000, gmt_offset := -19800 } :=
  (C14_offset_suffix_parsing "T13:45:30.5".toList [] (OffsetSuffix.hm true 5 30 false) 0 9
    { _datetime := DateTime.hms, _offset := Offset.none }
    { _datetime := DateTime.hms, _offset := Offset.none }
    49530000000000 1 500000000 0
    (show (5 : Nat) < 100 ∧ (30 : Nat) < 100 from ⟨by decide, by decide⟩)
    (by intro c hc; cases hc) (by decide)
    (by decide)).1
/-- Counterexample to C15 as stated: with the time-only format `h` and the offset kind Zulu, the
local time 13:00:00 at the offset +05:30 has nothing below the hour (`r = 0`, so `F = 0` and
the claim expects no fraction), but the formatter shifts the time to UTC (07:30) before it
computes the fraction and renders "T07.500000Z". -/
theorem C15_counterexample :
    (46800000000000 : Int) % unitNanos DateTime.h *
      10 ^ (fieldBaseDigits DateTime.h + precisionDigits Precision.Second) /
      unitNanos DateTime.h = 0 ∧
    format_iso8601 (List.replicate 64 ' ') Precision.Second 46800000000000 19800
        { _datetime := DateTime.h, _offset := Offset.zulu } = "T07.500000Z".toList ∧
    renderText { _datetime := DateTime.h, _offset := Offset.zulu } Precision.Second
        46800000000000 19800 = "T07.500000Z".toList := by
  refine ⟨by decide, by decide, by decide⟩

/-- C15 (amended): fraction width and truncation.  For a format whose time part is `time`
(`hms`, `hm` or `h`), every precision and every local time point `lt_` with offset `g`, let
`lt` be the time that the formatter renders: `lt_` itself when the offset kind is not Zulu, and
`lt_` minus the offset when it is Zulu.  Let `tod` be the time of day of `lt`,
`r = tod mod U` the part of it below the smallest rendered field of length `U` nanoseconds,
`D = fieldBaseDigits + precisionDigits` and `F = floor(r · 10^D / U)`.  Then the formatter
computes the fraction `F` with the width `D`, `0 ≤ F < 10^D`, and the fraction block emits
nothing when `F = 0` and otherwise the decimal mark (`,` if `_useComma`, else `.`) followed by
`F` written with exactly `D` digits, zero-padded on the left; the rendered text holds this
fraction text between the time fields and the offset suffix. -/
theorem C15_fraction_width (fmt : ISO8601Format) (time : DateTime) (precision_ : Precision)
    (lt_ g : Int) (ht : time = DateTime.hms ∨ time = DateTime.hm ∨ time = DateTime.h)
    (hf : (formatHelper fmt._datetime)._time = time) :
    fraction time precision_
        (if fmt._offset = Offset.zulu then lt_ - g * 1000000000 else lt_)
        ((if fmt._offset = Offset.zulu then lt_ - g * 1000000000 else lt_) -
          (if fmt._offset = Offset.zulu then lt_ - g * 1000000000 else lt_) / 86400000000000 *
            86400000000000) =
      (((if fmt._offset = Offset.zulu then lt_ - g * 1000000000 else lt_) -
          (if fmt._offset = Offset.zulu then lt_ - g * 1000000000 else lt_) / 86400000000000 *
            86400000000000) % unitNanos time *
          10 ^ (fieldBaseDigits time + precisionDigits precision_) / unitNanos time,
        fieldBaseDigits time + precisionDigits precision_) ∧
    fractionText fmt time precision_
        (if fmt._offset = Offset.zulu then lt_ - g * 1000000000 else lt_)
        ((if fmt._offset = Offset.zulu then lt_ - g * 1000000000 else lt_) -
          (if fmt._offset = Offset.zulu then lt_ - g * 1000000000 else lt_) / 86400000000000 *
            86400000000000) =
      (if ((if fmt._offset = Offset.zulu then lt_ - g * 1000000000 else lt_) -
          (if fmt._offset = Offset.zulu then lt_ - g * 1000000000 else lt_) / 86400000000000 *
            86400000000000) % unitNanos time *
          10 ^ (fieldBaseDigits time + precisionDigits precision_) / unitNanos time = 0
       then []
       else (if fmt._extra._useComma then ',' else '.') ::
         numeral (fieldBaseDigits time + precisionDigits precision_)
           (((if fmt._offset = Offset.zulu then lt_ - g * 1000000000 else lt_) -
              (if fmt._offset = Offset.zulu then lt_ - g * 1000000000 else lt_) /
                86400000000000 * 86400000000000) % unitNanos time *
              10 ^ (fieldBaseDigits time + precisionDigits precision_) /
              unitNanos time).toNat) ∧
    renderText fmt precision_ lt_ g =
      (if (formatHelper fmt._datetime)._date ≠ DateTime.Invalid then
        dateText fmt (formatHelper fmt._datetime)._date
          ((if fmt._offset = Offset.zulu then lt_ - g * 1000000000 else lt_) / 86400000000000)
       else []) ++
      ((if !fmt._extra._omitT then ['T'] else []) ++
        timeText fmt time
          ((if fmt._offset = Offset.zulu then lt_ - g * 1000000000 else lt_) -
            (if fmt._offset = Offset.zulu then lt_ - g * 1000000000 else lt_) /
              86400000000000 * 86400000000000) ++
        fractionText fmt time precision_
          (if fmt._offset = Offset.zulu then lt_ - g * 1000000000 else lt_)
          ((if fmt._offset = Offset.zulu then lt_ - g * 1000000000 else lt_) -
            (if fmt._offset = Offset.zulu then lt_ - g * 1000000000 else lt_) /
              86400000000000 * 86400000000000) ++
        (offsetText fmt g).getD []) ∧
    (0 ≤ ((if fmt._offset = Offset.zulu then lt_ - g * 1000000000 else lt_) -
          (if fmt._offset = Offset.zulu then lt_ - g * 1000000000 else lt_) / 86400000000000 *
            86400000000000) % unitNanos time *
          10 ^ (fieldBaseDigits time + precisionDigits precision_) / unitNanos time ∧
      ((if fmt._offset = Offset.zulu then lt_ - g * 1000000000 else lt_) -
          (if fmt._offset = Offset.zulu then lt_ - g * 1000000000 else lt_) / 86400000000000 *
            86400000000000) % unitNanos time *
          10 ^ (fieldBaseDigits time + precisionDigits precision_) / unitNanos time <
        10 ^ (fieldBaseDigits time + precisionDigits precision_)) := by
  have htv : time ≠ DateTime.Invalid := by
    rcases ht with rfl | rfl | rfl <;> decide
  refine ⟨?_, ?_, ?_, fraction_bounds time ht precision_ _⟩
  rotate_left 2
  · simp only [renderText, hf, ne_eq, htv, not_false_eq_true, if_true, fractionText,
      List.append_assoc]
  all_goals generalize (if fmt._offset = Offset.zulu then lt_ - g * 1000000000 else lt_) = lt
  all_goals have hfe := fraction_eq time ht precision_ lt
  · exact hfe
  · rw [fractionText, hfe]
    simp only
    by_cases hz : (lt - lt / 86400000000000 * 86400000000000) % unitNanos time *
        10 ^ (fieldBaseDigits time + precisionDigits precision_) / unitNanos time = 0
    · simp only [hz, ne_eq, not_true_eq_false, if_false, if_true]
    · have hb := fraction_bounds time ht precision_ lt
      simp only [hz, ne_eq, not_false_eq_true, if_true, if_false]
      rw [fmt_d_eq _ _ hb.1 (by exact_mod_cast hb.2) (by
        by_contra hD
        have hD0 : fieldBaseDigits time + precisionDigits precision_ = 0 := by omega
        rw [hD0] at hb
        simp only [pow_zero] at hb
        rw [hD0] at hz
        simp only [pow_zero] at hz
        omega)]

/-- Witness of C15 (amended): 13:45:30.5 with the time-only format `hm` at millisecond precision has
`r = 30.5 s`, `D = 6` and `F = 508333`; the fraction text is ".508333". -/
theorem C15_fraction_width_witness :
    fractionText { _datetime := DateTime.hm } DateTime.hm Precision.MilliSecond
      49530500000000 49530500000000 = ".508333".toList :=
  (C15_fraction_width { _datetime := DateTime.hm } DateTime.hm Precision.MilliSecond
    49530500000000 0 (Or.inr (Or.inl rfl)) rfl).2.1

/-- C16: a six-digit run is always a time.  For every text that consists of six digits `hhmmss`
followed by an optional fraction (a decimal mark and 1 to 15 digits) and an optional offset
suffix (`Z`, `z`, `±hh`, `±hh:mm` or `±hhmm`), parse in DateTime mode and in TimeOnly mode
consumes the whole text and returns the time-only variant `hms` with `_basicDatetime = true`
(never a date variant), the day `today`, the time
`(hh·3600 + mm·60 + ss)·10⁹` ns plus the nanoseconds of the fraction, and the offset of the
suffix. -/
theorem C16_six_digits_are_time (hh mm ss : Nat) (hh1 : hh < 100) (hm1 : mm < 100)
    (hs1 : ss < 100) (R : FractionSuffix) (O : OffsetSuffix) (hR : R.wf) (hO : O.wf)
    (pt : ParseType) (hpt : pt = ParseType.DateTime ∨ pt = ParseType.TimeOnly)
    (ld0 today : Int) :
    detail.parse_iso8601 (hmsText true hh mm ss ++ (R.text ++ O.text))
        (hmsText true hh mm ss ++ (R.text ++ O.text)).length ld0 today pt =
      { consumed := (hmsText true hh mm ss ++ (R.text ++ O.text)).length,
        format := O.apply (R.apply
          { _datetime := DateTime.hms, _offset := Offset.none,
            _extra := { _useComma := false, _omitT := true, _basicDatetime := true,
                        _basicOffset := false } }),
        ld := today,
        since_midnight := ((hh : Int) * 3600 + (mm : Int) * 60 + (ss : Int)) * 1000000000 +
          R.nanos 1,
        gmt_offset := O.value } ∧
    (O.apply (R.apply
        { _datetime := DateTime.hms, _offset := Offset.none,
          _extra := { _useComma := false, _omitT := true, _basicDatetime := true,
                      _basicOffset := false } }))._datetime = DateTime.hms ∧
    (O.apply (R.apply
        { _datetime := DateTime.hms, _offset := Offset.none,
          _extra := { _useComma := false, _omitT := true, _basicDatetime := true,
                      _basicOffset := false } }))._extra._basicDatetime = true := by
  refine ⟨?_, by cases O <;> cases R <;> rfl, by cases O <;> cases R <;> rfl⟩
  have hl6 : (hmsText true hh mm ss).length = 6 := by simp [hmsText, numeral_length]
  have hRO : ∀ c, (R.text ++ O.text).head? = some c → isdigit c = false := by
    intro c hc
    cases R with
    | none => exact (O.text_head c (by simpa [FractionSuffix.text] using hc)).1
    | some comma k F =>
      simp only [FractionSuffix.text, List.cons_append, List.head?_cons,
        Option.some.injEq] at hc
      subst hc
      cases comma <;> decide
  have hdet := detect_six hh mm ss (R.text ++ O.text) hRO pt
  have hF : parseTimeFields ((hmsText true hh mm ss ++ R.text) ++ (O.text ++ []))
      (if !true then 0 + 1 else 0)
      { _datetime := DateTime.hms, _offset := Offset.none,
        _extra := { _useComma := false, _omitT := true, _basicDatetime := true,
                    _basicOffset := false } } =
      some (6, ((hh : Int) * 3600 + (mm : Int) * 60 + (ss : Int)) * 1000000000, 1) := by
    simp only [hmsText, numeral, List.cons_append, List.nil_append, List.append_assoc, if_true]
    simp [parseTimeFields, num_eq, Nat.mod_eq_of_lt hh1, Nat.mod_eq_of_lt hm1,
      Nat.mod_eq_of_lt hs1]
    ring
  have hRs := parseTimeFraction_suffix R O.text hR
    (fun c hc => ⟨(O.text_head c hc).1, (O.text_head c hc).2.1, (O.text_head c hc).2.2.1⟩)
    { _datetime := DateTime.hms, _offset := Offset.none,
      _extra := { _useComma := false, _omitT := true, _basicDatetime := true,
                  _basicOffset := false } } 1
  have hsh := parseTimeFraction_shift (hmsText true hh mm ss) (R.text ++ O.text) 0
    (R.text.length + O.text.length)
    { _datetime := DateTime.hms, _offset := Offset.none,
      _extra := { _useComma := false, _omitT := true, _basicDatetime := true,
                  _basicOffset := false } } 1
  rw [hRs, hl6] at hsh
  have hpt2 := parseTime_offsetSuffix (hmsText true hh mm ss ++ R.text) [] O 0 6 _ _ _ _ _ 0 hO
    O.tailOk_nil hF
    (by simpa [hl6, Nat.add_assoc] using hsh)
  simp only [List.append_nil, List.length_nil, Nat.add_zero, List.append_assoc,
    List.length_append, hl6, Nat.add_assoc] at hpt2 hdet ⊢
  have h9 : DateTime.hms.toNat = 9 := rfl
  have h11 : DateTime.h.toNat = 11 := rfl
  rcases hpt with rfl | rfl <;> unfold detail.parse_iso8601 <;>
    simp only [hdet, h9, h11, hpt2] <;> simp

/-- Witness of C16: "134530" in DateTime mode and "134530.5+0100" in TimeOnly mode. -/
theorem C16_six_digits_are_time_witness :
    detail.parse_iso8601 "134530".toList 6 0 7 ParseType.DateTime =
      { consumed := 6,
        format := { _datetime := DateTime.hms, _offset := Offset.none,
                    _extra := { _useComma := false, _omitT := true, _basicDatetime := true,
                                _basicOffset := false } },
        ld := 7, since_midnight := 49530000000000, gmt_offset := 0 } ∧
    detail.parse_iso8601 "134530.5+0100".toList 13 0 7 ParseType.TimeOnly =
      { consumed := 13,
        format := { _datetime := DateTime.hms, _offset := Offset.hm,
                    _extra := { _useComma := false, _omitT := true, _basicDatetime := true,
                                _basicOffset := true } },
        ld := 7, since_midnight := 49530500000000, gmt_offset := 3600 } :=
  ⟨(C16_six_digits_are_time 13 45 30 (by decide) (by decide) (by decide) FractionSuffix.none
      OffsetSuffix.none trivial trivial ParseType.DateTime (Or.inl rfl) 0 7).1,
   (C16_six_digits_are_time 13 45 30 (by decide) (by decide) (by decide)
      (FractionSuffix.some false 1 5) (OffsetSuffix.hm false 1 0 true)
      (show (1 : Nat) ≤ 1 ∧ (1 : Nat) ≤ 15 from ⟨by decide, by decide⟩)
      (show (1 : Nat) < 100 ∧ (0 : Nat) < 100 from ⟨by decide, by decide⟩)
      ParseType.TimeOnly (Or.inr rfl) 0 7).1⟩

/-- C17: the reported length does not depend on the capacity.  For every valid format,
precision, time point and offset, every buffer (also the null pointer) and every capacity `c`,
the length returned by `detail::format_iso8601` is the length of the whole rendering; hence it
equals the length returned for any other buffer and capacity, in particular for one that is
large enough to hold the whole rendering. -/
theorem C17_length_independent_of_capacity (buf_ buf2_ : Option (List Char)) (c c2 : Nat)
    (format_ : ISO8601Format) (precision_ : Precision) (lt_ gmt_offset_ : Int)
    (hv : format_._datetime ≠ DateTime.Invalid) :
    (detail.format_iso8601 buf_ c format_ precision_ lt_ gmt_offset_).1 =
      (renderText format_ precision_ lt_ gmt_offset_).length ∧
    (detail.format_iso8601 buf_ c format_ precision_ lt_ gmt_offset_).1 =
      (detail.format_iso8601 buf2_ c2 format_ precision_ lt_ gmt_offset_).1 := by
  rw [format_iso8601_length buf_ c format_ precision_ lt_ gmt_offset_ hv,
    format_iso8601_length buf2_ c2 format_ precision_ lt_ gmt_offset_ hv]
  exact ⟨rfl, rfl⟩

/-- Witness of C17: the default format on 2024-03-05T13:45:30 at offset +01:00 reports the
length 25 for a buffer of 5 bytes, as for a buffer of 64 bytes. -/
theorem C17_length_independent_of_capacity_witness :
    (detail.format_iso8601 (some (List.replicate 5 ' ')) 5 {} Precision.Second
      1709646330000000000 3600).1 = 25 ∧
    (detail.format_iso8601 (some (List.replicate 5 ' ')) 5 {} Precision.Second
      1709646330000000000 3600).1 =
    (detail.format_iso8601 (some (List.replicate 64 ' ')) 64 {} Precision.Second
      1709646330000000000 3600).1 :=
  ⟨(C17_length_independent_of_capacity (some (List.replicate 5 ' '))
      (some (List.replicate 64 ' ')) 5 64 {} Precision.Second 1709646330000000000 3600
      (by decide)).1,
   (C17_length_independent_of_capacity (some (List.replicate 5 ' '))
      (some (List.replicate 64 ' ')) 5 64 {} Precision.Second 1709646330000000000 3600
      (by decide)).2⟩

/-- C18 fails on the code: with capacity 1 and the time-only format `hms` (leading `T`), the
formatter stores `T` over the NUL it wrote at index 0 and every later `snprintf` gets the size
0, so the one-byte buffer holds "T" and no NUL; with capacity 11 and the default format
`ymd_hms`, the `T` stored by hand overwrites the NUL that ends the date, so the eleven bytes are
"2024-03-05T" and hold no NUL.  The bytes behind the capacity are not touched, and the returned
lengths are those of the whole renderings (9 and 20). -/
theorem C18_no_terminator_within_capacity :
    detail.format_iso8601 (some ['#', '#', '#']) 1
        { _datetime := DateTime.hms, _offset := Offset.none } Precision.Second
        1709646330000000000 0 = (9, ['T', '#', '#']) ∧
    detail.format_iso8601 (some (List.replicate 13 '#')) 11 {} Precision.Second
        1709646330000000000 0 = (20, "2024-03-05T##".toList) ∧
    NUL ∉ ['T'] ∧ NUL ∉ "2024-03-05T".toList := by
  decide

/-- C19: a 64-byte buffer is enough.  For every valid format (all 18 variants, any flags, any
offset kind), every precision, every time point whose day has its calendar year and its ISO
week-year in 0..9999 and every offset with `|offset| < 100` hours, the rendered text has at most
35 characters; hence `detail::format_iso8601` with a 64-byte buffer returns the length of the
rendered text and leaves the whole text, followed by a NUL, in the buffer. -/
theorem C19_buffer_of_64_is_enough (fmt : ISO8601Format) (precision_ : Precision)
    (lt_ g : Int) (buf : List Char) (hbuf : buf.length = 64)
    (hv : fmt._datetime ≠ DateTime.Invalid)
    (hy0 : 0 ≤ (civilOf (lt_ / 86400000000000)).1)
    (hy1 : (civilOf (lt_ / 86400000000000)).1 ≤ 9999)
    (hw0 : 0 ≤ (weekOf (lt_ / 86400000000000)).1)
    (hw1 : (weekOf (lt_ / 86400000000000)).1 ≤ 9999)
    (hg1 : -360000 < g) (hg2 : g < 360000) :
    (renderText fmt precision_ lt_ g).length ≤ 35 ∧
    (detail.format_iso8601 (some buf) 64 fmt precision_ lt_ g).1 =
      (renderText fmt precision_ lt_ g).length ∧
    ∃ rest, (detail.format_iso8601 (some buf) 64 fmt precision_ lt_ g).2 =
      renderText fmt precision_ lt_ g ++ NUL :: rest := by
  have hlen : (renderText fmt precision_ lt_ g).length ≤ 35 := by
    have hoff := offsetText_length_le fmt g hg1 hg2
    by_cases hz : fmt._offset = Offset.zulu
    · have hnear1 : lt_ / 86400000000000 - 5 ≤ localDay fmt lt_ g := by
        simp only [localDay, hz, if_true]; omega
      have hnear2 : localDay fmt lt_ g ≤ lt_ / 86400000000000 + 5 := by
        simp only [localDay, hz, if_true]; omega
      have hy := year_near _ _ hy0 hy1 hnear1 hnear2
      have hw := weekyear_near _ _ hw0 hw1 hnear1 hnear2
      have h := renderText_length_le fmt precision_ lt_ g 5 1 hv
        (fmt_d_length_le 4 5 _ (by decide) (by decide) (by norm_num; omega)
          (by norm_num; omega))
        (fmt_d_length_le 4 5 _ (by decide) (by decide) (by norm_num; omega)
          (by norm_num; omega))
        (hoff.2 hz)
      omega
    · have hd : localDay fmt lt_ g = lt_ / 86400000000000 := by
        simp only [localDay, hz, if_false]
      have h := renderText_length_le fmt precision_ lt_ g 4 6 hv
        (by rw [hd, fmt_d_eq 4 _ hy0 (by norm_num; omega) (by decide), numeral_length])
        (by rw [hd, fmt_d_eq 4 _ hw0 (by norm_num; omega) (by decide), numeral_length])
        hoff.1
      omega
  obtain ⟨_, _, rest, hm⟩ :=
    format_iso8601_wrote buf 64 hbuf fmt precision_ lt_ g hv (by omega)
  exact ⟨hlen, format_iso8601_length (some buf) 64 fmt precision_ lt_ g hv, rest, hm⟩

/-- Witness of C19: the longest rendering, 35 characters: 2024-03-05T13:45:30.123456789 at
offset +05:30 with the default format at nanosecond precision. -/
theorem C19_buffer_of_64_is_enough_witness :
    (renderText {} Precision.NanoSecond 1709646330123456789 19800).length ≤ 35 ∧
    (detail.format_iso8601 (some (List.replicate 64 ' ')) 64 {} Precision.NanoSecond
      1709646330123456789 19800).1 =
      (renderText {} Precision.NanoSecond 1709646330123456789 19800).length :=
  ⟨(C19_buffer_of_64_is_enough {} Precision.NanoSecond 1709646330123456789 19800
      (List.replicate 64 ' ') (by decide) (by decide) (by decide) (by decide) (by decide)
      (by decide) (by decide) (by decide)).1,
   (C19_buffer_of_64_is_enough {} Precision.NanoSecond 1709646330123456789 19800
      (List.replicate 64 ' ') (by decide) (by decide) (by decide) (by decide) (by decide)
      (by decide) (by decide) (by decide)).2.1⟩

/-- C20: truncated dates never take a time.  For every text whose leading date part is detected
in DateTime mode as `y`, `ym` or `yw` and is accepted by `parseDate`, parse in DateTime mode
returns that date-only format, the day count of `parseDate`, `since_midnight = 0` and
`gmt_offset = 0`, and the consumed length is the width of the date part alone (4 for `y`, 7 for
`ym`, which is always extended, 8 or 7 for extended or compact `yw`), whatever characters
follow. -/
theorem C20_truncated_dates_take_no_time (s : List Char) (e : Nat) (ld0 today : Int)
    (fmt : ISO8601Format)
    (hdet : detectDateOrTimeFormat s 0 e ParseType.DateTime = some fmt)
    (hk : fmt._datetime = DateTime.y ∨ fmt._datetime = DateTime.ym ∨
      fmt._datetime = DateTime.yw)
    (hp : (parseDate s 0 fmt ld0).1 ≠ 0) :
    detail.parse_iso8601 s e ld0 today ParseType.DateTime =
      { consumed := (parseDate s 0 fmt ld0).1, format := fmt, ld := (parseDate s 0 fmt ld0).2,
        since_midnight := 0, gmt_offset := 0 } ∧
    (parseDate s 0 fmt ld0).1 =
      (if fmt._datetime = DateTime.y then 4
       else if fmt._datetime = DateTime.ym then 7
       else (if fmt._extra._basicDatetime then 7 else 8)) := by
  have hw := parseDate_truncated_width s fmt ld0 hk hp
  refine ⟨?_, ?_⟩
  · have h9 : DateTime.hms.toNat = 9 := rfl
    have h11 : DateTime.h.toNat = 11 := rfl
    have h12 : DateTime.ymd.toNat = 12 := rfl
    have h14 : DateTime.yd.toNat = 14 := rfl
    have hn : ¬ (9 ≤ fmt._datetime.toNat ∧ fmt._datetime.toNat ≤ 11) := by
      rcases hk with h | h | h <;> rw [h] <;> decide
    have hn2 : ¬ (12 ≤ fmt._datetime.toNat ∧ fmt._datetime.toNat ≤ 14) := by
      rcases hk with h | h | h <;> rw [h] <;> decide
    unfold detail.parse_iso8601
    simp only [hdet, h9, h11, h12, h14, hn, hn2, if_false, hp, Nat.sub_zero]
  · rw [hw]
    by_cases hy : fmt._datetime = DateTime.y
    · simp only [hy, if_true]
    · by_cases hm : fmt._datetime = DateTime.ym
      · simp only [hy, hm, if_true, if_false,
          detect_ym_extended s 0 e ParseType.DateTime fmt hdet hm, Bool.false_eq_true]
      · simp only [hy, hm, if_false]

/-- Witness of C20: "2024-03T13:45:30" is read as the year-month 2024-03 (7 characters, day
count of 2024-03-01) and the time that follows is ignored. -/
theorem C20_truncated_dates_take_no_time_witness :
    detail.parse_iso8601 "2024-03T13:45:30".toList 16 0 0 ParseType.DateTime =
      { consumed := 7,
        format := { _datetime := DateTime.ym, _offset := Offset.none,
                    _extra := { _useComma := false, _omitT := false, _basicDatetime := false,
                                _basicOffset := false } },
        ld := dayCountOf 2024 3 1, since_midnight := 0, gmt_offset := 0 } :=
  (C20_truncated_dates_take_no_time "2024-03T13:45:30".toList 16 0 0
    { _datetime := DateTime.ym, _offset := Offset.none,
      _extra := { _useComma := false, _omitT := false, _basicDatetime := false,
                  _basicOffset := false } } (by decide) (by decide) (by decide)).1

/-- C21 fails on the code: the detector sends `YYYY-` followed by a digit run of any length but
0 and 2 to YearOrdinalDay, and `YYYYW` followed by a digit run of any length but 2 to compact
YearWeekDay, and `num` subtracts `'0'` from whatever character it finds.  So "2024-1:0" (digit
run of length 1 after `YYYY-`; `':' - '0'` is 10) is accepted as ordinal day
1·100 + 10·10 + 0 = 200 of 2024, "2024W0:1" (digit run of length 1 after `YYYYW`) as Monday of
week 0·10 + 10 = 10, and "2024W/?1" (digit run of length 0; `'/' - '0'` is -1 and `'?' - '0'`
is 15) as Monday of week -10 + 15 = 5, each with all 8 characters consumed, in DateOnly and in
DateTime mode. -/
theorem C21_nondigit_fields_accepted :
    isdigit ':' = false ∧ isdigit '/' = false ∧ isdigit '?' = false ∧
    detail.parse_iso8601 "2024-1:0".toList 8 0 0 ParseType.DateOnly =
      { consumed := 8,
        format := { _datetime := DateTime.yd, _offset := Offset.none, _extra := {} },
        ld := dayCountOf 2024 1 1 + (200 - 1), since_midnight := 0, gmt_offset := 0 } ∧
    detail.parse_iso8601 "2024-1:0".toList 8 0 0 ParseType.DateTime =
      { consumed := 8,
        format := { _datetime := DateTime.yd, _offset := Offset.none, _extra := {} },
        ld := dayCountOf 2024 1 1 + (200 - 1), since_midnight := 0, gmt_offset := 0 } ∧
    detail.parse_iso8601 "2024W0:1".toList 8 0 0 ParseType.DateOnly =
      { consumed := 8,
        format := { _datetime := DateTime.ywd, _offset := Offset.none,
                    _extra := { _basicDatetime := true } },
        ld := weekDateOf 2024 10 1, since_midnight := 0, gmt_offset := 0 } ∧
    detail.parse_iso8601 "2024W0:1".toList 8 0 0 ParseType.DateTime =
      { consumed := 8,
        format := { _datetime := DateTime.ywd, _offset := Offset.none,
                    _extra := { _basicDatetime := true } },
        ld := weekDateOf 2024 10 1, since_midnight := 0, gmt_offset := 0 } ∧
    detail.parse_iso8601 "2024W/?1".toList 8 0 0 ParseType.DateOnly =
      { consumed := 8,
        format := { _datetime := DateTime.ywd, _offset := Offset.none,
                    _extra := { _basicDatetime := true } },
        ld := weekDateOf 2024 5 1, since_midnight := 0, gmt_offset := 0 } ∧
    detail.parse_iso8601 "2024W/?1".toList 8 0 0 ParseType.DateTime =
      { consumed := 8,
        format := { _datetime := DateTime.ywd, _offset := Offset.none,
                    _extra := { _basicDatetime := true } },
        ld := weekDateOf 2024 5 1, since_midnight := 0, gmt_offset := 0 } := by
  decide

/-- Counterexample to C22 as stated: "12:34:5" and "12:34:567" begin with two digits, `:` and a
digit run of exactly two digits, followed by `:` and a digit run of length 1 and 3; detection
fails in TimeOnly and in DateTime mode (and the parser consumes nothing), it does not yield
HourMinute. -/
theorem C22_counterexample :
    detectDateOrTimeFormat "12:34:5".toList 0 7 ParseType.TimeOnly = none ∧
    detectDateOrTimeFormat "12:34:5".toList 0 7 ParseType.DateTime = none ∧
    detectDateOrTimeFormat "12:34:567".toList 0 9 ParseType.TimeOnly = none ∧
    detectDateOrTimeFormat "12:34:567".toList 0 9 ParseType.DateTime = none ∧
    detectDateOrTimeFormat "12:34:".toList 0 6 ParseType.TimeOnly = none ∧
    (detail.parse_iso8601 "12:34:5".toList 7 0 0 ParseType.TimeOnly).consumed = 0 ∧
    (detail.parse_iso8601 "12:34:5".toList 7 0 0 ParseType.DateTime).consumed = 0 := by
  decide

/-- C22 (amended): for every text that begins with two digits and `:`, detection in TimeOnly or
DateTime mode fails when the digit run after this `:` does not have length 2.  When it has
length 2, the outcome depends on what follows the two digits: if it is not `:` (or the text
ends), detection yields extended HourMinute; if it is `:` followed by a digit run of exactly two
digits, detection yields extended HourMinuteSecond; if it is `:` followed by a digit run of any
other length, detection fails. -/
theorem C22_colon_time_detection (a b : Char) (rest : List Char) (pt : ParseType)
    (ha : isdigit a = true) (hb : isdigit b = true)
    (hpt : pt = ParseType.TimeOnly ∨ pt = ParseType.DateTime) :
    detectDateOrTimeFormat (a :: b :: ':' :: rest) 0 (a :: b :: ':' :: rest).length pt =
      if digitsRun rest = 2 then
        if (rest.drop 2).head? = some ':' then
          if digitsRun (rest.drop 3) = 2 then some (colonTimeFormat DateTime.hms) else none
        else some (colonTimeFormat DateTime.hm)
      else none := by
  have hl : (a :: b :: ':' :: rest).length ≤ (a :: b :: ':' :: rest).length := le_refl _
  have hcolon : isdigit ':' = false := by decide
  have haT : a ≠ 'T' := by
    rintro rfl
    exact absurd ha (by decide)
  have hat : a ≠ 't' := by
    rintro rfl
    exact absurd ha (by decide)
  simp only [detectDateOrTimeFormat, digits_of_le _ _ _ hl]
  rcases rest with _ | ⟨m1, _ | ⟨m2, _ | ⟨c, t⟩⟩⟩
  · rcases hpt with rfl | rfl <;>
      simp [digitsRun, charAt, RET_FMT, ha, hb, haT, hat, hcolon, colonTimeFormat]
  · rcases hpt with rfl | rfl <;> cases h1 : isdigit m1 <;>
      simp [digitsRun, charAt, RET_FMT, ha, hb, haT, hat, hcolon, colonTimeFormat, h1]
  · rcases hpt with rfl | rfl <;> cases h1 : isdigit m1 <;> cases h2 : isdigit m2 <;>
      simp [digitsRun, charAt, RET_FMT, ha, hb, haT, hat, hcolon, colonTimeFormat, h1, h2]
  · by_cases hc : c = ':'
    · subst hc
      rcases hpt with rfl | rfl <;> cases h1 : isdigit m1 <;> cases h2 : isdigit m2 <;>
        simp [digitsRun, charAt, RET_FMT, ha, hb, haT, hat, hcolon, colonTimeFormat, h1, h2]
    · rcases hpt with rfl | rfl <;> cases h1 : isdigit m1 <;> cases h2 : isdigit m2 <;>
        cases h3 : isdigit c <;>
        simp [digitsRun, charAt, RET_FMT, ha, hb, haT, hat, hcolon, colonTimeFormat, h1, h2, h3, hc]

/-- Witness of C22 (amended): "12:34:56" is detected as extended HourMinuteSecond, "12:34" and
"12:34Z" as extended HourMinute, and "12:34:5" and "12:3" are not detected. -/
theorem C22_colon_time_detection_witness :
    detectDateOrTimeFormat ('1' :: '2' :: ':' :: "34:56".toList) 0
      ('1' :: '2' :: ':' :: "34:56".toList).length ParseType.TimeOnly =
      some (colonTimeFormat DateTime.hms) ∧
    detectDateOrTimeFormat ('1' :: '2' :: ':' :: "34".toList) 0
      ('1' :: '2' :: ':' :: "34".toList).length ParseType.DateTime =
      some (colonTimeFormat DateTime.hm) ∧
    detectDateOrTimeFormat ('1' :: '2' :: ':' :: "34Z".toList) 0
      ('1' :: '2' :: ':' :: "34Z".toList).length ParseType.DateTime =
      some (colonTimeFormat DateTime.hm) ∧
    detectDateOrTimeFormat ('1' :: '2' :: ':' :: "34:5".toList) 0
      ('1' :: '2' :: ':' :: "34:5".toList).length ParseType.TimeOnly = none ∧
    detectDateOrTimeFormat ('1' :: '2' :: ':' :: "3".toList) 0
      ('1' :: '2' :: ':' :: "3".toList).length ParseType.TimeOnly = none :=
  ⟨(C22_colon_time_detection '1' '2' "34:56".toList ParseType.TimeOnly (by decide) (by decide)
      (Or.inl rfl)).trans (by decide),
   (C22_colon_time_detection '1' '2' "34".toList ParseType.DateTime (by decide) (by decide)
      (Or.inr rfl)).trans (by decide),
   (C22_colon_time_detection '1' '2' "34Z".toList ParseType.DateTime (by decide) (by decide)
      (Or.inr rfl)).trans (by decide),
   (C22_colon_time_detection '1' '2' "34:5".toList ParseType.TimeOnly (by decide) (by decide)
      (Or.inl rfl)).trans (by decide),
   (C22_colon_time_detection '1' '2' "3".toList ParseType.TimeOnly (by decide) (by decide)
      (Or.inl rfl)).trans (by decide)⟩

/-- C23: compact date-times without the letter `T`.  Let the text be the compact calendar date
`YYYYMMDD` or the compact ordinal date `YYYYDDD` (valid date fields) directly followed by the
two-digit fields `hh`, `hhmm` or `hhmmss`.  The text is one unbroken run of `d` digits with
`9 ≤ d ≤ 14`, and `d` is even exactly for the calendar date.  In DateTime mode the parser
consumes all `d` characters and returns the combined variant of that date part (YearMonthDay
for even `d`, YearOrdinalDay for odd `d`) and that time part (Hour, HourMinute or
HourMinuteSecond for 2, 4 or 6 remaining digits), with `_basicDatetime = true` and
`_omitT = true`, the day count of the date and the time of the fields.  In TimeOnly mode the
same text fails with consumed length 0. -/
theorem C23_compact_datetime_without_T (d : CompleteDate) (time : DateTime) (h m s : Nat)
    (hd : d.part = DateTime.ymd ∨ d.part = DateTime.yd) (hv : d.valid = true)
    (ht : time = DateTime.hms ∨ time = DateTime.hm ∨ time = DateTime.h)
    (hh : h < 100) (hm : m < 100) (hs : s < 100) (ld0 today : Int) :
    digitsRun (d.text true ++ compactTimeText time h m s) =
      (d.text true ++ compactTimeText time h m s).length ∧
    (9 ≤ (d.text true ++ compactTimeText time h m s).length ∧
      (d.text true ++ compactTimeText time h m s).length ≤ 14) ∧
    ((d.text true ++ compactTimeText time h m s).length % 2 = 0 ↔ d.part = DateTime.ymd) ∧
    ((d.text true ++ compactTimeText time h m s).length % 2 = 1 ↔ d.part = DateTime.yd) ∧
    ((compactTimeText time h m s).length = 6 ∧ time = DateTime.hms ∨
     (compactTimeText time h m s).length = 4 ∧ time = DateTime.hm ∨
     (compactTimeText time h m s).length = 2 ∧ time = DateTime.h) ∧
    detail.parse_iso8601 (d.text true ++ compactTimeText time h m s)
        (d.text true ++ compactTimeText time h m s).length ld0 today ParseType.DateTime =
      { consumed := (d.text true ++ compactTimeText time h m s).length,
        format := { _datetime := d.withTime time, _offset := Offset.none,
                    _extra := { _useComma := false, _omitT := true, _basicDatetime := true,
                                _basicOffset := false } },
        ld := d.dayCount, since_midnight := timeFieldsNanos time h m s, gmt_offset := 0 } ∧
    (detail.parse_iso8601 (d.text true ++ compactTimeText time h m s)
        (d.text true ++ compactTimeText time h m s).length ld0 today
        ParseType.TimeOnly).consumed = 0 := by
  have hr := digitsRun_compactTime time ht h m s
  have hdr := digitsRun_compactDate d hd (compactTimeText time h m s)
  have hlen : (d.text true ++ compactTimeText time h m s).length =
      (d.text true).length + (compactTimeText time h m s).length := List.length_append _ _
  have hrun : digitsRun (d.text true ++ compactTimeText time h m s) =
      (d.text true ++ compactTimeText time h m s).length := by
    rw [hdr.1, hr.1, hlen]
  have heven : digitsRun (compactTimeText time h m s) % 2 = 0 := by
    rw [hr.1]
    rcases hr.2 with h1 | h1 | h1 <;> rw [h1.1]
  have hne : DateTime.ymd ≠ DateTime.yd := by decide
  refine ⟨hrun, ?_, ?_, ?_, hr.2, ?_, ?_⟩
  · rw [hlen]
    rcases hdr.2 with h1 | h1 <;> rcases hr.2 with h2 | h2 | h2 <;> rw [h1.1, h2.1] <;>
      exact ⟨by decide, by decide⟩
  · rw [hlen]
    rcases hdr.2 with h1 | h1 <;> rcases hr.2 with h2 | h2 | h2 <;> rw [h1.1, h2.1, h1.2] <;>
      decide
  · rw [hlen]
    rcases hdr.2 with h1 | h1 <;> rcases hr.2 with h2 | h2 | h2 <;> rw [h1.1, h2.1, h1.2] <;>
      decide
  · rw [hlen, parse_complete d true (compactTimeText time h m s) hv heven ld0 today,
      detect_compactTime time ht h m s]
    simp only [parseTime_compactTime time ht h m s hh hm hs false, withTime_eq d time ht]
    rcases ht with rfl | rfl | rfl
    · simp
    · simp
    · simp
      cases d <;> rfl
  · have h8 : 8 < digits (d.text true ++ compactTimeText time h m s) 0
        (d.text true ++ compactTimeText time h m s).length := by
      rw [digits_of_le _ _ _ (le_refl _), List.drop_zero, hrun, hlen]
      rcases hdr.2 with h1 | h1 <;> rcases hr.2 with h2 | h2 | h2 <;> rw [h1.1, h2.1] <;>
        decide
    unfold detail.parse_iso8601
    simp only [detect_long_run _ _ h8]

/-- Witness of C23: "20240305134530" (14 digits) is 2024-03-05 13:45:30 with the variant
`ymd_hms`; "202406513" (9 digits) is ordinal day 65 of 2024 at 13 h with the variant `yd_h`. -/
theorem C23_compact_datetime_without_T_witness :
    detail.parse_iso8601
        ((CompleteDate.ymd 2024 3 5).text true ++ compactTimeText DateTime.hms 13 45 30)
        ((CompleteDate.ymd 2024 3 5).text true ++ compactTimeText DateTime.hms 13 45 30).length
        0 0 ParseType.DateTime =
      { consumed := ((CompleteDate.ymd 2024 3 5).text true ++
          compactTimeText DateTime.hms 13 45 30).length,
        format := { _datetime := (CompleteDate.ymd 2024 3 5).withTime DateTime.hms,
                    _offset := Offset.none,
                    _extra := { _useComma := false, _omitT := true, _basicDatetime := true,
                                _basicOffset := false } },
        ld := (CompleteDate.ymd 2024 3 5).dayCount,
        since_midnight := timeFieldsNanos DateTime.hms 13 45 30, gmt_offset := 0 } ∧
    (detail.parse_iso8601
        ((CompleteDate.yd 2024 65).text true ++ compactTimeText DateTime.h 13 0 0)
        ((CompleteDate.yd 2024 65).text true ++ compactTimeText DateTime.h 13 0 0).length
        0 0 ParseType.TimeOnly).consumed = 0 :=
  ⟨(C23_compact_datetime_without_T (CompleteDate.ymd 2024 3 5) DateTime.hms 13 45 30
      (Or.inl rfl) (by decide) (Or.inl rfl) (by decide) (by decide) (by decide) 0 0).2.2.2.2.2.1,
   (C23_compact_datetime_without_T (CompleteDate.yd 2024 65) DateTime.h 13 0 0
      (Or.inr rfl) (by decide) (Or.inr (Or.inr rfl)) (by decide) (by decide) (by decide)
      0 0).2.2.2.2.2.2⟩

/-- C24: fraction value parsed.  Let the time fields of the format `fmt` end where `pre` ends
(a well-formed time text), and let them be followed by a decimal mark (`,` if `comma`, else
`.`), a run of `k` digits, an offset suffix `O` and a tail, none of which continues the run.
The fields block leaves `fsec = U` with `U` = 1, 60 or 3600 for HourMinuteSecond, HourMinute or
Hour.  If `k ≥ 1`, `parseTime` consumes the mark and all `k` digits (and the suffix), sets
`_useComma` exactly when the mark is `,`, and adds `floor(f · U · 10⁹ / 10^j)` nanoseconds,
where `j = min(k, 15)` and `f` is the value of the first `j` digits.  If `k = 0`, `parseTime`
fails: it returns the original position. -/
theorem C24_fraction_value (pre run tail : List Char) (comma : Bool) (O : OffsetSuffix)
    (p : Nat) (fmt : ISO8601Format) (sm fsec g0 : Int)
    (hrun : ∀ c ∈ run, isdigit c = true) (hwf : O.wf) (htail : O.tailOk tail)
    (hnd : ∀ c, (O.text ++ tail).head? = some c → isdigit c = false)
    (hF : parseTimeFields ((pre ++ (if comma then ',' else '.') :: run) ++ (O.text ++ tail))
      (if !fmt._extra._omitT then p + 1 else p) fmt = some (pre.length, sm, fsec)) :
    ((fmt._datetime = DateTime.hms ∧ fsec = 1) ∨ (fmt._datetime = DateTime.hm ∧ fsec = 60) ∨
      (fmt._datetime = DateTime.h ∧ fsec = 3600)) ∧
    parseTime ((pre ++ (if comma then ',' else '.') :: run) ++ (O.text ++ tail)) p
        ((pre ++ (if comma then ',' else '.') :: run).length + (O.text.length + tail.length))
        fmt g0 =
      if run = [] then
        { p := p, fmt := { fmt with _extra := { fmt._extra with _useComma := comma } },
          since_midnight := sm, gmt_offset := g0 }
      else
        { p := pre.length + 1 + run.length + O.text.length,
          fmt := O.apply { fmt with _extra := { fmt._extra with _useComma := comma } },
          since_midnight := sm +
            ((decimalValue (run.take (min run.length 15)) : Int) * fsec * 10 ^ 9) /
              10 ^ (min run.length 15),
          gmt_offset := O.value } := by
  have hk := parseTimeFields_kind _ _ _ _ _ _ hF
  refine ⟨hk, ?_⟩
  rw [parseTime_fractionRun pre run tail comma O p fmt sm fsec g0 hrun hwf htail hnd hF]
  by_cases hne : run = []
  · rw [if_pos hne, if_pos hne]
  · rw [if_neg hne, if_neg hne]
    have hk0 : 0 < run.length := List.length_pos.mpr hne
    have hU : 0 ≤ fsec := by
      rcases hk with h | h | h <;> rw [h.2] <;> norm_num
    have ht : run.take (min run.length 15) = run.take 15 := by
      by_cases h15 : run.length ≤ 15
      · rw [Nat.min_eq_left h15, List.take_of_length_le (le_refl _),
          List.take_of_length_le h15]
      · rw [Nat.min_eq_right (by omega)]
    rw [ht, fraction_scale _ fsec hU (min run.length 15) (by omega) (by omega)]
    have hp : (pre ++ (if comma then ',' else '.') :: run).length =
        pre.length + 1 + run.length := by
      simp only [List.length_append, List.length_cons]; omega
    rw [hp]

/-- Witness of C24: in "T13:45,25Z" the fraction `,25` of a minute adds 15 s (the time is
13:45:15), `_useComma` is set and all 10 characters are consumed; "T13:45," fails. -/
theorem C24_fraction_value_witness :
    parseTime (("T13:45".toList ++ (if true then ',' else '.') :: "25".toList) ++
        ((OffsetSuffix.zulu false).text ++ [])) 0
        (("T13:45".toList ++ (if true then ',' else '.') :: "25".toList).length +
          ((OffsetSuffix.zulu false).text.length + ([] : List Char).length))
        { _datetime := DateTime.hm, _offset := Offset.none } 0 =
      { p := 10,
        fmt := { _datetime := DateTime.hm, _offset := Offset.zulu,
                 _extra := { _useComma := true } },
        since_midnight := 49515000000000, gmt_offset := 0 } ∧
    parseTime (("T13:45".toList ++ (if true then ',' else '.') :: []) ++
        (OffsetSuffix.none.text ++ [])) 0
        (("T13:45".toList ++ (if true then ',' else '.') :: []).length +
          (OffsetSuffix.none.text.length + ([] : List Char).length))
        { _datetime := DateTime.hm, _offset := Offset.none } 0 =
      { p := 0,
        fmt := { _datetime := DateTime.hm, _offset := Offset.none,
                 _extra := { _useComma := true } },
        since_midnight := 49500000000000, gmt_offset := 0 } :=
  ⟨((C24_fraction_value "T13:45".toList "25".toList [] true (OffsetSuffix.zulu false) 0
      { _datetime := DateTime.hm, _offset := Offset.none } 49500000000000 60 0
      (by decide) trivial trivial (by decide) (by decide)).2).trans (by decide),
   ((C24_fraction_value "T13:45".toList [] [] true OffsetSuffix.none 0
      { _datetime := DateTime.hm, _offset := Offset.none } 49500000000000 60 0
      (by decide) trivial (by intro c hc; cases hc) (by decide) (by decide)).2).trans
      (by decide)⟩

/-- C25: default day and month.  For every text `YYYY-MM` (four-digit `Y`, two-digit `M`) that
is followed by nothing or by a character that is neither a digit nor `-`, parse in DateOnly
mode returns, when `1 ≤ M ≤ 12`, the variant YearMonth in extended form, the consumed length 7
and the day count of the first day of that month; when `M` is 0 or greater than 12 it returns
the consumed length 0 and leaves the caller's day count as it was. -/
theorem C25_year_month_defaults (Y M : Nat) (hY : Y < 10000) (hM : M < 100) (tail : List Char)
    (htail : ∀ c, tail.head? = some c → isdigit c = false ∧ c ≠ '-') (ld0 today : Int) :
    (ymText Y M).length = 7 ∧
    (1 ≤ M ∧ M ≤ 12 →
      detail.parse_iso8601 (ymText Y M ++ tail) (7 + tail.length) ld0 today ParseType.DateOnly =
        { consumed := 7,
          format := { _datetime := DateTime.ym, _offset := Offset.none,
                      _extra := { _useComma := false, _omitT := false, _basicDatetime := false,
                                  _basicOffset := false } },
          ld := dayCountOf Y M 1, since_midnight := 0, gmt_offset := 0 }) ∧
    (M = 0 ∨ 12 < M →
      (detail.parse_iso8601 (ymText Y M ++ tail) (7 + tail.length) ld0 today
        ParseType.DateOnly).consumed = 0 ∧
      (detail.parse_iso8601 (ymText Y M ++ tail) (7 + tail.length) ld0 today
        ParseType.DateOnly).ld = ld0) := by
  have hdet := detect_ym Y M tail htail ParseType.DateOnly (by decide)
  have hpd := parseDate_ym Y M hY hM tail Offset.none false false false ld0
  refine ⟨by simp [ymText, numeral_length], ?_, ?_⟩
  · intro h
    unfold detail.parse_iso8601
    simp only [hdet]
    rw [hpd, if_pos h]
    rfl
  · intro h
    have h2 : ¬ (1 ≤ M ∧ M ≤ 12) := by omega
    unfold detail.parse_iso8601
    simp only [hdet]
    rw [hpd, if_neg h2]
    exact ⟨rfl, rfl⟩

/-- Witness of C25: "2024-02" is the YearMonth 2024-02 with the day count of 2024-02-01;
"2024-13" is rejected. -/
theorem C25_year_month_defaults_witness :
    (detail.parse_iso8601 (ymText 2024 2 ++ []) (7 + ([] : List Char).length) 0 0
      ParseType.DateOnly).ld = dayCountOf 2024 2 1 ∧
    (detail.parse_iso8601 (ymText 2024 13 ++ []) (7 + ([] : List Char).length) 0 0
      ParseType.DateOnly).consumed = 0 :=
  ⟨congrArg ParseResult.ld
    ((C25_year_month_defaults 2024 2 (by decide) (by decide) [] (fun _ h => by cases h) 0 0).2.1
      (by decide)),
   ((C25_year_month_defaults 2024 13 (by decide) (by decide) [] (fun _ h => by cases h) 0 0).2.2
      (by decide)).1⟩

/-- Counterexample to C26 as stated: the offset of -30 s is negative, yet the formatter renders
the sign `+`: `min_offset = offset / 60` truncates to 0, which is not negative.  The suffix is
"+00:00" for the kind `hm`, "+0000" for the compact `hm` and "+00" for the kind `h`.  The same
happens for the offset of -2³²·60 s, whose minute count wraps to 0 in the `int` variable
`min_offset`. -/
theorem C26_counterexample :
    offsetText { _offset := Offset.hm } (-30) = some "+00:00".toList ∧
    offsetText { _offset := Offset.hm, _extra := { _basicOffset := true } } (-30) =
      some "+0000".toList ∧
    offsetText { _offset := Offset.h } (-30) = some "+00".toList ∧
    renderText {} Precision.Second 0 (-30) = "1970-01-01T00:00:00+00:00".toList ∧
    (detail.format_iso8601 none 0 {} Precision.Second 0 (-30)).1 = 25 ∧
    offsetText { _offset := Offset.hm } (-257698037760) = some "+00:00".toList := by
  decide

/-- C26 (amended): for every negative offset `g` in seconds and every format with a time part
and the offset kind `h` or `hm`, the offset suffix starts with the sign `-` exactly when the
minute count that the formatter computes, `g / 60` truncated toward zero and converted to `int`,
is negative.  For `-2³¹·60 < g < 0` this is exactly when `g ≤ -60`; for the offsets of
-59 .. -1 seconds the sign is `+`.  The rendered text is the text without offset followed by
this suffix. -/
theorem C26_negative_offset_sign (fmt : ISO8601Format) (precision_ : Precision) (lt_ g : Int)
    (ht : (formatHelper fmt._datetime)._time ≠ DateTime.Invalid)
    (hk : fmt._offset = Offset.h ∨ fmt._offset = Offset.hm) (hg : g < 0) :
    ∃ rest : List Char,
      offsetText fmt g =
        some ((if i32 (Int.tdiv g 60) < 0 then '-' else '+') :: rest) ∧
      renderText fmt precision_ lt_ g =
        renderText { fmt with _offset := Offset.none } precision_ lt_ g ++
          (if i32 (Int.tdiv g 60) < 0 then '-' else '+') :: rest ∧
      (-128849018880 < g → (i32 (Int.tdiv g 60) < 0 ↔ g ≤ -60)) ∧
      (-128849018880 < g → g ≤ -60 → (offsetText fmt g).bind List.head? = some '-') ∧
      (-60 < g → (offsetText fmt g).bind List.head? = some '+') := by
  have h0 : (g = 0) = False := eq_false (by omega)
  have hz : ¬ (fmt._offset = Offset.zulu) := by
    rcases hk with h | h <;> rw [h] <;> decide
  have hrange : -128849018880 < g → (i32 (Int.tdiv g 60) < 0 ↔ g ≤ -60) := by
    intro hr
    have hn : i32 (Int.tdiv g 60) = Int.tdiv g 60 := by
      apply i32_eq <;> rw [tdiv_cases _ 60 (by decide)] <;> split_ifs <;> omega
    rw [hn, tdiv_cases _ 60 (by decide)]
    split_ifs <;> omega
  have key : ∃ rest : List Char,
      offsetText fmt g =
        some ((if i32 (Int.tdiv g 60) < 0 then '-' else '+') :: rest) := by
    by_cases hm : i32 (Int.tdiv g 60) < 0
    · rcases hk with h | h
      · exact ⟨_, by
          simp only [offsetText, h, h0, false_and, if_false, numericOffsetText, hm, if_true,
            vformat]
          rfl⟩
      · cases hb : fmt._extra._basicOffset
        · exact ⟨_, by
            simp only [offsetText, h, h0, false_and, if_false, hb, numericOffsetText, hm,
              if_true, vformat, Bool.false_eq_true]
            rfl⟩
        · exact ⟨_, by
            simp only [offsetText, h, h0, false_and, if_false, hb, numericOffsetText, hm,
              if_true, vformat]
            rfl⟩
    · rcases hk with h | h
      · exact ⟨_, by
          simp only [offsetText, h, h0, false_and, if_false, numericOffsetText, hm, vformat]
          rfl⟩
      · cases hb : fmt._extra._basicOffset
        · exact ⟨_, by
            simp only [offsetText, h, h0, false_and, if_false, hb, numericOffsetText, hm,
              vformat, Bool.false_eq_true]
            rfl⟩
        · exact ⟨_, by
            simp only [offsetText, h, h0, false_and, if_false, hb, numericOffsetText, hm,
              if_true, vformat]
            rfl⟩
  obtain ⟨rest, hr⟩ := key
  refine ⟨rest, hr, ?_, hrange, ?_, ?_⟩
  · rw [renderText_offset fmt precision_ lt_ g ht, hr, if_neg hz]
    rfl
  · intro h1 h
    rw [hr, if_pos ((hrange h1).mpr h)]
    rfl
  · intro h
    have h2 : ¬ (i32 (Int.tdiv g 60) < 0) := by
      intro hc
      have := (hrange (by omega)).mp hc
      omega
    rw [hr, if_neg h2]
    rfl

/-- Witness of C26 (amended): the offset -90 s is rendered with the sign `-` ("-00:01"), the
offset -30 s with the sign `+`. -/
theorem C26_negative_offset_sign_witness :
    (offsetText {} (-90)).bind List.head? = some '-' ∧
    (offsetText {} (-30)).bind List.head? = some '+' :=
  ⟨(C26_negative_offset_sign {} Precision.Second 0 (-90) (by decide) (Or.inr rfl)
      (by decide)).elim (fun _ h => h.2.2.2.1 (by decide) (by decide)),
   (C26_negative_offset_sign {} Precision.Second 0 (-30) (by decide) (Or.inr rfl)
      (by decide)).elim (fun _ h => h.2.2.2.2 (by decide))⟩

/-- C27 fails on the code: `parseDate` reads the field widths of the detected variant without
looking at the end pointer.  The six-character text "2024-6" is detected as YearOrdinalDay (one
digit after `YYYY-`), `num` reads the three characters at positions 5, 6 and 7 (the `6`, the
terminating NUL and the byte behind it, here NUL too: 600 - 480 - 48 = 72, a valid ordinal day)
and the parser returns the consumed length 8.  Likewise for the first six characters of the
buffer "2024-123" (`len_ = 6`): the ordinal day 123 is read from beyond the end and the consumed
length is 8.  Both in DateOnly and in DateTime mode. -/
theorem C27_consumed_exceeds_length :
    "2024-6".toList.length = 6 ∧
    (detail.parse_iso8601 "2024-6".toList 6 0 0 ParseType.DateOnly).consumed = 8 ∧
    (detail.parse_iso8601 "2024-6".toList 6 0 0 ParseType.DateOnly).ld =
      dayCountOf 2024 1 1 + (72 - 1) ∧
    (detail.parse_iso8601 "2024-6".toList 6 0 0 ParseType.DateTime).consumed = 8 ∧
    (detail.parse_iso8601 "2024-123".toList 6 0 0 ParseType.DateOnly).consumed = 8 ∧
    (detail.parse_iso8601 "2024-123".toList 6 0 0 ParseType.DateOnly).ld =
      dayCountOf 2024 1 1 + (123 - 1) ∧
    (detail.parse_iso8601 "2024-123".toList 6 0 0 ParseType.DateTime).consumed = 8 := by
  decide

/-- Counterexample to C28 as stated: `parseTime` stores `h·3600 + m·60 + s` seconds without any
range check on the fields.  "99:99:99" is consumed in full (8 characters) in TimeOnly and in
DateTime mode and yields 362439 s since midnight, more than four days; "24:00:00" yields exactly
86400 s; "2024-03-05T25:00" is consumed in full as a combined value with 90000 s since
midnight. -/
theorem C28_counterexample :
    (detail.parse_iso8601 "99:99:99".toList 8 0 0 ParseType.TimeOnly).consumed = 8 ∧
    (detail.parse_iso8601 "99:99:99".toList 8 0 0 ParseType.TimeOnly).since_midnight =
      362439 * 1000000000 ∧
    (detail.parse_iso8601 "99:99:99".toList 8 0 0 ParseType.DateTime).consumed = 8 ∧
    (detail.parse_iso8601 "99:99:99".toList 8 0 0 ParseType.DateTime).since_midnight =
      362439 * 1000000000 ∧
    (detail.parse_iso8601 "24:00:00".toList 8 0 0 ParseType.TimeOnly).consumed = 8 ∧
    (detail.parse_iso8601 "24:00:00".toList 8 0 0 ParseType.TimeOnly).since_midnight =
      86400 * 1000000000 ∧
    (detail.parse_iso8601 "2024-03-05T25:00".toList 16 0 0 ParseType.DateTime).consumed = 16 ∧
    (detail.parse_iso8601 "2024-03-05T25:00".toList 16 0 0 ParseType.DateTime).since_midnight =
      90000 * 1000000000 ∧
    ¬ ((362439 : Int) * 1000000000 < 86400 * 1000000000) := by
  decide

/-- C28 (amended): for every text, every length and every parse mode, the time that the parser
returns (whatever the consumed length) satisfies `0 ≤ nanosSinceMidnight < 362440·10⁹`: the
hour, minute and second fields are two digits each without a range check, so the fields give
at most 99:99:99, and a fraction adds less than one unit of the last field.  The bound is
attained up to one nanosecond by "99:99:99.999999999", which is consumed in full. -/
theorem C28_parsed_time_bounds (s : List Char) (len_ : Nat) (ld_ today : Int)
    (pt_ : ParseType) :
    (0 ≤ (detail.parse_iso8601 s len_ ld_ today pt_).since_midnight ∧
      (detail.parse_iso8601 s len_ ld_ today pt_).since_midnight < 362440 * 1000000000) ∧
    (detail.parse_iso8601 "99:99:99.999999999".toList 18 0 0 ParseType.TimeOnly).consumed =
      18 ∧
    (detail.parse_iso8601 "99:99:99.999999999".toList 18 0 0 ParseType.TimeOnly).since_midnight =
      362440 * 1000000000 - 1 := by
  refine ⟨?_, by decide, by decide⟩
  have h := parse_since_midnight_bounds s len_ ld_ today pt_
  norm_num
  exact h

/-- C29: Zulu rendering is the UTC rendering.  For every format with a time part and the offset
kind Zulu, every precision, every local time `lt_` (nanoseconds) and every offset `o` (seconds),
and every buffer and capacity: formatting `lt_` with the offset `o` returns the same length and
leaves the same memory as formatting the time shifted to UTC, `lt_ - o`, with the offset 0; the
public `format_iso8601` returns the same string; and the rendered text is the rendering of the
shifted time without offset suffix, followed by `Z`. -/
theorem C29_zulu_is_utc_rendering (buf_ : Option (List Char)) (maxlen_ : Nat) (buf : List Char)
    (fmt : ISO8601Format) (precision_ : Precision) (lt_ o : Int)
    (ht : (formatHelper fmt._datetime)._time ≠ DateTime.Invalid)
    (hz : fmt._offset = Offset.zulu) :
    detail.format_iso8601 buf_ maxlen_ fmt precision_ lt_ o =
      detail.format_iso8601 buf_ maxlen_ fmt precision_ (lt_ - o * 1000000000) 0 ∧
    format_iso8601 buf precision_ lt_ o fmt =
      format_iso8601 buf precision_ (lt_ - o * 1000000000) 0 fmt ∧
    renderText fmt precision_ lt_ o = renderText fmt precision_ (lt_ - o * 1000000000) 0 ∧
    renderText fmt precision_ lt_ o =
      renderText { fmt with _offset := Offset.none } precision_ (lt_ - o * 1000000000) 0 ++
        ['Z'] := by
  have e0 : lt_ - o * 1000000000 - 0 * 1000000000 = lt_ - o * 1000000000 := by ring
  have h1 : detail.format_iso8601 buf_ maxlen_ fmt precision_ lt_ o =
      detail.format_iso8601 buf_ maxlen_ fmt precision_ (lt_ - o * 1000000000) 0 := by
    simp only [detail.format_iso8601, hz, if_true, e0, offsetText_zulu fmt o hz,
      offsetText_zulu fmt 0 hz]
  have h2 : detail.format_iso8601 (some buf) 64 fmt precision_ lt_ o =
      detail.format_iso8601 (some buf) 64 fmt precision_ (lt_ - o * 1000000000) 0 := by
    simp only [detail.format_iso8601, hz, if_true, e0, offsetText_zulu fmt o hz,
      offsetText_zulu fmt 0 hz]
  have h3 : renderText fmt precision_ lt_ o =
      renderText fmt precision_ (lt_ - o * 1000000000) 0 := by
    simp only [renderText, hz, if_true, e0, offsetText_zulu fmt o hz, offsetText_zulu fmt 0 hz]
  refine ⟨h1, ?_, h3, ?_⟩
  · simp only [format_iso8601, h2]
  · rw [renderText_offset fmt precision_ lt_ o ht, if_pos hz, offsetText_zulu fmt o hz]
    have hn : ¬ (Offset.none = Offset.zulu) := by decide
    simp only [renderText, hn, if_false, Option.getD_some,
      offsetText_none { fmt with _offset := Offset.none } o rfl,
      offsetText_none { fmt with _offset := Offset.none } 0 rfl]

/-- Witness of C29: 2024-03-05 13:45:30 local time at the offset +05:30 is rendered as
"2024-03-05T08:15:30Z", the rendering of 08:15:30 UTC. -/
theorem C29_zulu_is_utc_rendering_witness :
    renderText canonicalFormat Precision.Second 1709646330000000000 19800 =
      renderText canonicalFormat Precision.Second (1709646330000000000 - 19800 * 1000000000) 0 :=
  (C29_zulu_is_utc_rendering none 0 [] canonicalFormat Precision.Second 1709646330000000000
    19800 (by decide) rfl).2.2.1

/-- C30: no 64-bit overflow in fraction scaling.  For every text and every pair of positions the
value `v` computed by `frac` satisfies `0 ≤ v < 10^15`; the factor `fsec` that the fields block
of `parseTime` supplies is 1, 60 or 3600; so the product `v * fsec` lies in `[0, 2^63)` and a
signed 64-bit multiplication yields the exact product.  For every local time `lt` (with the
time of day `tod` the formatter derives from it) the nanoseconds that the formatter rescales
are below `60·10^9` for `hm` and below `3600·10^9` for `h`; so `ns * 1000` (for `hm`) and
`ns * 1000 * 1000` (for `h`, both multiplications) lie in `[0, 2^63)`, 64-bit arithmetic yields
the exact products, and the fraction the formatter prints is the quotient of these exact
products. -/
theorem C30_no_overflow_in_fraction_scaling (s : List Char) (p e q : Nat) (fmt : ISO8601Format)
    (time : DateTime) (lt : Int) :
    (0 ≤ (frac s p e).1 ∧ (frac s p e).1 < 10 ^ 15) ∧
    (parseTimeFields s q fmt).all (fun r => decide (r.2.2 = fsecOf fmt._datetime)) = true ∧
    (fsecOf time = 1 ∨ fsecOf time = 60 ∨ fsecOf time = 3600) ∧
    (0 ≤ (frac s p e).1 * fsecOf time ∧ (frac s p e).1 * fsecOf time < 2 ^ 63) ∧
    wrap64 ((frac s p e).1 * fsecOf time) = (frac s p e).1 * fsecOf time ∧
    (parseTimeFraction s p e fmt (fsecOf time)).ns =
      (if (parseTimeFraction s p e fmt (fsecOf time)).failed = false ∧
          (parseTimeFraction s p e fmt (fsecOf time)).p ≠ p
        then Int.tdiv (wrap64 ((frac s (p + 1) e).1 * fsecOf time)) 1000000 else 0) ∧
    (0 ≤ fracNanos DateTime.hm lt (lt - lt / 86400000000000 * 86400000000000) ∧
      fracNanos DateTime.hm lt (lt - lt / 86400000000000 * 86400000000000) < 60 * 10 ^ 9) ∧
    (0 ≤ fracNanos DateTime.hm lt (lt - lt / 86400000000000 * 86400000000000) * 1000 ∧
      fracNanos DateTime.hm lt (lt - lt / 86400000000000 * 86400000000000) * 1000 < 2 ^ 63) ∧
    wrap64 (fracNanos DateTime.hm lt (lt - lt / 86400000000000 * 86400000000000) * 1000) =
      fracNanos DateTime.hm lt (lt - lt / 86400000000000 * 86400000000000) * 1000 ∧
    (0 ≤ fracNanos DateTime.h lt (lt - lt / 86400000000000 * 86400000000000) ∧
      fracNanos DateTime.h lt (lt - lt / 86400000000000 * 86400000000000) < 3600 * 10 ^ 9) ∧
    (0 ≤ fracNanos DateTime.h lt (lt - lt / 86400000000000 * 86400000000000) * 1000 * 1000 ∧
      fracNanos DateTime.h lt (lt - lt / 86400000000000 * 86400000000000) * 1000 * 1000 <
        2 ^ 63) ∧
    wrap64 (wrap64 (fracNanos DateTime.h lt (lt - lt / 86400000000000 * 86400000000000) * 1000)
        * 1000) =
      fracNanos DateTime.h lt (lt - lt / 86400000000000 * 86400000000000) * 1000 * 1000 ∧
    (fraction DateTime.hm Precision.NanoSecond lt
        (lt - lt / 86400000000000 * 86400000000000)).1 =
      Int.tdiv (fracNanos DateTime.hm lt (lt - lt / 86400000000000 * 86400000000000) * 1000)
        60 ∧
    (fraction DateTime.h Precision.NanoSecond lt
        (lt - lt / 86400000000000 * 86400000000000)).1 =
      Int.tdiv
        (fracNanos DateTime.h lt (lt - lt / 86400000000000 * 86400000000000) * 1000 * 1000)
        3600 := by
  have hv := frac_value_bounds s p e
  have hv1 := frac_value_bounds s (p + 1) e
  have hf := fsecOf_cases time
  have hb := fracNanos_bounds lt (lt - lt / 86400000000000 * 86400000000000)
  have hl1 : (fraction DateTime.hm Precision.NanoSecond lt
        (lt - lt / 86400000000000 * 86400000000000)).1 =
      Int.tdiv (fracNanos DateTime.hm lt (lt - lt / 86400000000000 * 86400000000000) * 1000)
        60 := rfl
  have hl2 : (fraction DateTime.h Precision.NanoSecond lt
        (lt - lt / 86400000000000 * 86400000000000)).1 =
      Int.tdiv
        (fracNanos DateTime.h lt (lt - lt / 86400000000000 * 86400000000000) * 1000 * 1000)
        3600 := rfl
  generalize fracNanos DateTime.hm lt (lt - lt / 86400000000000 * 86400000000000) = a
    at hb hl1 ⊢
  generalize fracNanos DateTime.h lt (lt - lt / 86400000000000 * 86400000000000) = b
    at hb hl2 ⊢
  have hprod : ∀ v : Int, 0 ≤ v → v < 10 ^ 15 →
      0 ≤ v * fsecOf time ∧ v * fsecOf time < 2 ^ 63 := by
    intro v h0 h1
    norm_num at h1 ⊢
    rcases hf with h | h | h <;> rw [h] <;> omega
  have hp := hprod _ hv.1 hv.2
  have hp1 := hprod _ hv1.1 hv1.2
  have e263 : (2 : Int) ^ 63 = 9223372036854775808 := by norm_num
  refine ⟨hv, parseTimeFields_fsec s q fmt, hf, hp,
    wrap64_eq _ (by rw [e263]; omega) hp.2, ?_, ?_, ?_, ?_, ?_, ?_, ?_, hl1, hl2⟩
  · rw [wrap64_eq _ (by rw [e263]; omega) hp1.2]
    unfold parseTimeFraction
    simp only []
    split_ifs <;> simp_all <;> omega
  · norm_num; omega
  · norm_num; omega
  · apply wrap64_eq <;> norm_num <;> omega
  · norm_num; omega
  · norm_num; omega
  · rw [wrap64_eq (b * 1000) (by norm_num; omega) (by norm_num; omega)]
    apply wrap64_eq <;> norm_num <;> omega

end Iso8601
